import Mathlib

/-!
# typeCheck.cc: a shallow embedding

The program reads a serialized derivation tree from standard input (one node
per line), rebuilds it (`buildTree`), walks it once (`treeTraversal`) binding
declarations and inferring the types `int` / `int*`, and prints it back with
type annotations (`printTree`).

Conventions of the embedding.

* `std::string` is `String`; a `char` is a `Char`. `islower` and `isspace`
  are those of the "C" locale.
* `cerr` is the list of lines written to it. `errorReport` is the text of the
  line it writes; every function returns, next to its result, the lines it
  wrote. The global flag `hasErrorOccurred` is only ever read by `buildTree`,
  whose state carries it; it is set whenever a line is written.
* `std::unordered_map` is an association list with unique keys.
* Indexing a `vector` outside its bounds and `back()` on an empty vector are
  undefined behaviour in the source; the embedding makes them the explicit
  result `Fault.outOfBounds` / `Fault.emptyStack`.
* Recursion over the tree is by fuel (`Fault.noFuel` when it runs out): the
  builder needs at most one unit per line and the traversal at most the height
  of the tree (`buildTree_fuel`, `treeTraversal_fuel`, `main_fuel`).
* The `int` cursor and counters are natural numbers: they only ever grow by
  one per input line or tree node.
-/

namespace TypeCheck

/-! ## Results and faults -/

/-- Ways a run can leave the defined behaviour of the source (or of the model). -/
inductive Fault where
  | outOfBounds
  | emptyStack
  | noFuel
deriving DecidableEq, Repr

instance instDecidableEqExcept {ε α : Type} [DecidableEq ε] [DecidableEq α] :
    DecidableEq (Except ε α)
  | .ok a, .ok b => if h : a = b then isTrue (by rw [h]) else isFalse (by intro h2; cases h2; exact h rfl)
  | .error a, .error b =>
    if h : a = b then isTrue (by rw [h]) else isFalse (by intro h2; cases h2; exact h rfl)
  | .ok _, .error _ => isFalse (by intro h; cases h)
  | .error _, .ok _ => isFalse (by intro h; cases h)

/-! ## errorReport -/

/-- The line `errorReport(errorMessage, index)` writes to `cerr`; the default
index of the source is `-1`. The call also sets `hasErrorOccurred`. -/
def errorReport (errorMessage : String) (index : Int) : String :=
  "ERROR: " ++ errorMessage ++ (if index ≥ 0 then " Index: " ++ toString index else "")

/-! ## Tree -/

/-- The class `Tree`: `rule`, the owned `children`, `type` and `lexeme`. -/
inductive Tree where
  | mk (rule : String) (children : List Tree) (type : String) (lexeme : String)
deriving Repr

namespace Tree

/-- The constructor `Tree(r)`: no children, empty type and lexeme. -/
def new (r : String) : Tree := mk r [] "" ""

def rule : Tree → String
  | mk r _ _ _ => r

def children : Tree → List Tree
  | mk _ cs _ _ => cs

def type : Tree → String
  | mk _ _ t _ => t

def lexeme : Tree → String
  | mk _ _ _ l => l

def getRule (t : Tree) : String := t.rule

def getType (t : Tree) : String := t.type

def getLexeme (t : Tree) : String := t.lexeme

def getChildrenSize (t : Tree) : Nat := t.children.length

def setType : Tree → String → Tree
  | mk r cs _ l, t => mk r cs t l

def setLexeme : Tree → String → Tree
  | mk r cs t _, value => mk r cs t value

/-- Replace the whole children vector (used to write back a child that was
modified in place through its `unique_ptr`). -/
def setChildren : Tree → List Tree → Tree
  | mk r _ t l, cs => mk r cs t l

/-- The method `addChild`: a `NUM` child is typed `int`, a `NULL` child `int*`,
then the child is pushed at the back. -/
def addChild (parent child : Tree) : Tree :=
  let child :=
    if child.getRule = "NUM" then child.setType "int"
    else if child.getRule = "NULL" then child.setType "int*"
    else child
  parent.setChildren (parent.children ++ [child])

/-- The access `node.children[i]`, undefined behaviour outside the bounds. -/
def child (node : Tree) (i : Nat) : Except Fault Tree :=
  match node.children[i]? with
  | some c => .ok c
  | none => .error .outOfBounds

/-- In-place update of `node.children[i]` (no effect outside the bounds). -/
def setChild (node : Tree) (i : Nat) (c : Tree) : Tree :=
  node.setChildren (node.children.set i c)

end Tree

mutual
/-- Height of a tree: the number of nodes on its longest root-to-leaf path. -/
def Tree.height : Tree → Nat
  | .mk _ cs _ _ => Tree.heightList cs + 1
/-- Largest height among a list of trees. -/
def Tree.heightList : List Tree → Nat
  | [] => 0
  | c :: cs => max (Tree.height c) (Tree.heightList cs)
end

mutual
/-- Decidable equality of trees. -/
def Tree.decEq : (a b : Tree) → Decidable (a = b)
  | .mk r1 c1 t1 l1, .mk r2 c2 t2 l2 =>
    if hr : r1 = r2 then
      if ht : t1 = t2 then
        if hl : l1 = l2 then
          match Tree.decEqList c1 c2 with
          | isTrue hc => isTrue (by subst hr ht hl hc; rfl)
          | isFalse hc => isFalse (by intro h; injection h with _ h2; exact hc h2)
        else isFalse (by intro h; injection h with _ _ _ h4; exact hl h4)
      else isFalse (by intro h; injection h with _ _ h3; exact ht h3)
    else isFalse (by intro h; injection h with h1; exact hr h1)
/-- Decidable equality of lists of trees. -/
def Tree.decEqList : (a b : List Tree) → Decidable (a = b)
  | [], [] => isTrue rfl
  | [], _ :: _ => isFalse (by intro h; cases h)
  | _ :: _, [] => isFalse (by intro h; cases h)
  | x :: xs, y :: ys =>
    match Tree.decEq x y with
    | isTrue h1 =>
      match Tree.decEqList xs ys with
      | isTrue h2 => isTrue (by subst h1 h2; rfl)
      | isFalse h2 => isFalse (by intro h; injection h with _ h4; exact h2 h4)
    | isFalse h1 => isFalse (by intro h; injection h with h3; exact h1 h3)
end

instance instDecidableEqTree : DecidableEq Tree := Tree.decEq

/-! ## SymbolTable -/

/-- The class `SymbolTable`: the map `table` from variable name to type. -/
structure SymbolTable where
  table : List (String × String)
deriving DecidableEq, Repr

namespace SymbolTable

/-- The result of `table.find(name)`: the mapped type, if any. -/
def find (s : SymbolTable) (name : String) : Option String :=
  s.table.lookup name

/-- The method `declareVariable`: report when the name is bound, otherwise bind it.
Returns the table afterwards and the lines written to `cerr`. -/
def declareVariable (s : SymbolTable) (name type : String) : SymbolTable × List String :=
  match s.find name with
  | some _ => (s, [errorReport ("Variable " ++ name ++ " is already declared") (-1)])
  | none => (⟨s.table ++ [(name, type)]⟩, [])

/-- The method `getType`: the bound type, or a report and `""`.
Returns the table afterwards, the returned string and the lines written. -/
def getType (s : SymbolTable) (name : String) : SymbolTable × String × List String :=
  match s.find name with
  | some t => (s, t, [])
  | none => (s, "", [errorReport ("Variable " ++ name ++ " was not declared") (-1)])

/-- The method `isDeclared`. -/
def isDeclared (s : SymbolTable) (name : String) : Bool :=
  (s.find name).isSome

end SymbolTable

/-! ## ProcedureTable -/

/-- The class `ProcedureTable`: the map `table` from procedure name to the list
of its argument types. -/
structure ProcedureTable where
  table : List (String × List String)
deriving DecidableEq, Repr

/-- The assignment `table[name] = value` of a map: overwrite the entry of an
existing key, insert otherwise. -/
def mapAssign {β : Type} : List (String × β) → String → β → List (String × β)
  | [], name, v => [(name, v)]
  | (k, w) :: rest, name, v =>
    if k = name then (k, v) :: rest else (k, w) :: mapAssign rest name v

namespace ProcedureTable

/-- The method `procedureExists`. -/
def procedureExists (p : ProcedureTable) (name : String) : Bool :=
  (p.table.lookup name).isSome

/-- The method `addProcedure`: report when the name exists, then assign
`table[name] = argTypes` in either case. -/
def addProcedure (p : ProcedureTable) (name : String) (argTypes : List String) :
    ProcedureTable × List String :=
  let out := if p.procedureExists name then [errorReport "Procedure already exists!" (-1)] else []
  (⟨mapAssign p.table name argTypes⟩, out)

end ProcedureTable

/-! ## Reading a line -/

/-- The test `islower(ch)` in the "C" locale. -/
def islower (ch : Char) : Bool := 'a' ≤ ch ∧ ch ≤ 'z'

/-- The test `isspace(ch)` in the "C" locale: space, `\t`, `\n`, `\v`, `\f`, `\r`. -/
def isspace (ch : Char) : Bool :=
  ch = ' ' ∨ ch = '\t' ∨ ch = '\n' ∨ ch = '\x0b' ∨ ch = '\x0c' ∨ ch = '\r'

/-- The function `isNonTerminal`: every character is lowercase (true for `""`). -/
def isNonTerminal (word : String) : Bool := word.data.all islower

/-- Words of a character sequence, scanning left to right; `cur` is the word
being read. -/
def wordsAux : List Char → List Char → List String
  | [], cur => if cur = [] then [] else [String.mk cur]
  | ch :: rest, cur =>
    if isspace ch then
      if cur = [] then wordsAux rest [] else String.mk cur :: wordsAux rest []
    else wordsAux rest (cur ++ [ch])

/-- The successive results of `iss >> word` on a `stringstream` over `line`:
its maximal whitespace-free words. -/
def words (line : String) : List String := wordsAux line.data []

/-! ## buildTree -/

/-- The variables `buildTree` shares with its caller: the cursor `idx` into the
lines and the global flag `hasErrorOccurred`. -/
structure BuildState where
  idx : Nat
  hasErrorOccurred : Bool
deriving DecidableEq, Repr

/-- The loop `while (iss >> childRule)` of `buildTree` over the child names still
to be read from the line; `rec` is the recursive call of `buildTree`. -/
def buildChildren (rec : Tree → BuildState → Except Fault (Tree × BuildState × List String))
    (lines : List String) :
    List String → Tree → BuildState → Except Fault (Tree × BuildState × List String)
  | [], parent, s => .ok (parent, s, [])
  | childRule :: rest, parent, s =>
    if s.hasErrorOccurred then .ok (parent, s, [])
    else if childRule = ".EMPTY" then .ok (parent, s, [])
    else
      let s1 : BuildState := { s with idx := s.idx + 1 }
      if s1.idx ≥ lines.length then
        .ok (parent, { s1 with hasErrorOccurred := true },
          [errorReport "Unexpected end of file" s1.idx])
      else
        match rec (Tree.new childRule) s1 with
        | .error e => .error e
        | .ok (child, s2, out1) =>
          match buildChildren rec lines rest (parent.addChild child) s2 with
          | .error e => .error e
          | .ok (parent2, s3, out2) => .ok (parent2, s3, out1 ++ out2)

/-- The function `buildTree(parent, lines, idx)`, with the recursion depth
bounded by the fuel. Returns the filled `parent`, the cursor and flag
afterwards, and the lines written to `cerr`. With the cursor past the last
line the source reports and then reads `lines[idx]` all the same: the result is
`Fault.outOfBounds`. The words of the line are read up front; the source reads
them one by one from the same stream. -/
def buildTree : Nat → List String → Tree → BuildState →
    Except Fault (Tree × BuildState × List String)
  | 0, _, _, _ => .error .noFuel
  | fuel + 1, lines, parent, s =>
    match lines[s.idx]? with
    | none => .error .outOfBounds
    | some line =>
      let rule := (words line).headD ""
      if isNonTerminal rule then
        buildChildren (buildTree fuel lines) lines (words line).tail parent s
      else
        match (words line).tail with
        | lexeme :: _ => .ok (parent.setLexeme lexeme, s, [])
        | [] =>
          .ok (parent, { s with hasErrorOccurred := true },
            [errorReport "Missing lexeme for terminal symbol" s.idx])

/-! ## printTree -/

/-- The loop `for (i = 0; i < numberOfChildren; i++) cout << " " << rule` of
`printTree` over the children of a nonterminal. -/
def printChildren : List Tree → String
  | [] => ""
  | c :: cs => " " ++ c.getRule ++ printChildren cs

/-- The part of a node's line that `printTree` writes before the type: the rule,
then the lexeme of a terminal, or the children's rules (`.EMPTY` if none). -/
def printHead (node : Tree) : String :=
  if isNonTerminal node.rule then
    node.rule ++ (if node.getChildrenSize = 0 then " .EMPTY" else "")
      ++ printChildren node.children
  else node.rule ++ " " ++ node.lexeme

/-- The type suffix `printTree` appends to the line of a node with a type. -/
def printType (node : Tree) : String :=
  if node.type = "" then "" else " : " ++ node.type

mutual
/-- The function `printTree`: the lines written to `cout`, in pre-order. -/
def printTree : Tree → List String
  | .mk r cs t l =>
    (printHead (.mk r cs t l) ++ printType (.mk r cs t l)) :: printTreeList cs
/-- The loop of `printTree` over the children. -/
def printTreeList : List Tree → List String
  | [] => []
  | c :: cs => printTree c ++ printTreeList cs
end

/-! ## The state of the traversal -/

/-- The variables `treeTraversal` takes by reference: the stack of scopes, the
procedure table, the name of the open procedure, the accumulated parameter
types and the procedure counter. -/
structure Env where
  symbolTableStack : List SymbolTable
  procedureTable : ProcedureTable
  procedureName : String
  parameterTypeList : List String
  procedureNumber : Nat
deriving DecidableEq, Repr

/-- The variables as `main` declares them. -/
def Env.init : Env :=
  { symbolTableStack := [], procedureTable := ⟨[]⟩, procedureName := "",
    parameterTypeList := [], procedureNumber := 0 }

/-- The access `symbolTableStack.back()`, undefined behaviour on an empty stack. -/
def back (stack : List SymbolTable) : Except Fault SymbolTable :=
  match stack.getLast? with
  | some s => .ok s
  | none => .error .emptyStack

/-- Write `s` through the reference `symbolTableStack.back()`. -/
def setBack (stack : List SymbolTable) (s : SymbolTable) : List SymbolTable :=
  stack.dropLast ++ [s]

/-- The call `symbolTableStack.back().getType(name)`. -/
def backGetType (stack : List SymbolTable) (name : String) :
    Except Fault (List SymbolTable × String × List String) := do
  let s ← back stack
  let r := s.getType name
  pure (setBack stack r.1, r.2.1, r.2.2)

/-! ## The base cases of factor and lvalue -/

/-- The function `lvaluerRecursionBaseCase`. -/
def lvaluerRecursionBaseCase (node : Tree) (stack : List SymbolTable) :
    Except Fault (Tree × List SymbolTable × List String) := do
  let c0 ← node.child 0
  let returnType := c0.getLexeme
  let (stack1, t1, o1) ← backGetType stack returnType
  if t1 = "int" then
    pure ((node.setType "int").setChild 0 (c0.setType "int"), stack1, o1)
  else
    let (stack2, t2, o2) ← backGetType stack1 returnType
    if t2 = "int*" then
      pure ((node.setType "int*").setChild 0 (c0.setType "int*"), stack2, o1 ++ o2)
    else
      pure (node, stack2, o1 ++ o2 ++ [errorReport "Variable not declared! " (-1)])

/-- The function `factorRecursionBaseCase`. The last condition of the source,
`getType(returnType) == "int" || "int*"`, calls `getType` a third time and is
true whatever it returns. -/
def factorRecursionBaseCase (node : Tree) (stack : List SymbolTable) :
    Except Fault (Tree × List SymbolTable × List String) := do
  let c0 ← node.child 0
  let factorType := c0.getRule
  let returnType := c0.getLexeme
  if factorType = "NUM" then
    pure ((node.setType "int").setChild 0 (c0.setType "int"), stack, [])
  else if factorType = "NULL" then
    pure ((node.setType "int*").setChild 0 (c0.setType "int*"), stack, [])
  else
    let (stack1, t1, o1) ← backGetType stack returnType
    if t1 = "int" then
      pure ((node.setType "int").setChild 0 (c0.setType "int"), stack1, o1)
    else
      let (stack2, t2, o2) ← backGetType stack1 returnType
      if t2 = "int*" then
        pure ((node.setType "int*").setChild 0 (c0.setType "int*"), stack2, o1 ++ o2)
      else
        let (stack3, t3, o3) ← backGetType stack2 returnType
        if t3 = "int" ∨ True then
          pure (node, stack3, o1 ++ o2 ++ o3 ++ [errorReport "Variable not declared! " (-1)])
        else
          pure (node, stack3, o1 ++ o2 ++ o3 ++ [errorReport "Invalid return type " (-1)])

/-! ## The rules applied on entry to a node -/

/-- The type a type clause with `typeSize` children denotes. -/
def typeOfSize (typeSize : Nat) : String := if typeSize = 1 then "int" else "int*"

/-- Rule `procedures`: swap the live scope for a fresh one, count the procedure. -/
def enterProcedures (node : Tree) (env : Env) : Env :=
  if node.rule = "procedures" then
    let stack :=
      if env.procedureNumber ≠ 0 ∧ env.symbolTableStack ≠ [] then env.symbolTableStack.dropLast
      else env.symbolTableStack
    { env with symbolTableStack := stack ++ [⟨[]⟩], procedureNumber := env.procedureNumber + 1 }
  else env

/-- Rule `procedure`: record the name; register it at once when `children[3]`
has no children. -/
def enterProcedure (node : Tree) (env : Env) : Except Fault (Env × List String) :=
  if node.rule = "procedure" then do
    let c3 ← node.child 3
    let hasParameters : Bool := if c3.getChildrenSize = 0 then false else true
    let c1 ← node.child 1
    let env1 := { env with procedureName := c1.getLexeme }
    if !hasParameters then
      let r := env1.procedureTable.addProcedure env1.procedureName []
      pure ({ env1 with procedureTable := r.1 }, r.2)
    else pure (env1, [])
  else pure (env, [])

/-- Rule `paramlist`: append the parameter type; commit the list on the last
parameter of the chain. -/
def enterParamlist (node : Tree) (env : Env) : Except Fault (Env × List String) :=
  if node.rule = "paramlist" then do
    let c0 ← node.child 0
    let c00 ← c0.child 0
    let type := typeOfSize c00.getChildrenSize
    let env1 := { env with parameterTypeList := env.parameterTypeList ++ [type] }
    let lastParameter : Bool := if node.getChildrenSize = 1 then true else false
    if lastParameter then
      let r := env1.procedureTable.addProcedure env1.procedureName env1.parameterTypeList
      pure ({ env1 with procedureTable := r.1 }, r.2)
    else pure (env1, [])
  else pure (env, [])

/-- Rule `main`: the type clause of `children[5]` must denote `int`. -/
def enterMain (node : Tree) : Except Fault (List String) :=
  if node.rule = "main" then do
    let c5 ← node.child 5
    let c50 ← c5.child 0
    let type := typeOfSize c50.getChildrenSize
    if type ≠ "int" then
      pure [errorReport "The second parameter of wain is not int type" (-1)]
    else pure []
  else pure []

/-- Rule `dcl`: declare the name in the live scope, type the identifier. -/
def enterDcl (node : Tree) (env : Env) : Except Fault (Tree × Env × List String) :=
  if node.rule = "dcl" then do
    let c1 ← node.child 1
    let name := c1.getLexeme
    let c0 ← node.child 0
    let type := typeOfSize c0.getChildrenSize
    let s ← back env.symbolTableStack
    let r := s.declareVariable name type
    pure (node.setChild 1 (c1.setType type),
      { env with symbolTableStack := setBack env.symbolTableStack r.1 }, r.2)
  else pure (node, env, [])

/-- Rule `dcls`: with five children, type the `dcl` and compare with the type of
the initializer `children[3]`. -/
def enterDcls (node : Tree) : Except Fault (Tree × List String) :=
  if node.rule = "dcls" then
    let isEmpty : Bool := if node.getChildrenSize = 5 then false else true
    if !isEmpty then do
      let c1 ← node.child 1
      let c10 ← c1.child 0
      let type := typeOfSize c10.getChildrenSize
      let node1 := node.setChild 1 (c1.setType type)
      let c3 ← node1.child 3
      let assignType := c3.getType
      if type ≠ assignType then pure (node1, [errorReport "Type casting error" (-1)])
      else pure (node1, [])
    else pure (node, [])
  else pure (node, [])

/-- Lines 313 and 314: the base cases of a one-child `factor` or `lvalue`. -/
def enterBaseCases (node : Tree) (env : Env) : Except Fault (Tree × Env × List String) := do
  let nodeSize := node.getChildrenSize
  let (node1, stack1, o1) ←
    (if node.getRule = "factor" ∧ nodeSize = 1 then
      factorRecursionBaseCase node env.symbolTableStack
    else pure (node, env.symbolTableStack, []))
  let (node2, stack2, o2) ←
    (if node1.getRule = "lvalue" ∧ nodeSize = 1 then lvaluerRecursionBaseCase node1 stack1
    else pure (node1, stack1, []))
  pure (node2, { env with symbolTableStack := stack2 }, o1 ++ o2)

/-- Everything `treeTraversal` does before its loop over the children. -/
def enterNode (node : Tree) (env : Env) : Except Fault (Tree × Env × List String) := do
  let env1 := enterProcedures node env
  let (env2, o2) ← enterProcedure node env1
  let (env3, o3) ← enterParamlist node env2
  let o4 ← enterMain node
  let (node5, env5, o5) ← enterDcl node env3
  let (node6, o6) ← enterDcls node5
  let (node7, env7, o7) ← enterBaseCases node6 env5
  pure (node7, env7, o2 ++ o3 ++ o4 ++ o5 ++ o6 ++ o7)

/-! ## The rules applied after each child -/

/-- Lines 320 to 322: the type of the first child, cleared again on `statement`
and `test`. -/
def afterBaseline (node : Tree) : Except Fault Tree := do
  let node1 ←
    if node.getRule ≠ "arglist" then do
      let c0 ← node.child 0
      pure (node.setType c0.getType)
    else pure node
  let node2 := if node1.getRule = "statement" then node1.setType "" else node1
  let node3 := if node2.getRule = "test" then node2.setType "" else node2
  pure node3

/-- Lines 327 and 328: a parenthesized `factor` or `lvalue` takes the type of
`children[1]`. -/
def afterParen (node : Tree) : Except Fault Tree := do
  let c0 ← node.child 0
  let node1 ←
    if c0.getRule = "LPAREN" ∧ node.getRule = "factor" then do
      let c1 ← node.child 1
      pure (node.setType c1.getType)
    else pure node
  let c0 ← node1.child 0
  if c0.getRule = "LPAREN" ∧ node1.getRule = "lvalue" then do
    let c1 ← node1.child 1
    pure (node1.setType c1.getType)
  else pure node1

/-- Lines 330 to 337, for `rule` being `factor` and then `lvalue`: a dereference
of a typed operand has type `int` and wants an `int*` operand. -/
def afterStar (rule : String) (node : Tree) : Except Fault (Tree × List String) := do
  let c0 ← node.child 0
  if c0.getRule = "STAR" ∧ node.getRule = rule then do
    let c1 ← node.child 1
    if c1.getType ≠ "" then
      let out :=
        if c1.getType ≠ "int*" then
          [errorReport "In rule [factor STAR factor]: Expected child of type int*" (-1)]
        else []
      pure (node.setType "int", out)
    else pure (node, [])
  else pure (node, [])

/-- Line 338: an allocation has type `int*`. -/
def afterNew (node : Tree) : Except Fault Tree := do
  let c0 ← node.child 0
  if c0.getRule = "NEW" ∧ node.getRule = "factor" then pure (node.setType "int*")
  else pure node

/-- Lines 339 to 342: the address of a typed operand has type `int*` and wants an
`int` operand. -/
def afterAmp (node : Tree) : Except Fault (Tree × List String) := do
  let c0 ← node.child 0
  if c0.getRule = "AMP" ∧ node.getRule = "factor" then do
    let c1 ← node.child 1
    if c1.getType ≠ "" then
      let out :=
        if c1.getType ≠ "int" then
          [errorReport "In rule [factor AMP lvalue]: Expected child of type int" (-1)]
        else []
      pure (node.setType "int*", out)
    else pure (node, [])
  else pure (node, [])

/-- Lines 345 to 359: a three-child `expr` with `PLUS` or `MINUS`. -/
def afterExpr (node : Tree) : Except Fault (Tree × List String) := do
  if node.getRule = "expr" ∧ node.getChildrenSize = 3 then do
    let c1 ← node.child 1
    let node1 ←
      if c1.getRule = "PLUS" then do
        let c0 ← node.child 0
        let c2 ← node.child 2
        if c0.getType = "int*" ∨ c2.getType = "int*" then pure (node.setType "int*")
        else pure node
      else pure node
    let c1 ← node1.child 1
    if c1.getRule = "MINUS" then do
      let c0 ← node1.child 0
      let c2 ← node1.child 2
      let out :=
        if c0.getType = "int" ∧ c2.getType = "int*" then
          [errorReport "In rule [expr expr MINUS term]: cannot subtract int minus int*" (-1)]
        else []
      let c0 ← node1.child 0
      if c0.getType = "int*" then pure (node1.setType "int*", out)
      else pure (node1, out)
    else pure (node1, [])
  else pure (node, [])

/-- One of the three operator checks of lines 362 to 376. -/
def afterTermOp (node : Tree) (op : String) : Except Fault (List String) := do
  let c1 ← node.child 1
  if c1.getRule = op then do
    let c0 ← node.child 0
    let c2 ← node.child 2
    if c0.getType = "int*" ∨ c2.getType = "int*" then
      pure [errorReport ("In rule [term term " ++ op ++ " factor]: factor child is not type int")
        (-1)]
    else pure []
  else pure []

/-- Lines 361 to 377: a three-child `term` with `STAR`, `SLASH` or `PCT`. -/
def afterTerm (node : Tree) : Except Fault (List String) := do
  if node.getRule = "term" ∧ node.getChildrenSize = 3 then do
    let o1 ← afterTermOp node "STAR"
    let o2 ← afterTermOp node "SLASH"
    let o3 ← afterTermOp node "PCT"
    pure (o1 ++ o2 ++ o3)
  else pure []

/-- Lines 379 to 381: a call `ID LPAREN ...` has type `int`. -/
def afterCall (node : Tree) : Except Fault Tree := do
  if node.getRule = "factor" ∧ node.getChildrenSize ≥ 2 then do
    let c0 ← node.child 0
    let c1 ← node.child 1
    if c0.getRule = "ID" ∧ c1.getRule = "LPAREN" then pure (node.setType "int")
    else pure node
  else pure node

/-- Lines 383 to 396: the checks of assignment, `println` and `delete`. -/
def afterStatement (node : Tree) : Except Fault (List String) := do
  if node.getRule = "statement" then do
    let o1 ←
      if node.getChildrenSize = 4 then do
        let c0 ← node.child 0
        let c2 ← node.child 2
        if c0.getType ≠ "" ∧ c2.getType ≠ "" then
          if c0.getType ≠ c2.getType then pure [errorReport "Type Mismatch" (-1)]
          else pure []
        else pure []
      else pure []
    let o2 ←
      if node.getChildrenSize = 5 then do
        let c0 ← node.child 0
        let c2 ← node.child 2
        let oa :=
          if c0.getRule = "PRINTLN" ∧ c2.getType ≠ "" then
            if c2.getType ≠ "int" then
              [errorReport
                "In rule [statement PRINTLN LPAREN expr RPAREN SEMI]: expr does not have type int"
                (-1)]
            else []
          else []
        let c3 ← node.child 3
        let ob :=
          if c0.getRule = "DELETE" ∧ c3.getType ≠ "" then
            if c3.getType ≠ "int*" then
              [errorReport
                "In rule [statement DELETE LBRACK RBRACK expr SEMI]: expr does not have type int*"
                (-1)]
            else []
          else []
        pure (oa ++ ob)
      else pure []
    pure (o1 ++ o2)
  else pure []

/-- Lines 398 to 401: the comparison of a three-child `test`. -/
def afterTest (node : Tree) : Except Fault (List String) := do
  if node.getRule = "test" ∧ node.getChildrenSize = 3 then do
    let c0 ← node.child 0
    let c2 ← node.child 2
    if c0.getType ≠ "" ∧ c2.getType ≠ "" then
      if c0.getType ≠ c2.getType then pure [errorReport "Type mismatch during comparision" (-1)]
      else pure []
    else pure []
  else pure []

/-- The body of the loop of `treeTraversal` after the recursive call: lines 320
to 401, in order. Returns the node and the lines written. -/
def afterChild (node : Tree) : Except Fault (Tree × List String) := do
  let node1 ← afterBaseline node
  let node2 ← afterParen node1
  let (node3, o3) ← afterStar "factor" node2
  let (node4, o4) ← afterStar "lvalue" node3
  let node5 ← afterNew node4
  let (node6, o6) ← afterAmp node5
  let (node7, o7) ← afterExpr node6
  let o8 ← afterTerm node7
  let node9 ← afterCall node7
  let o10 ← afterStatement node9
  let o11 ← afterTest node9
  pure (node9, o3 ++ o4 ++ o6 ++ o7 ++ o8 ++ o10 ++ o11)

/-! ## treeTraversal -/

/-- The loop `for (child : node.children)` of `treeTraversal`, from child `i`
with `todo` children left; `rec` is the recursive call. -/
def traverseChildren (rec : Tree → Env → Except Fault (Tree × Env × List String)) :
    Nat → Nat → Tree → Env → Except Fault (Tree × Env × List String)
  | 0, _, node, env => .ok (node, env, [])
  | todo + 1, i, node, env =>
    match node.child i with
    | .error e => .error e
    | .ok c =>
      match rec c env with
      | .error e => .error e
      | .ok (c1, env1, o1) =>
        match afterChild (node.setChild i c1) with
        | .error e => .error e
        | .ok (node2, o2) =>
          match traverseChildren rec todo (i + 1) node2 env1 with
          | .error e => .error e
          | .ok (node3, env3, o3) => .ok (node3, env3, o1 ++ o2 ++ o3)

/-- The function `treeTraversal`, with the recursion depth bounded by the fuel.
Returns the annotated node, the variables afterwards and the lines written to
`cerr`. -/
def treeTraversal : Nat → Tree → Env → Except Fault (Tree × Env × List String)
  | 0, _, _ => .error .noFuel
  | fuel + 1, node, env =>
    match enterNode node env with
    | .error e => .error e
    | .ok (node1, env1, o1) =>
      match traverseChildren (treeTraversal fuel) node1.getChildrenSize 0 node1 env1 with
      | .error e => .error e
      | .ok (node2, env2, o2) => .ok (node2, env2, o1 ++ o2)

/-! ## main -/

/-- What a completed run leaves: the lines on `cout` and the lines on `cerr`. -/
structure Output where
  cout : List String
  cerr : List String
deriving DecidableEq, Repr

/-- The function `main` on the lines read from standard input. On no input the
source reports and then reads `lines[0]`, which is undefined. The builder gets
one unit of fuel per line and the traversal one per level of the tree. -/
def main (lines : List String) : Except Fault Output :=
  let o0 := if lines.length = 0 then [errorReport "invalid first expression " (-1)] else []
  match lines[0]? with
  | none => .error .outOfBounds
  | some line0 =>
    let start := (words line0).headD ""
    let o1 := if start ≠ "start" then [errorReport "invalid first expression " (-1)] else []
    let flag : Bool := if o0 ++ o1 = [] then false else true
    match buildTree lines.length lines (Tree.new start) ⟨0, flag⟩ with
    | .error e => .error e
    | .ok (rootNode, _, o2) =>
      match treeTraversal rootNode.height rootNode Env.init with
      | .error e => .error e
      | .ok (rootNode1, _, o3) => .ok ⟨printTree rootNode1, o0 ++ o1 ++ o2 ++ o3⟩

/-! ## Closed forms used in the statements -/

/-- The lines the dereference rule writes for an operand of type `t`. -/
def starDiag (t : String) : List String :=
  if t ≠ "" ∧ t ≠ "int*" then
    ["ERROR: In rule [factor STAR factor]: Expected child of type int*"]
  else []

/-- The type the rule of a three-child `expr` leaves: operator rule `op`, operand
types `l` and `r`. -/
def exprType (op l r : String) : String :=
  if l = "int*" ∨ (op = "PLUS" ∧ r = "int*") then "int*" else l

/-- The lines the rule of a three-child `expr` writes. -/
def exprDiag (op l r : String) : List String :=
  if op = "MINUS" ∧ l = "int" ∧ r = "int*" then
    ["ERROR: In rule [expr expr MINUS term]: cannot subtract int minus int*"]
  else []

/-- `n` is `node` with, at most, another type. -/
def Retyped (node n : Tree) : Prop := ∃ ty, n = node.setType ty


/-- The lines the `println` rule writes for an expression of type `t`. -/
def printlnDiag (t : String) : List String :=
  if t ≠ "" ∧ t ≠ "int" then
    ["ERROR: In rule [statement PRINTLN LPAREN expr RPAREN SEMI]: expr does not have type int"]
  else []

/-- The lines the rule of a three-child `term` writes for the operator `op` and
operand types `l` and `r`. -/
def termDiag (op l r : String) : List String :=
  if l = "int*" ∨ r = "int*" then
    ["ERROR: In rule [term term " ++ op ++ " factor]: factor child is not type int"]
  else []

/-- The lines a two-sided check with message `msg` writes for side types `l` and
`r`. -/
def mismatchDiag (msg l r : String) : List String :=
  if l ≠ "" ∧ r ≠ "" ∧ l ≠ r then ["ERROR: " ++ msg] else []

/-- The state of the scope stack along a walk started with no scope and the
procedure counter at 0: no scope while no `procedures` node has been entered,
one scope from then on. -/
def ScopeInv (env : Env) : Prop :=
  (env.procedureNumber = 0 ∧ env.symbolTableStack.length = 0)
    ∨ (env.procedureNumber ≠ 0 ∧ env.symbolTableStack.length = 1)

/-- The last of the states `S` of a walk begun in `env`: `env` itself when the
walk entered no node. -/
def lastState (S : List (String × Env)) (env : Env) : Env :=
  (S.getLast?.map Prod.snd).getD env

mutual
/-- The nodes of a tree, in pre-order. -/
def Tree.subtrees : Tree → List Tree
  | .mk r cs t l => .mk r cs t l :: Tree.subtreesList cs
/-- The nodes of a list of trees, in pre-order. -/
def Tree.subtreesList : List Tree → List Tree
  | [] => []
  | c :: cs => c.subtrees ++ Tree.subtreesList cs
end

/-- Every `statement` and `test` node of the tree that has a child is untyped. -/
def StatementsCleared (t : Tree) : Prop :=
  ∀ m ∈ t.subtrees, (m.rule = "statement" ∨ m.rule = "test") → m.children ≠ [] → m.type = ""

/-- What a call of `buildTree` or of its loop, entered in state `s` with the
flag clear, comes to: it returns, the cursor has not moved back, and either it
wrote nothing, the flag is still clear and the cursor is on a line, or the
flag is set and it wrote one diagnostic, end of file or missing lexeme, whose
index is the final cursor. -/
def BuildOutcome (lines : List String) (s : BuildState)
    (r : Except Fault (Tree × BuildState × List String)) : Prop :=
  ∃ t s1 o, r = .ok (t, s1, o) ∧ s.idx ≤ s1.idx
    ∧ ((o = [] ∧ s1.hasErrorOccurred = false ∧ s1.idx < lines.length)
      ∨ (s1.hasErrorOccurred = true
        ∧ (o = [errorReport "Unexpected end of file" s1.idx]
          ∨ o = [errorReport "Missing lexeme for terminal symbol" s1.idx])))

/-! ## Concrete inputs -/

/-- The derivation, one node per line, of the WLP4 program
`int wain(int a, int* b) { int x = 0; x = 5; println(x); return 0; }`:
an entry procedure whose second parameter is declared `int*`. -/
def wainSecondPointer : List String :=
  ["start BOF procedures EOF", "BOF BOF", "procedures main",
   "main INT WAIN LPAREN dcl COMMA dcl RPAREN LBRACE dcls statements RETURN expr SEMI RBRACE",
   "INT int", "WAIN wain", "LPAREN (",
   "dcl type ID", "type INT", "INT int", "ID a", "COMMA ,",
   "dcl type ID", "type INT STAR", "INT int", "STAR *", "ID b",
   "RPAREN )", "LBRACE \x7b",
   "dcls dcls dcl BECOMES NUM SEMI", "dcls .EMPTY", "dcl type ID", "type INT", "INT int", "ID x",
   "BECOMES =", "NUM 0", "SEMI ;",
   "statements statements statement", "statements statements statement", "statements .EMPTY",
   "statement lvalue BECOMES expr SEMI", "lvalue ID", "ID x", "BECOMES =", "expr term",
   "term factor", "factor NUM", "NUM 5", "SEMI ;",
   "statement PRINTLN LPAREN expr RPAREN SEMI", "PRINTLN println", "LPAREN (", "expr term",
   "term factor", "factor ID", "ID x", "RPAREN )", "SEMI ;",
   "RETURN return", "expr term", "term factor", "factor NUM", "NUM 0", "SEMI ;", "RBRACE \x7d",
   "EOF EOF"]

/-- The derivation, one node per line, of the WLP4 program
`int f(int a) { return 0; } int g(int* b) { return 0; }
int wain(int x, int y) { return 0; }`. -/
def twoProcedures : List String :=
  ["start BOF procedures EOF", "BOF BOF", "procedures procedure procedures",
   "procedure INT ID LPAREN params RPAREN LBRACE dcls statements RETURN expr SEMI RBRACE",
   "INT int", "ID f", "LPAREN (", "params paramlist", "paramlist dcl",
   "dcl type ID", "type INT", "INT int", "ID a",
   "RPAREN )", "LBRACE \x7b", "dcls .EMPTY", "statements .EMPTY",
   "RETURN return", "expr term", "term factor", "factor NUM", "NUM 0", "SEMI ;", "RBRACE \x7d",
   "procedures procedure procedures",
   "procedure INT ID LPAREN params RPAREN LBRACE dcls statements RETURN expr SEMI RBRACE",
   "INT int", "ID g", "LPAREN (", "params paramlist", "paramlist dcl",
   "dcl type ID", "type INT STAR", "INT int", "STAR *", "ID b",
   "RPAREN )", "LBRACE \x7b", "dcls .EMPTY", "statements .EMPTY",
   "RETURN return", "expr term", "term factor", "factor NUM", "NUM 0", "SEMI ;", "RBRACE \x7d",
   "procedures main",
   "main INT WAIN LPAREN dcl COMMA dcl RPAREN LBRACE dcls statements RETURN expr SEMI RBRACE",
   "INT int", "WAIN wain", "LPAREN (",
   "dcl type ID", "type INT", "INT int", "ID x", "COMMA ,",
   "dcl type ID", "type INT", "INT int", "ID y",
   "RPAREN )", "LBRACE \x7b", "dcls .EMPTY", "statements .EMPTY",
   "RETURN return", "expr term", "term factor", "factor NUM", "NUM 0", "SEMI ;", "RBRACE \x7d",
   "EOF EOF"]

/-- The procedure registry as `main` leaves it: the same calls as in `main`, with
the registry returned in place of the printed tree. -/
def registryAfter (lines : List String) : Except Fault ProcedureTable :=
  let o0 := if lines.length = 0 then [errorReport "invalid first expression " (-1)] else []
  match lines[0]? with
  | none => .error .outOfBounds
  | some line0 =>
    let start := (words line0).headD ""
    let o1 := if start ≠ "start" then [errorReport "invalid first expression " (-1)] else []
    let flag : Bool := if o0 ++ o1 = [] then false else true
    match buildTree lines.length lines (Tree.new start) ⟨0, flag⟩ with
    | .error e => .error e
    | .ok (rootNode, _, _) =>
      match treeTraversal rootNode.height rootNode Env.init with
      | .error e => .error e
      | .ok (_, env, _) => .ok env.procedureTable

/-! ## Derivation trees and their serialization -/

/-- A derivation tree: a nonterminal with its children, or a terminal with its
lexeme. -/
inductive Deriv where
  | node (rule : String) (children : List Deriv)
  | leaf (rule : String) (lexeme : String)
deriving Repr

/-- The rule at the root of a derivation tree. -/
def Deriv.rule : Deriv → String
  | .node r _ => r
  | .leaf r _ => r

/-- The names `ws`, each preceded by a single space. -/
def spaced : List String → String
  | [] => ""
  | w :: ws => " " ++ w ++ spaced ws

/-- The rules of a list of derivation trees, in order. -/
def Deriv.rules : List Deriv → List String
  | [] => []
  | d :: ds => d.rule :: Deriv.rules ds

mutual
/-- The pre-order serialization, one line per node: the rule followed by the
space-separated rules of the children, or by `.EMPTY` when a nonterminal has
none, or by the lexeme of a terminal. -/
def Deriv.serialize : Deriv → List String
  | .node r cs =>
    (r ++ (match cs with
      | [] => " .EMPTY"
      | _ :: _ => spaced (Deriv.rules cs))) :: Deriv.serializeList cs
  | .leaf r l => [r ++ " " ++ l]
/-- The serializations of a list of derivation trees, one after the other. -/
def Deriv.serializeList : List Deriv → List String
  | [] => []
  | d :: ds => Deriv.serialize d ++ Deriv.serializeList ds
end

/-- A non-empty string without whitespace. -/
def isWord (s : String) : Bool := s.data ≠ [] ∧ s.data.all (fun ch => !isspace ch)

mutual
/-- Well-formed derivation trees: a nonterminal rule is a non-empty all-lowercase
word; a terminal rule is a word with a character that is not lowercase, other
than `.EMPTY`; a lexeme is a word. -/
def Deriv.wellFormed : Deriv → Bool
  | .node r cs => r ≠ "" ∧ isNonTerminal r ∧ Deriv.wellFormedList cs
  | .leaf r l => isWord r ∧ isNonTerminal r = false ∧ r ≠ ".EMPTY" ∧ isWord l
/-- Well-formedness of every tree of a list. -/
def Deriv.wellFormedList : List Deriv → Bool
  | [] => true
  | d :: ds => Deriv.wellFormed d ∧ Deriv.wellFormedList ds
end

mutual
/-- Height of a derivation tree. -/
def Deriv.height : Deriv → Nat
  | .node _ cs => Deriv.heightList cs + 1
  | .leaf _ _ => 1
/-- Largest height in a list of derivation trees. -/
def Deriv.heightList : List Deriv → Nat
  | [] => 0
  | d :: ds => max (Deriv.height d) (Deriv.heightList ds)
end

/-- The typing `addChild` gives the child it attaches. -/
def typeLiteral (child : Tree) : Tree :=
  if child.getRule = "NUM" then child.setType "int"
  else if child.getRule = "NULL" then child.setType "int*"
  else child

mutual
/-- The tree `buildTree` makes of a derivation tree, before it is attached. -/
def Deriv.build : Deriv → Tree
  | .node r cs => Tree.mk r (Deriv.buildList cs) "" ""
  | .leaf r l => Tree.mk r [] "" l
/-- The children `buildTree` attaches for a list of derivation trees. -/
def Deriv.buildList : List Deriv → List Tree
  | [] => []
  | d :: ds => typeLiteral (Deriv.build d) :: Deriv.buildList ds
end

mutual
/-- The tree with every type cleared. -/
def Tree.eraseTypes : Tree → Tree
  | .mk r cs _ l => .mk r (Tree.eraseTypesList cs) "" l
/-- The trees of a list with every type cleared. -/
def Tree.eraseTypesList : List Tree → List Tree
  | [] => []
  | c :: cs => Tree.eraseTypes c :: Tree.eraseTypesList cs
end

mutual
/-- The lines of `printTree` without their type suffixes. -/
def printHeads : Tree → List String
  | .mk r cs t l => printHead (.mk r cs t l) :: printHeadsList cs
/-- The lines of `printTreeList` without their type suffixes. -/
def printHeadsList : List Tree → List String
  | [] => []
  | c :: cs => printHeads c ++ printHeadsList cs
end

/-- A printed line is `line` followed by nothing or by a type suffix. -/
def IsAnnotated (printed line : String) : Prop :=
  printed = line ∨ ∃ ty, ty ≠ "" ∧ printed = line ++ " : " ++ ty

/-! # Theorems -/

/-! ## Helper lemmas: maps -/

theorem lookup_append_absent {β : Type} (l : List (String × β)) (n : String) (v : β)
    (h : l.lookup n = none) : (l ++ [(n, v)]).lookup n = some v := by
  induction l with
  | nil => simp [List.lookup]
  | cons p rest ih =>
    obtain ⟨k, w⟩ := p
    simp only [List.cons_append, List.lookup_cons] at h ⊢
    cases hk : (n == k) with
    | true => simp [hk] at h
    | false =>
      simp only [hk] at h ⊢
      exact ih h

theorem lookup_append_other {β : Type} (l : List (String × β)) (n m : String) (v : β)
    (h : m ≠ n) : (l ++ [(n, v)]).lookup m = l.lookup m := by
  induction l with
  | nil =>
    have hm : (m == n) = false := by simpa using h
    simp [List.lookup, hm]
  | cons p rest ih =>
    obtain ⟨k, w⟩ := p
    simp only [List.cons_append, List.lookup_cons]
    cases hk : (m == k) with
    | true => rfl
    | false => exact ih

theorem errorReport_variable (name tail : String) :
    errorReport ("Variable " ++ name ++ tail) (-1) = "ERROR: Variable " ++ name ++ tail := by
  have h : "ERROR: " ++ "Variable " = "ERROR: Variable " := by decide
  have e : errorReport ("Variable " ++ name ++ tail) (-1)
      = "ERROR: " ++ ("Variable " ++ name ++ tail) ++ "" := by
    simp [errorReport]
  rw [e, String.append_empty, ← String.append_assoc, ← String.append_assoc, h]


/-! ## Helper lemmas: tree accessors -/

@[simp] theorem Tree.rule_mk (r : String) (cs : List Tree) (t l : String) :
    (Tree.mk r cs t l).rule = r := rfl
@[simp] theorem Tree.children_mk (r : String) (cs : List Tree) (t l : String) :
    (Tree.mk r cs t l).children = cs := rfl
@[simp] theorem Tree.type_mk (r : String) (cs : List Tree) (t l : String) :
    (Tree.mk r cs t l).type = t := rfl
@[simp] theorem Tree.lexeme_mk (r : String) (cs : List Tree) (t l : String) :
    (Tree.mk r cs t l).lexeme = l := rfl
@[simp] theorem Tree.setType_mk (r : String) (cs : List Tree) (t l t2 : String) :
    (Tree.mk r cs t l).setType t2 = Tree.mk r cs t2 l := rfl
@[simp] theorem Tree.setLexeme_mk (r : String) (cs : List Tree) (t l l2 : String) :
    (Tree.mk r cs t l).setLexeme l2 = Tree.mk r cs t l2 := rfl
@[simp] theorem Tree.setChildren_mk (r : String) (cs cs2 : List Tree) (t l : String) :
    (Tree.mk r cs t l).setChildren cs2 = Tree.mk r cs2 t l := rfl
@[simp] theorem Tree.setChild_mk (r : String) (cs : List Tree) (t l : String) (i : Nat)
    (c : Tree) : (Tree.mk r cs t l).setChild i c = Tree.mk r (cs.set i c) t l := rfl
@[simp] theorem Tree.getRule_eq (t : Tree) : t.getRule = t.rule := rfl
@[simp] theorem Tree.getType_eq (t : Tree) : t.getType = t.type := rfl
@[simp] theorem Tree.getLexeme_eq (t : Tree) : t.getLexeme = t.lexeme := rfl
@[simp] theorem Tree.getChildrenSize_eq (t : Tree) : t.getChildrenSize = t.children.length := rfl

theorem Tree.eta (t : Tree) : Tree.mk t.rule t.children t.type t.lexeme = t := by
  cases t; rfl


/-! ## Helper lemmas: the rules applied after each child -/

theorem errorReport_default (msg : String) : errorReport msg (-1) = "ERROR: " ++ msg := by
  simp [errorReport]

theorem afterBaseline_mk (r : String) (a : Tree) (cs : List Tree) (ty lex : String) :
    afterBaseline (Tree.mk r (a :: cs) ty lex)
      = .ok (Tree.mk r (a :: cs)
          (if r = "statement" ∨ r = "test" then "" else if r = "arglist" then ty else a.type)
          lex) := by
  by_cases h1 : r = "arglist"
  · subst h1; simp [afterBaseline, bind, Except.bind, pure, Except.pure]
  · by_cases h2 : r = "statement"
    · subst h2; simp [afterBaseline, Tree.child, bind, Except.bind, pure, Except.pure]
    · by_cases h3 : r = "test"
      · subst h3; simp [afterBaseline, Tree.child, bind, Except.bind, pure, Except.pure]
      · simp [afterBaseline, Tree.child, bind, Except.bind, pure, Except.pure, h1, h2, h3]

theorem afterParen_skip (r : String) (a : Tree) (cs : List Tree) (ty lex : String)
    (h : a.rule ≠ "LPAREN" ∨ (r ≠ "factor" ∧ r ≠ "lvalue")) :
    afterParen (Tree.mk r (a :: cs) ty lex) = .ok (Tree.mk r (a :: cs) ty lex) := by
  rcases h with h | ⟨h1, h2⟩
  · simp [afterParen, Tree.child, bind, Except.bind, pure, Except.pure, h]
  · simp [afterParen, Tree.child, bind, Except.bind, pure, Except.pure, h1, h2]

theorem afterStar_skip (rule r : String) (a : Tree) (cs : List Tree) (ty lex : String)
    (h : a.rule ≠ "STAR" ∨ r ≠ rule) :
    afterStar rule (Tree.mk r (a :: cs) ty lex) = .ok (Tree.mk r (a :: cs) ty lex, []) := by
  rcases h with h | h
  · simp [afterStar, Tree.child, bind, Except.bind, pure, Except.pure, h]
  · simp [afterStar, Tree.child, bind, Except.bind, pure, Except.pure, h]

theorem afterStar_fire (r : String) (a b : Tree) (cs : List Tree) (ty lex : String)
    (h : a.rule = "STAR") :
    afterStar r (Tree.mk r (a :: b :: cs) ty lex)
      = .ok (Tree.mk r (a :: b :: cs) (if b.type ≠ "" then "int" else ty) lex,
          starDiag b.type) := by
  by_cases h1 : b.type = ""
  · simp [afterStar, Tree.child, bind, Except.bind, pure, Except.pure, h, h1, starDiag]
  · by_cases h2 : b.type = "int*"
    · simp [afterStar, Tree.child, bind, Except.bind, pure, Except.pure, h, h2, starDiag]
    · simp [afterStar, Tree.child, bind, Except.bind, pure, Except.pure, h, h1, h2, starDiag,
        errorReport_default]

theorem afterNew_skip (r : String) (a : Tree) (cs : List Tree) (ty lex : String)
    (h : a.rule ≠ "NEW" ∨ r ≠ "factor") :
    afterNew (Tree.mk r (a :: cs) ty lex) = .ok (Tree.mk r (a :: cs) ty lex) := by
  rcases h with h | h
  · simp [afterNew, Tree.child, bind, Except.bind, pure, Except.pure, h]
  · simp [afterNew, Tree.child, bind, Except.bind, pure, Except.pure, h]

theorem afterAmp_skip (r : String) (a : Tree) (cs : List Tree) (ty lex : String)
    (h : a.rule ≠ "AMP" ∨ r ≠ "factor") :
    afterAmp (Tree.mk r (a :: cs) ty lex) = .ok (Tree.mk r (a :: cs) ty lex, []) := by
  rcases h with h | h
  · simp [afterAmp, Tree.child, bind, Except.bind, pure, Except.pure, h]
  · simp [afterAmp, Tree.child, bind, Except.bind, pure, Except.pure, h]

theorem afterExpr_skip (node : Tree) (h : node.rule ≠ "expr" ∨ node.children.length ≠ 3) :
    afterExpr node = .ok (node, []) := by
  rcases h with h | h
  · simp [afterExpr, pure, Except.pure, h]
  · simp [afterExpr, pure, Except.pure, h]

theorem afterExpr_mk (a b c : Tree) (lex : String) (hb : b.rule = "PLUS" ∨ b.rule = "MINUS") :
    afterExpr (Tree.mk "expr" [a, b, c] a.type lex)
      = .ok (Tree.mk "expr" [a, b, c] (exprType b.rule a.type c.type) lex,
          exprDiag b.rule a.type c.type) := by
  have e : errorReport "In rule [expr expr MINUS term]: cannot subtract int minus int*" (-1)
      = "ERROR: In rule [expr expr MINUS term]: cannot subtract int minus int*" := by decide
  rcases hb with hb | hb
  · by_cases h1 : a.type = "int*" <;> by_cases h2 : c.type = "int*" <;>
      simp [afterExpr, Tree.child, bind, Except.bind, pure, Except.pure, hb, h1, h2, exprType,
        exprDiag]
  · by_cases h1 : a.type = "int*" <;> by_cases h2 : c.type = "int*" <;>
      by_cases h3 : a.type = "int" <;>
      simp_all [afterExpr, Tree.child, bind, Except.bind, pure, Except.pure, exprType, exprDiag]

theorem afterTerm_skip (node : Tree) (h : node.rule ≠ "term") : afterTerm node = .ok [] := by
  simp [afterTerm, pure, Except.pure, h]

theorem afterCall_skip (r : String) (a : Tree) (cs : List Tree) (ty lex : String)
    (h : r ≠ "factor" ∨ a.rule ≠ "ID") :
    afterCall (Tree.mk r (a :: cs) ty lex) = .ok (Tree.mk r (a :: cs) ty lex) := by
  rcases h with h | h
  · simp [afterCall, pure, Except.pure, h]
  · cases cs with
    | nil => simp [afterCall, pure, Except.pure]
    | cons b cs => simp [afterCall, Tree.child, bind, Except.bind, pure, Except.pure, h]

theorem afterStatement_skip (node : Tree) (h : node.rule ≠ "statement") :
    afterStatement node = .ok [] := by
  simp [afterStatement, pure, Except.pure, h]

theorem afterTest_skip (node : Tree) (h : node.rule ≠ "test") : afterTest node = .ok [] := by
  simp [afterTest, pure, Except.pure, h]

theorem afterChild_expr (a b c : Tree) (ty lex : String)
    (hb : b.rule = "PLUS" ∨ b.rule = "MINUS") :
    afterChild (Tree.mk "expr" [a, b, c] ty lex)
      = .ok (Tree.mk "expr" [a, b, c] (exprType b.rule a.type c.type) lex,
          exprDiag b.rule a.type c.type) := by
  simp [afterChild, afterBaseline_mk, afterParen_skip, afterStar_skip, afterNew_skip,
    afterAmp_skip, afterExpr_mk, hb, afterTerm_skip, afterCall_skip, afterStatement_skip,
    afterTest_skip, bind, Except.bind, pure, Except.pure]


/-! ## Helper lemmas: only types change -/

theorem bind_eq_ok {ε α β : Type} (x : Except ε α) (f : α → Except ε β) (b : β) :
    (x >>= f) = .ok b ↔ ∃ a, x = .ok a ∧ f a = .ok b := by
  cases x with
  | error e => simp [bind, Except.bind]
  | ok a => simp [bind, Except.bind]

theorem Tree.setType_setType (t : Tree) (a b : String) :
    (t.setType a).setType b = t.setType b := by
  cases t; rfl

theorem Tree.setType_type (t : Tree) : t.setType t.type = t := by
  cases t; rfl

theorem Retyped.refl (node : Tree) : Retyped node node := ⟨node.type, (Tree.setType_type node).symm⟩

theorem Retyped.set (node : Tree) (ty : String) : Retyped node (node.setType ty) := ⟨ty, rfl⟩

theorem Retyped.trans {a b c : Tree} (h1 : Retyped a b) (h2 : Retyped b c) : Retyped a c := by
  obtain ⟨t1, rfl⟩ := h1
  obtain ⟨t2, rfl⟩ := h2
  exact ⟨t2, Tree.setType_setType a t1 t2⟩

theorem afterBaseline_retyped (node n : Tree) (h : afterBaseline node = .ok n) :
    Retyped node n := by
  unfold afterBaseline at h
  simp only [bind, Except.bind, pure, Except.pure] at h
  repeat' split at h
  all_goals try cases h
  all_goals first
    | exact Retyped.refl _
    | exact Retyped.set _ _
    | exact (Retyped.set _ _).trans (Retyped.set _ _)
    | exact ((Retyped.set _ _).trans (Retyped.set _ _)).trans (Retyped.set _ _)

theorem afterParen_retyped (node n : Tree) (h : afterParen node = .ok n) :
    Retyped node n := by
  unfold afterParen at h
  simp only [bind, Except.bind, pure, Except.pure] at h
  repeat' split at h
  all_goals try cases h
  all_goals first
    | exact Retyped.refl _
    | exact Retyped.set _ _
    | exact (Retyped.set _ _).trans (Retyped.set _ _)

theorem afterStar_retyped (rule : String) (node n : Tree) (o : List String)
    (h : afterStar rule node = .ok (n, o)) : Retyped node n := by
  unfold afterStar at h
  simp only [bind, Except.bind, pure, Except.pure] at h
  repeat' split at h
  all_goals try cases h
  all_goals first
    | exact Retyped.refl _
    | exact Retyped.set _ _

theorem afterNew_retyped (node n : Tree) (h : afterNew node = .ok n) : Retyped node n := by
  unfold afterNew at h
  simp only [bind, Except.bind, pure, Except.pure] at h
  repeat' split at h
  all_goals try cases h
  all_goals first
    | exact Retyped.refl _
    | exact Retyped.set _ _

theorem afterAmp_retyped (node n : Tree) (o : List String)
    (h : afterAmp node = .ok (n, o)) : Retyped node n := by
  unfold afterAmp at h
  simp only [bind, Except.bind, pure, Except.pure] at h
  repeat' split at h
  all_goals try cases h
  all_goals first
    | exact Retyped.refl _
    | exact Retyped.set _ _

theorem afterExpr_retyped (node n : Tree) (o : List String)
    (h : afterExpr node = .ok (n, o)) : Retyped node n := by
  unfold afterExpr at h
  simp only [bind, Except.bind, pure, Except.pure] at h
  repeat' split at h
  all_goals try cases h
  all_goals first
    | exact Retyped.refl _
    | exact Retyped.set _ _
    | exact (Retyped.set _ _).trans (Retyped.set _ _)

theorem afterCall_retyped (node n : Tree) (h : afterCall node = .ok n) : Retyped node n := by
  unfold afterCall at h
  simp only [bind, Except.bind, pure, Except.pure] at h
  repeat' split at h
  all_goals try cases h
  all_goals first
    | exact Retyped.refl _
    | exact Retyped.set _ _

theorem afterChild_retyped (node n : Tree) (o : List String)
    (h : afterChild node = .ok (n, o)) : Retyped node n := by
  unfold afterChild at h
  simp only [bind_eq_ok, pure, Except.pure] at h
  obtain ⟨n1, h1, ⟨n2, h2, ⟨⟨n3, o3⟩, h3, ⟨⟨n4, o4⟩, h4, ⟨n5, h5, ⟨⟨n6, o6⟩, h6,
    ⟨⟨n7, o7⟩, h7, ⟨o8, _, ⟨n9, h9, ⟨o10, _, ⟨o11, _, h⟩⟩⟩⟩⟩⟩⟩⟩⟩⟩⟩ := h
  cases h
  exact (afterBaseline_retyped _ _ h1).trans <| (afterParen_retyped _ _ h2).trans <|
    (afterStar_retyped _ _ _ _ h3).trans <| (afterStar_retyped _ _ _ _ h4).trans <|
    (afterNew_retyped _ _ h5).trans <| (afterAmp_retyped _ _ _ h6).trans <|
    (afterExpr_retyped _ _ _ h7).trans (afterCall_retyped _ _ h9)


theorem Tree.rule_setType (t : Tree) (ty : String) : (t.setType ty).rule = t.rule := by
  cases t; rfl

theorem Tree.rule_setChild (t : Tree) (i : Nat) (c : Tree) : (t.setChild i c).rule = t.rule := by
  cases t; rfl

theorem Retyped.rule {a b : Tree} (h : Retyped a b) : b.rule = a.rule := by
  obtain ⟨t, rfl⟩ := h
  exact Tree.rule_setType a t

theorem lvaluerRecursionBaseCase_rule (node n : Tree) (st st1 : List SymbolTable)
    (o : List String) (h : lvaluerRecursionBaseCase node st = .ok (n, st1, o)) :
    n.rule = node.rule := by
  unfold lvaluerRecursionBaseCase at h
  simp only [bind, Except.bind, pure, Except.pure] at h
  repeat' split at h
  all_goals try cases h
  all_goals simp [Tree.rule_setType, Tree.rule_setChild]

theorem factorRecursionBaseCase_rule (node n : Tree) (st st1 : List SymbolTable)
    (o : List String) (h : factorRecursionBaseCase node st = .ok (n, st1, o)) :
    n.rule = node.rule := by
  unfold factorRecursionBaseCase at h
  simp only [bind, Except.bind, pure, Except.pure] at h
  repeat' split at h
  all_goals try cases h
  all_goals simp [Tree.rule_setType, Tree.rule_setChild]

theorem enterDcl_rule (node n : Tree) (env env1 : Env) (o : List String)
    (h : enterDcl node env = .ok (n, env1, o)) : n.rule = node.rule := by
  unfold enterDcl at h
  simp only [bind, Except.bind, pure, Except.pure] at h
  repeat' split at h
  all_goals try cases h
  all_goals simp [Tree.rule_setType, Tree.rule_setChild]

theorem enterDcls_rule (node n : Tree) (o : List String)
    (h : enterDcls node = .ok (n, o)) : n.rule = node.rule := by
  unfold enterDcls at h
  simp only [bind, Except.bind, pure, Except.pure] at h
  repeat' split at h
  all_goals try cases h
  all_goals simp [Tree.rule_setType, Tree.rule_setChild]

theorem enterBaseCases_rule (node n : Tree) (env env1 : Env) (o : List String)
    (h : enterBaseCases node env = .ok (n, env1, o)) : n.rule = node.rule := by
  unfold enterBaseCases at h
  simp only [bind_eq_ok, pure, Except.pure] at h
  obtain ⟨⟨n1, s1, o1⟩, h1, ⟨⟨n2, s2, o2⟩, h2, h⟩⟩ := h
  have r1 : n1.rule = node.rule := by
    split_ifs at h1
    · exact factorRecursionBaseCase_rule _ _ _ _ _ h1
    · cases h1; rfl
  have r2 : n2.rule = n1.rule := by
    split_ifs at h2
    · exact lvaluerRecursionBaseCase_rule _ _ _ _ _ h2
    · cases h2; rfl
  simp only [Except.ok.injEq, Prod.mk.injEq] at h
  rw [← h.1, r2, r1]

theorem enterNode_rule (node n : Tree) (env env1 : Env) (o : List String)
    (h : enterNode node env = .ok (n, env1, o)) : n.rule = node.rule := by
  unfold enterNode at h
  simp only [bind_eq_ok, pure, Except.pure] at h
  obtain ⟨⟨e2, o2⟩, _, ⟨⟨e3, o3⟩, _, ⟨o4, _, ⟨⟨n5, e5, o5⟩, h5, ⟨⟨n6, o6⟩, h6,
    ⟨⟨n7, e7, o7⟩, h7, h⟩⟩⟩⟩⟩⟩ := h
  cases h
  rw [enterBaseCases_rule _ _ _ _ _ h7, enterDcls_rule _ _ _ h6, enterDcl_rule _ _ _ _ _ h5]

/-- What a completed pass of the loop body of `traverseChildren` went through. -/
theorem traverseChildren_succ_ok (rec : Tree → Env → Except Fault (Tree × Env × List String))
    (todo i : Nat) (node : Tree) (env : Env) (r : Tree × Env × List String)
    (h : traverseChildren rec (todo + 1) i node env = .ok r) :
    ∃ c c1 e1 o1 n2 o2 n3 e3 o3, node.child i = .ok c ∧ rec c env = .ok (c1, e1, o1)
      ∧ afterChild (node.setChild i c1) = .ok (n2, o2)
      ∧ traverseChildren rec todo (i + 1) n2 e1 = .ok (n3, e3, o3)
      ∧ r = (n3, e3, o1 ++ o2 ++ o3) := by
  cases h1 : node.child i with
  | error e => simp [traverseChildren, h1] at h
  | ok c =>
    cases h2 : rec c env with
    | error e => simp [traverseChildren, h1, h2] at h
    | ok r2 =>
      obtain ⟨c1, e1, o1⟩ := r2
      cases h3 : afterChild (node.setChild i c1) with
      | error e => simp [traverseChildren, h1, h2, h3] at h
      | ok r3 =>
        obtain ⟨n2, o2⟩ := r3
        cases h4 : traverseChildren rec todo (i + 1) n2 e1 with
        | error e => simp [traverseChildren, h1, h2, h3, h4] at h
        | ok r4 =>
          obtain ⟨n3, e3, o3⟩ := r4
          simp only [traverseChildren, h1, h2, h3, h4, Except.ok.injEq] at h
          exact ⟨c, c1, e1, o1, n2, o2, n3, e3, o3, rfl, h2, h3, h4, h.symm⟩

/-- What a completed call of `treeTraversal` went through. -/
theorem treeTraversal_succ_ok (fuel : Nat) (node : Tree) (env : Env)
    (r : Tree × Env × List String) (h : treeTraversal (fuel + 1) node env = .ok r) :
    ∃ n1 e1 o1 n2 e2 o2, enterNode node env = .ok (n1, e1, o1)
      ∧ traverseChildren (treeTraversal fuel) n1.getChildrenSize 0 n1 e1 = .ok (n2, e2, o2)
      ∧ r = (n2, e2, o1 ++ o2) := by
  cases h1 : enterNode node env with
  | error e => simp [treeTraversal, h1] at h
  | ok r1 =>
    obtain ⟨n1, e1, o1⟩ := r1
    cases h2 : traverseChildren (treeTraversal fuel) n1.getChildrenSize 0 n1 e1 with
    | error e => simp only [treeTraversal, h1, h2] at h; cases h
    | ok r2 =>
      obtain ⟨n2, e2, o2⟩ := r2
      simp only [treeTraversal, h1, h2, Except.ok.injEq] at h
      exact ⟨n1, e1, o1, n2, e2, o2, rfl, h2, h.symm⟩

theorem traverseChildren_rule (rec : Tree → Env → Except Fault (Tree × Env × List String))
    (todo : Nat) : ∀ (i : Nat) (node n : Tree) (env env1 : Env) (o : List String),
      traverseChildren rec todo i node env = .ok (n, env1, o) → n.rule = node.rule := by
  induction todo with
  | zero =>
    intro i node n env env1 o h
    simp only [traverseChildren] at h
    cases h; rfl
  | succ k ih =>
    intro i node n env env1 o h
    obtain ⟨c, c1, e1, o1, n2, o2, n3, e3, o3, _, _, h3, h4, h5⟩ :=
      traverseChildren_succ_ok _ _ _ _ _ _ h
    cases h5
    rw [ih _ _ _ _ _ _ h4, (afterChild_retyped _ _ _ h3).rule, Tree.rule_setChild]

theorem treeTraversal_rule (fuel : Nat) (node n : Tree) (env env1 : Env) (o : List String)
    (h : treeTraversal fuel node env = .ok (n, env1, o)) : n.rule = node.rule := by
  cases fuel with
  | zero => simp [treeTraversal] at h
  | succ f =>
    obtain ⟨n1, e1, o1, n2, e2, o2, h1, h2, h3⟩ := treeTraversal_succ_ok _ _ _ _ h
    cases h3
    rw [traverseChildren_rule _ _ _ _ _ _ _ _ h2, enterNode_rule _ _ _ _ _ h1]

/-! ## Helper lemmas: nodes without a rule on entry -/

theorem enterNode_plain (node : Tree) (env : Env) (h1 : node.rule ≠ "procedures")
    (h2 : node.rule ≠ "procedure") (h3 : node.rule ≠ "paramlist") (h4 : node.rule ≠ "main")
    (h5 : node.rule ≠ "dcl") (h6 : node.rule ≠ "dcls")
    (h7 : (node.rule ≠ "factor" ∧ node.rule ≠ "lvalue") ∨ node.children.length ≠ 1) :
    enterNode node env = .ok (node, env, []) := by
  rcases h7 with ⟨h7, h8⟩ | h7
  · simp [enterNode, enterProcedures, enterProcedure, enterParamlist, enterMain, enterDcl,
      enterDcls, enterBaseCases, bind, Except.bind, pure, Except.pure, h1, h2, h3, h4, h5, h6,
      h7, h8]
  · simp [enterNode, enterProcedures, enterProcedure, enterParamlist, enterMain, enterDcl,
      enterDcls, enterBaseCases, bind, Except.bind, pure, Except.pure, h1, h2, h3, h4, h5, h6,
      h7]

theorem afterStatement_println (a b c d e : Tree) (ty lex : String) (ha : a.rule = "PRINTLN") :
    afterStatement (Tree.mk "statement" [a, b, c, d, e] ty lex) = .ok (printlnDiag c.type) := by
  have e1 : errorReport
      "In rule [statement PRINTLN LPAREN expr RPAREN SEMI]: expr does not have type int" (-1)
      = "ERROR: In rule [statement PRINTLN LPAREN expr RPAREN SEMI]: expr does not have type int" := by
    decide
  by_cases h1 : c.type = "" <;> by_cases h2 : c.type = "int" <;>
    simp [afterStatement, Tree.child, bind, Except.bind, pure, Except.pure, ha, h1, h2,
      printlnDiag, e1]

theorem afterChild_println (a b c d e : Tree) (ty lex : String) (ha : a.rule = "PRINTLN") :
    afterChild (Tree.mk "statement" [a, b, c, d, e] ty lex)
      = .ok (Tree.mk "statement" [a, b, c, d, e] "" lex, printlnDiag c.type) := by
  simp [afterChild, afterBaseline_mk, afterParen_skip, afterStar_skip, afterNew_skip,
    afterAmp_skip, afterExpr_skip, afterTerm_skip, afterCall_skip, afterStatement_println, ha,
    afterTest_skip, bind, Except.bind, pure, Except.pure]

theorem afterChild_star (r : String) (a b : Tree) (ty lex : String)
    (hr : r = "factor" ∨ r = "lvalue") (ha : a.rule = "STAR") :
    afterChild (Tree.mk r [a, b] ty lex)
      = .ok (Tree.mk r [a, b] (if b.type ≠ "" then "int" else a.type) lex, starDiag b.type) := by
  rcases hr with hr | hr <;> subst hr <;>
    simp [afterChild, afterBaseline_mk, afterParen_skip, afterStar_skip, afterStar_fire,
      afterNew_skip, afterAmp_skip, afterExpr_skip, afterTerm_skip, afterCall_skip,
      afterStatement_skip, afterTest_skip, ha, bind, Except.bind, pure, Except.pure]

/-! ## Helper lemmas: a root without children -/

theorem enterNode_childless (r ty lex : String) (env : Env) (h2 : r ≠ "procedure")
    (h3 : r ≠ "paramlist") (h4 : r ≠ "main") (h5 : r ≠ "dcl") :
    enterNode (Tree.mk r [] ty lex) env
      = .ok (Tree.mk r [] ty lex, enterProcedures (Tree.mk r [] ty lex) env, []) := by
  simp [enterNode, enterProcedure, enterParamlist, enterMain, enterDcl, enterDcls,
    enterBaseCases, bind, Except.bind, pure, Except.pure, h2, h3, h4, h5]

theorem afterChild_main (a : Tree) (cs : List Tree) (ty lex : String) :
    afterChild (Tree.mk "main" (a :: cs) ty lex) = .ok (Tree.mk "main" (a :: cs) a.type lex, []) := by
  simp [afterChild, afterBaseline_mk, afterParen_skip, afterStar_skip, afterNew_skip,
    afterAmp_skip, afterExpr_skip, afterTerm_skip, afterCall_skip, afterStatement_skip,
    afterTest_skip, bind, Except.bind, pure, Except.pure]

theorem enterNode_main (node c5 ty : Tree) (env : Env) (hr : node.rule = "main")
    (h5 : node.children[5]? = some c5) (h0 : c5.children[0]? = some ty) :
    enterNode node env
      = .ok (node, env,
          if ty.children.length = 1 then []
          else ["ERROR: The second parameter of wain is not int type"]) := by
  have e1 : errorReport "The second parameter of wain is not int type" (-1)
      = "ERROR: The second parameter of wain is not int type" := by decide
  by_cases hs : ty.children.length = 1
  · simp [enterNode, enterProcedures, enterProcedure, enterParamlist, enterMain, enterDcl,
      enterDcls, enterBaseCases, Tree.child, typeOfSize, bind, Except.bind, pure, Except.pure,
      hr, h5, h0, hs]
  · simp [enterNode, enterProcedures, enterProcedure, enterParamlist, enterMain, enterDcl,
      enterDcls, enterBaseCases, Tree.child, typeOfSize, bind, Except.bind, pure, Except.pure,
      hr, h5, h0, hs, e1]

/-! ## Helper lemmas: reading the words of a serialized line -/

theorem wordsAux_word (w : List Char) (hw : w.all (fun ch => !isspace ch) = true) :
    ∀ (rest cur : List Char), wordsAux (w ++ rest) cur = wordsAux rest (cur ++ w) := by
  induction w with
  | nil => intro rest cur; simp
  | cons ch w ih =>
    intro rest cur
    simp only [List.all_cons, Bool.and_eq_true, Bool.not_eq_eq_eq_not, Bool.not_true] at hw
    have h1 : isspace ch = false := by simpa using hw.1
    have h2 : w.all (fun ch => !isspace ch) = true := hw.2
    have e := ih h2 rest (cur ++ [ch])
    simp only [List.append_assoc, List.singleton_append] at e
    simp only [List.cons_append, wordsAux, h1, Bool.false_eq_true, if_false]
    exact e

theorem isWord_data {s : String} (h : isWord s = true) :
    s.data ≠ [] ∧ s.data.all (fun ch => !isspace ch) = true := by
  simpa [isWord] using h

theorem wordsAux_spaced (ws : List String) (hws : ∀ w ∈ ws, isWord w = true) :
    ∀ (r : String), isWord r = true → wordsAux (spaced ws).data r.data = r :: ws := by
  induction ws with
  | nil =>
    intro r hr
    have h := (isWord_data hr).1
    simp [spaced, wordsAux, h]
  | cons w ws ih =>
    intro r hr
    have h := (isWord_data hr).1
    have hw := hws w (List.mem_cons_self _ _)
    have e : (spaced (w :: ws)).data = ' ' :: (w.data ++ (spaced ws).data) := by
      simp [spaced, String.data_append]
    have hsp : isspace ' ' = true := by decide
    rw [e]
    simp only [wordsAux, hsp, if_true, h, if_false]
    rw [wordsAux_word w.data (isWord_data hw).2, List.nil_append,
      ih (fun x hx => hws x (List.mem_cons_of_mem _ hx)) w hw]

theorem words_spaced (r : String) (ws : List String) (hr : isWord r = true)
    (hws : ∀ w ∈ ws, isWord w = true) : words (r ++ spaced ws) = r :: ws := by
  unfold words
  rw [String.data_append, wordsAux_word r.data (isWord_data hr).2, List.nil_append]
  exact wordsAux_spaced ws hws r hr

theorem words_pair (r l : String) (hr : isWord r = true) (hl : isWord l = true) :
    words (r ++ " " ++ l) = [r, l] := by
  have h := words_spaced r [l] hr (by simpa using hl)
  have e : r ++ spaced [l] = r ++ " " ++ l := by
    simp [spaced, String.append_assoc]
  rw [← e]; exact h

/-! ## Helper lemmas: well-formed derivation trees -/

theorem isspace_of_islower (ch : Char) (h : islower ch = true) : isspace ch = false := by
  simp only [islower, decide_eq_true_eq] at h
  have h1 : (97 : Nat) ≤ ch.toNat := h.1
  simp only [isspace, decide_eq_false_iff_not, not_or]
  refine ⟨?_, ?_, ?_, ?_, ?_, ?_⟩ <;> intro hc <;> subst hc <;> revert h1 <;> decide

theorem isWord_of_isNonTerminal (r : String) (h0 : r ≠ "") (h : isNonTerminal r = true) :
    isWord r = true := by
  have hd : r.data ≠ [] := fun hd => h0 (String.ext hd)
  simp only [isNonTerminal, List.all_eq_true] at h
  simp only [isWord, ne_eq, hd, not_false_eq_true, List.all_eq_true, true_and,
    decide_eq_true_eq, Bool.not_eq_eq_eq_not, Bool.not_true]
  intro ch hch
  exact isspace_of_islower ch (h ch hch)

theorem Deriv.isWord_rule (d : Deriv) (h : d.wellFormed = true) : isWord d.rule = true := by
  cases d with
  | node r cs =>
    simp only [Deriv.wellFormed, ne_eq, Bool.decide_and, Bool.and_eq_true,
      decide_eq_true_eq, decide_not, Bool.not_eq_eq_eq_not, Bool.not_true,
      decide_eq_false_iff_not] at h
    exact isWord_of_isNonTerminal r h.1 h.2.1
  | leaf r l =>
    simp only [Deriv.wellFormed, Bool.decide_and, Bool.and_eq_true, decide_eq_true_eq] at h
    exact h.1

theorem Deriv.rule_ne_empty (d : Deriv) (h : d.wellFormed = true) : d.rule ≠ ".EMPTY" := by
  cases d with
  | node r cs =>
    simp only [Deriv.wellFormed, ne_eq, Bool.decide_and, Bool.and_eq_true,
      decide_eq_true_eq, decide_not, Bool.not_eq_eq_eq_not, Bool.not_true,
      decide_eq_false_iff_not] at h
    intro he
    have h2 := h.2.1
    simp only [Deriv.rule] at he
    rw [he] at h2
    revert h2; decide
  | leaf r l =>
    simp only [Deriv.wellFormed, Bool.decide_and, Bool.and_eq_true, decide_eq_true_eq, ne_eq,
      decide_not, Bool.not_eq_eq_eq_not, Bool.not_true, decide_eq_false_iff_not] at h
    exact h.2.2.1

theorem Deriv.isWord_rules (ds : List Deriv) (h : Deriv.wellFormedList ds = true) :
    ∀ w ∈ Deriv.rules ds, isWord w = true := by
  induction ds with
  | nil => intro w hw; simp [Deriv.rules] at hw
  | cons d ds ih =>
    simp only [Deriv.wellFormedList, Bool.decide_and, Bool.and_eq_true, decide_eq_true_eq] at h
    intro w hw
    simp only [Deriv.rules, List.mem_cons] at hw
    rcases hw with hw | hw
    · rw [hw]; exact Deriv.isWord_rule d h.1
    · exact ih h.2 w hw

theorem Deriv.serialize_length_pos (d : Deriv) : 0 < d.serialize.length := by
  cases d <;> simp [Deriv.serialize]

theorem getElem?_append_cons {α : Type} (pre : List α) (x : α) (rest : List α) :
    (pre ++ x :: rest)[pre.length]? = some x := by
  induction pre with
  | nil => simp
  | cons p pre ih => simpa using ih

theorem Tree.setChildren_children (t : Tree) : t.setChildren t.children = t := by
  cases t; rfl

theorem Tree.addChild_eq (parent child : Tree) :
    parent.addChild child = parent.setChildren (parent.children ++ [typeLiteral child]) := by
  simp only [Tree.addChild, typeLiteral]

theorem Tree.setChildren_setChildren (t : Tree) (a b : List Tree) :
    (t.setChildren a).setChildren b = t.setChildren b := by
  cases t; rfl

theorem Tree.children_setChildren (t : Tree) (a : List Tree) :
    (t.setChildren a).children = a := by
  cases t; rfl

/-! ## Helper lemmas: buildTree on a serialized derivation tree -/

theorem buildTree_serialize_aux (d : Deriv) :
    d.wellFormed = true → ∀ fuel, d.height ≤ fuel → ∀ (pre post : List String),
      buildTree fuel (pre ++ (d.serialize ++ post)) (Tree.new d.rule) ⟨pre.length, false⟩
        = .ok (d.build, ⟨pre.length + (d.serialize.length - 1), false⟩, []) := by
  refine Deriv.rec
    (motive_1 := fun d => d.wellFormed = true → ∀ fuel, d.height ≤ fuel →
      ∀ (pre post : List String),
      buildTree fuel (pre ++ (d.serialize ++ post)) (Tree.new d.rule) ⟨pre.length, false⟩
        = .ok (d.build, ⟨pre.length + (d.serialize.length - 1), false⟩, []))
    (motive_2 := fun ds => Deriv.wellFormedList ds = true → ∀ fuel, Deriv.heightList ds ≤ fuel →
      ∀ (pre post : List String) (parent : Tree) (k : Nat), pre.length = k + 1 →
      buildChildren (buildTree fuel (pre ++ (Deriv.serializeList ds ++ post)))
          (pre ++ (Deriv.serializeList ds ++ post)) (Deriv.rules ds) parent ⟨k, false⟩
        = .ok (parent.setChildren (parent.children ++ Deriv.buildList ds),
            ⟨k + (Deriv.serializeList ds).length, false⟩, []))
    ?_ ?_ ?_ ?_ d
  · -- a nonterminal
    intro r cs ih hwf fuel hf pre post
    have hwf' := hwf
    simp only [Deriv.wellFormed, ne_eq, Bool.decide_and, Bool.and_eq_true,
      decide_eq_true_eq, decide_not, Bool.not_eq_eq_eq_not, Bool.not_true,
      decide_eq_false_iff_not] at hwf'
    obtain ⟨hr0, hnt, hcs⟩ := hwf'
    have hrw : isWord r = true := isWord_of_isNonTerminal r hr0 hnt
    cases fuel with
    | zero => simp [Deriv.height] at hf
    | succ f =>
      have hf' : Deriv.heightList cs ≤ f := by
        simp only [Deriv.height] at hf; omega
      cases cs with
      | nil =>
        have hw : words (r ++ " .EMPTY") = [r, ".EMPTY"] := by
          have := words_spaced r [".EMPTY"] hrw (by decide)
          simpa [spaced] using this
        simp only [Deriv.serialize, Deriv.serializeList, List.cons_append, List.nil_append,
          buildTree, getElem?_append_cons, hw, List.headD_cons, Deriv.rule, hnt, if_true,
          List.tail_cons, buildChildren, Deriv.build, Deriv.buildList, List.length_singleton,
          Nat.sub_self, Nat.add_zero]
        rfl
      | cons c cs' =>
        have hw : words (r ++ spaced (Deriv.rules (c :: cs'))) = r :: Deriv.rules (c :: cs') :=
          words_spaced r _ hrw (Deriv.isWord_rules _ hcs)
        have e := ih hcs f hf' (pre ++ [r ++ spaced (Deriv.rules (c :: cs'))]) post
          (Tree.new r) pre.length (by simp)
        simp only [List.append_assoc, List.singleton_append] at e
        simp only [Deriv.serialize, List.cons_append, buildTree, getElem?_append_cons, hw,
          List.headD_cons, Deriv.rule, hnt, if_true, List.tail_cons, e, Deriv.build,
          List.length_cons, Nat.add_sub_cancel]
        rfl
  · -- a terminal
    intro r l hwf fuel hf pre post
    simp only [Deriv.wellFormed, Bool.decide_and, Bool.and_eq_true, decide_eq_true_eq, ne_eq,
      decide_not, Bool.not_eq_eq_eq_not, Bool.not_true, decide_eq_false_iff_not] at hwf
    obtain ⟨hrw, hnt, _, hlw⟩ := hwf
    cases fuel with
    | zero => simp [Deriv.height] at hf
    | succ f =>
      simp only [Deriv.serialize, List.cons_append, List.nil_append, buildTree,
        getElem?_append_cons, words_pair r l hrw hlw, List.headD_cons, Deriv.rule, hnt,
        Bool.false_eq_true, if_false, List.tail_cons, Deriv.build, List.length_singleton,
        Nat.sub_self, Nat.add_zero]
      rfl
  · -- no child left
    intro _ fuel _ pre post parent k _
    simp only [Deriv.rules, buildChildren, Deriv.buildList, List.append_nil,
      Tree.setChildren_children, Deriv.serializeList, List.length_nil, Nat.add_zero]
  · -- a child and the children after it
    intro c cs ih1 ih2 hwf fuel hf pre post parent k hk
    simp only [Deriv.wellFormedList, Bool.decide_and, Bool.and_eq_true, decide_eq_true_eq] at hwf
    obtain ⟨hc, hcs⟩ := hwf
    simp only [Deriv.heightList] at hf
    have hfc : c.height ≤ fuel := by omega
    have hfcs : Deriv.heightList cs ≤ fuel := by omega
    have hne : c.rule ≠ ".EMPTY" := Deriv.rule_ne_empty c hc
    have hpos := Deriv.serialize_length_pos c
    have e1 := ih1 hc fuel hfc pre (Deriv.serializeList cs ++ post)
    have e2 := ih2 hcs fuel hfcs (pre ++ c.serialize) post (parent.addChild c.build)
      (pre.length + (c.serialize.length - 1)) (by simp; omega)
    simp only [List.append_assoc] at e2
    have hlt : ¬ (k + 1 ≥ (pre ++ (c.serialize ++ (Deriv.serializeList cs ++ post))).length) := by
      simp only [List.length_append]; omega
    simp only [Deriv.rules, Deriv.serializeList, List.append_assoc, buildChildren,
      Bool.false_eq_true, if_false, hne, hlt, ← hk, e1, e2, List.nil_append]
    simp only [Tree.addChild_eq, Tree.setChildren_setChildren, Tree.children_setChildren,
      Deriv.buildList, List.append_assoc, List.singleton_append, List.length_append]
    have : pre.length + (c.serialize.length - 1) + (Deriv.serializeList cs).length
        = k + (c.serialize.length + (Deriv.serializeList cs).length) := by omega
    rw [this, if_neg (by omega)]

/-! ## Helper lemmas: printing -/

theorem isAnnotated_print (node : Tree) :
    IsAnnotated (printHead node ++ printType node) (printHead node) := by
  unfold printType
  split_ifs with h
  · exact Or.inl (String.append_empty _)
  · exact Or.inr ⟨node.type, h, by rw [String.append_assoc]⟩

theorem printTree_annotated (t : Tree) : List.Forall₂ IsAnnotated (printTree t) (printHeads t) := by
  refine Tree.rec
    (motive_1 := fun t => List.Forall₂ IsAnnotated (printTree t) (printHeads t))
    (motive_2 := fun ts => List.Forall₂ IsAnnotated (printTreeList ts) (printHeadsList ts))
    ?_ ?_ ?_ t
  · intro r cs ty l ih
    simp only [printTree, printHeads]
    exact List.Forall₂.cons (isAnnotated_print _) ih
  · simp only [printTreeList, printHeadsList]
    exact List.Forall₂.nil
  · intro c cs ih1 ih2
    simp only [printTreeList, printHeadsList]
    exact List.rel_append ih1 ih2

theorem Tree.rule_eraseTypes (t : Tree) : t.eraseTypes.rule = t.rule := by
  cases t; simp [Tree.eraseTypes]

theorem printChildren_eraseTypesList (ts : List Tree) :
    printChildren (Tree.eraseTypesList ts) = printChildren ts := by
  induction ts with
  | nil => rfl
  | cons c cs ih => simp [Tree.eraseTypesList, printChildren, Tree.rule_eraseTypes, ih]

theorem length_eraseTypesList (ts : List Tree) : (Tree.eraseTypesList ts).length = ts.length := by
  induction ts with
  | nil => rfl
  | cons c cs ih => simp [Tree.eraseTypesList, ih]

theorem printHead_type (r : String) (cs : List Tree) (t t2 l : String) :
    printHead (Tree.mk r cs t l) = printHead (Tree.mk r cs t2 l) := by
  simp [printHead]

theorem printHeads_eraseTypes (t : Tree) : printHeads t.eraseTypes = printHeads t := by
  refine Tree.rec
    (motive_1 := fun t => printHeads t.eraseTypes = printHeads t)
    (motive_2 := fun ts => printHeadsList (Tree.eraseTypesList ts) = printHeadsList ts)
    ?_ ?_ ?_ t
  · intro r cs ty l ih
    simp only [Tree.eraseTypes, printHeads, ih]
    congr 1
    simp [printHead, printChildren_eraseTypesList, length_eraseTypesList]
  · rfl
  · intro c cs ih1 ih2
    simp only [Tree.eraseTypesList, printHeadsList, ih1, ih2]

theorem printHeads_typeLiteral (t : Tree) : printHeads (typeLiteral t) = printHeads t := by
  obtain ⟨r, cs, ty, l⟩ := t
  unfold typeLiteral
  split_ifs <;> simp [printHeads, printHead]

theorem Tree.rule_typeLiteral (t : Tree) : (typeLiteral t).rule = t.rule := by
  unfold typeLiteral
  split_ifs <;> simp [Tree.rule_setType]

theorem Deriv.rule_build (d : Deriv) : d.build.rule = d.rule := by
  cases d <;> rfl

theorem printChildren_buildList (ds : List Deriv) :
    printChildren (Deriv.buildList ds) = spaced (Deriv.rules ds) := by
  induction ds with
  | nil => rfl
  | cons d ds ih =>
    simp [Deriv.buildList, printChildren, spaced, Deriv.rules, Tree.rule_typeLiteral,
      Deriv.rule_build, ih]

theorem printHeads_build (d : Deriv) : d.wellFormed = true → printHeads d.build = d.serialize := by
  refine Deriv.rec
    (motive_1 := fun d => d.wellFormed = true → printHeads d.build = d.serialize)
    (motive_2 := fun ds => Deriv.wellFormedList ds = true →
      printHeadsList (Deriv.buildList ds) = Deriv.serializeList ds)
    ?_ ?_ ?_ ?_ d
  · intro r cs ih hwf
    simp only [Deriv.wellFormed, ne_eq, Bool.decide_and, Bool.and_eq_true,
      decide_eq_true_eq, decide_not, Bool.not_eq_eq_eq_not, Bool.not_true,
      decide_eq_false_iff_not] at hwf
    obtain ⟨_, hnt, hcs⟩ := hwf
    simp only [Deriv.build, printHeads, Deriv.serialize, ih hcs]
    congr 1
    cases cs with
    | nil => simp [printHead, hnt, Deriv.buildList, printChildren]
    | cons c cs' =>
      have e := printChildren_buildList (c :: cs')
      simp only [Deriv.buildList] at e
      simp [printHead, hnt, Deriv.buildList, e]
  · intro r l hwf
    simp only [Deriv.wellFormed, Bool.decide_and, Bool.and_eq_true, decide_eq_true_eq, ne_eq,
      decide_not, Bool.not_eq_eq_eq_not, Bool.not_true, decide_eq_false_iff_not] at hwf
    simp [Deriv.build, printHeads, printHeadsList, Deriv.serialize, printHead, hwf.2.1]
  · intro _; rfl
  · intro c cs ih1 ih2 hwf
    simp only [Deriv.wellFormedList, Bool.decide_and, Bool.and_eq_true, decide_eq_true_eq] at hwf
    simp only [Deriv.buildList, printHeadsList, Deriv.serializeList, printHeads_typeLiteral,
      ih1 hwf.1, ih2 hwf.2]

theorem Deriv.height_le_serialize (d : Deriv) : d.height ≤ d.serialize.length := by
  refine Deriv.rec
    (motive_1 := fun d => d.height ≤ d.serialize.length)
    (motive_2 := fun ds => Deriv.heightList ds ≤ (Deriv.serializeList ds).length)
    ?_ ?_ ?_ ?_ d
  · intro r cs ih
    simp only [Deriv.height, Deriv.serialize, List.length_cons]
    omega
  · intro r l
    simp [Deriv.height, Deriv.serialize]
  · simp [Deriv.heightList, Deriv.serializeList]
  · intro c cs ih1 ih2
    simp only [Deriv.heightList, Deriv.serializeList, List.length_append]
    omega

/-! ## Helper lemmas: the traversal changes types only -/

theorem Tree.eraseTypes_setType (t : Tree) (x : String) :
    (t.setType x).eraseTypes = t.eraseTypes := by
  cases t; simp [Tree.eraseTypes]

theorem eraseTypesList_set (cs : List Tree) : ∀ (i : Nat) (c c0 : Tree),
    cs[i]? = some c0 → c.eraseTypes = c0.eraseTypes →
    Tree.eraseTypesList (cs.set i c) = Tree.eraseTypesList cs := by
  induction cs with
  | nil => intro i c c0 h; simp at h
  | cons d ds ih =>
    intro i c c0 h hc
    cases i with
    | zero =>
      simp only [List.getElem?_cons_zero, Option.some.injEq] at h
      subst h
      simp [Tree.eraseTypesList, hc]
    | succ j =>
      simp only [List.getElem?_cons_succ] at h
      simp [Tree.eraseTypesList, ih j c c0 h hc]

theorem Tree.child_ok {t : Tree} {i : Nat} {c : Tree} (h : t.child i = .ok c) :
    t.children[i]? = some c := by
  unfold Tree.child at h
  split at h
  · cases h; assumption
  · cases h

theorem Tree.eraseTypes_setChild (t : Tree) (i : Nat) (c c0 : Tree)
    (h : t.child i = .ok c0) (hc : c.eraseTypes = c0.eraseTypes) :
    (t.setChild i c).eraseTypes = t.eraseTypes := by
  have h' := Tree.child_ok h
  cases t with
  | mk r cs ty l =>
    simp only [Tree.children_mk] at h'
    simp [Tree.eraseTypes, eraseTypesList_set cs i c c0 h' hc]

theorem Tree.child_setType (t : Tree) (x : String) (i : Nat) :
    (t.setType x).child i = t.child i := by
  cases t; rfl

theorem Retyped.eraseTypes {a b : Tree} (h : Retyped a b) : b.eraseTypes = a.eraseTypes := by
  obtain ⟨t, rfl⟩ := h
  exact Tree.eraseTypes_setType a t

theorem lvaluerRecursionBaseCase_shape (node n : Tree) (st st1 : List SymbolTable)
    (o : List String) (h : lvaluerRecursionBaseCase node st = .ok (n, st1, o)) :
    n.eraseTypes = node.eraseTypes := by
  unfold lvaluerRecursionBaseCase at h
  simp only [bind, Except.bind, pure, Except.pure] at h
  repeat' split at h
  all_goals try cases h
  all_goals first
    | rfl
    | (rw [Tree.eraseTypes_setChild _ _ _ _ (by rw [Tree.child_setType]; assumption)
        (Tree.eraseTypes_setType _ _), Tree.eraseTypes_setType])

theorem factorRecursionBaseCase_shape (node n : Tree) (st st1 : List SymbolTable)
    (o : List String) (h : factorRecursionBaseCase node st = .ok (n, st1, o)) :
    n.eraseTypes = node.eraseTypes := by
  unfold factorRecursionBaseCase at h
  simp only [bind, Except.bind, pure, Except.pure] at h
  repeat' split at h
  all_goals try cases h
  all_goals first
    | rfl
    | (rw [Tree.eraseTypes_setChild _ _ _ _ (by rw [Tree.child_setType]; assumption)
        (Tree.eraseTypes_setType _ _), Tree.eraseTypes_setType])

theorem enterDcl_shape (node n : Tree) (env env1 : Env) (o : List String)
    (h : enterDcl node env = .ok (n, env1, o)) : n.eraseTypes = node.eraseTypes := by
  unfold enterDcl at h
  simp only [bind, Except.bind, pure, Except.pure] at h
  repeat' split at h
  all_goals try cases h
  all_goals first
    | rfl
    | (rw [Tree.eraseTypes_setChild _ _ _ _ (by assumption) (Tree.eraseTypes_setType _ _)])

theorem enterDcls_shape (node n : Tree) (o : List String)
    (h : enterDcls node = .ok (n, o)) : n.eraseTypes = node.eraseTypes := by
  unfold enterDcls at h
  simp only [bind, Except.bind, pure, Except.pure] at h
  repeat' split at h
  all_goals try cases h
  all_goals first
    | rfl
    | (rw [Tree.eraseTypes_setChild _ _ _ _ (by assumption) (Tree.eraseTypes_setType _ _)])

theorem enterBaseCases_shape (node n : Tree) (env env1 : Env) (o : List String)
    (h : enterBaseCases node env = .ok (n, env1, o)) : n.eraseTypes = node.eraseTypes := by
  unfold enterBaseCases at h
  simp only [bind_eq_ok, pure, Except.pure] at h
  obtain ⟨⟨n1, s1, o1⟩, h1, ⟨⟨n2, s2, o2⟩, h2, h⟩⟩ := h
  have r1 : n1.eraseTypes = node.eraseTypes := by
    split_ifs at h1
    · exact factorRecursionBaseCase_shape _ _ _ _ _ h1
    · cases h1; rfl
  have r2 : n2.eraseTypes = n1.eraseTypes := by
    split_ifs at h2
    · exact lvaluerRecursionBaseCase_shape _ _ _ _ _ h2
    · cases h2; rfl
  simp only [Except.ok.injEq, Prod.mk.injEq] at h
  rw [← h.1, r2, r1]

theorem enterNode_shape (node n : Tree) (env env1 : Env) (o : List String)
    (h : enterNode node env = .ok (n, env1, o)) : n.eraseTypes = node.eraseTypes := by
  unfold enterNode at h
  simp only [bind_eq_ok, pure, Except.pure] at h
  obtain ⟨⟨e2, o2⟩, _, ⟨⟨e3, o3⟩, _, ⟨o4, _, ⟨⟨n5, e5, o5⟩, h5, ⟨⟨n6, o6⟩, h6,
    ⟨⟨n7, e7, o7⟩, h7, h⟩⟩⟩⟩⟩⟩ := h
  cases h
  rw [enterBaseCases_shape _ _ _ _ _ h7, enterDcls_shape _ _ _ h6, enterDcl_shape _ _ _ _ _ h5]

theorem traverseChildren_shape (rec : Tree → Env → Except Fault (Tree × Env × List String))
    (hrec : ∀ c env c1 env1 o, rec c env = .ok (c1, env1, o) → c1.eraseTypes = c.eraseTypes)
    (todo : Nat) : ∀ (i : Nat) (node n : Tree) (env env1 : Env) (o : List String),
      traverseChildren rec todo i node env = .ok (n, env1, o) →
      n.eraseTypes = node.eraseTypes := by
  induction todo with
  | zero =>
    intro i node n env env1 o h
    simp only [traverseChildren] at h
    cases h; rfl
  | succ k ih =>
    intro i node n env env1 o h
    obtain ⟨c, c1, e1, o1, n2, o2, n3, e3, o3, h1, h2, h3, h4, h5⟩ :=
      traverseChildren_succ_ok _ _ _ _ _ _ h
    cases h5
    rw [ih _ _ _ _ _ _ h4, (afterChild_retyped _ _ _ h3).eraseTypes,
      Tree.eraseTypes_setChild _ _ _ _ h1 (hrec _ _ _ _ _ h2)]

/-- The traversal leaves every rule, lexeme and the shape of the tree as they
were: only types change. -/
theorem treeTraversal_shape (fuel : Nat) : ∀ (node n : Tree) (env env1 : Env) (o : List String),
    treeTraversal fuel node env = .ok (n, env1, o) → n.eraseTypes = node.eraseTypes := by
  induction fuel with
  | zero => intro node n env env1 o h; simp [treeTraversal] at h
  | succ f ih =>
    intro node n env env1 o h
    obtain ⟨n1, e1, o1, n2, e2, o2, h1, h2, h3⟩ := treeTraversal_succ_ok _ _ _ _ h
    cases h3
    rw [traverseChildren_shape _ (fun c env c1 env1 o hc => ih c c1 env env1 o hc) _ _ _ _ _ _ _ h2,
      enterNode_shape _ _ _ _ _ h1]

/-! ## Helper lemmas: the fuel of the traversal -/

theorem Tree.child_error {t : Tree} {i : Nat} {e : Fault} (h : t.child i = .error e) :
    e ≠ .noFuel := by
  unfold Tree.child at h
  split at h <;> cases h
  decide

theorem back_error {st : List SymbolTable} {e : Fault} (h : back st = .error e) :
    e ≠ .noFuel := by
  unfold back at h
  split at h <;> cases h
  decide

theorem backGetType_error {st : List SymbolTable} {name : String} {e : Fault}
    (h : backGetType st name = .error e) : e ≠ .noFuel := by
  unfold backGetType at h
  simp only [bind, Except.bind, pure, Except.pure] at h
  split at h
  · cases h; exact back_error (by assumption)
  · cases h

theorem bind_eq_error {ε α β : Type} (x : Except ε α) (f : α → Except ε β) (e : ε) :
    (x >>= f) = .error e ↔ x = .error e ∨ ∃ a, x = .ok a ∧ f a = .error e := by
  cases x with
  | error e2 => simp [bind, Except.bind]
  | ok a => simp [bind, Except.bind]

theorem afterBaseline_error (node : Tree) (e : Fault) (h : afterBaseline node = .error e) :
    e ≠ .noFuel := by
  unfold afterBaseline at h
  simp only [bind, Except.bind, pure, Except.pure] at h
  repeat' split at h
  all_goals try cases h
  all_goals first | contradiction | exact Tree.child_error (by assumption)

theorem afterParen_error (node : Tree) (e : Fault) (h : afterParen node = .error e) :
    e ≠ .noFuel := by
  unfold afterParen at h
  simp only [bind, Except.bind, pure, Except.pure] at h
  repeat' split at h
  all_goals try cases h
  all_goals first | contradiction | exact Tree.child_error (by assumption)

theorem afterStar_error (rule : String) (node : Tree) (e : Fault)
    (h : afterStar rule node = .error e) : e ≠ .noFuel := by
  unfold afterStar at h
  simp only [bind, Except.bind, pure, Except.pure] at h
  repeat' split at h
  all_goals try cases h
  all_goals first | contradiction | exact Tree.child_error (by assumption)

theorem afterNew_error (node : Tree) (e : Fault) (h : afterNew node = .error e) :
    e ≠ .noFuel := by
  unfold afterNew at h
  simp only [bind, Except.bind, pure, Except.pure] at h
  repeat' split at h
  all_goals try cases h
  all_goals first | contradiction | exact Tree.child_error (by assumption)

theorem afterAmp_error (node : Tree) (e : Fault) (h : afterAmp node = .error e) :
    e ≠ .noFuel := by
  unfold afterAmp at h
  simp only [bind, Except.bind, pure, Except.pure] at h
  repeat' split at h
  all_goals try cases h
  all_goals first | contradiction | exact Tree.child_error (by assumption)

theorem afterExpr_error (node : Tree) (e : Fault) (h : afterExpr node = .error e) :
    e ≠ .noFuel := by
  unfold afterExpr at h
  simp only [bind, Except.bind, pure, Except.pure] at h
  repeat' split at h
  all_goals try cases h
  all_goals first | contradiction | exact Tree.child_error (by assumption)

theorem afterTermOp_error (node : Tree) (op : String) (e : Fault)
    (h : afterTermOp node op = .error e) : e ≠ .noFuel := by
  unfold afterTermOp at h
  simp only [bind, Except.bind, pure, Except.pure] at h
  repeat' split at h
  all_goals try cases h
  all_goals first | contradiction | exact Tree.child_error (by assumption)

theorem afterTerm_error (node : Tree) (e : Fault) (h : afterTerm node = .error e) :
    e ≠ .noFuel := by
  unfold afterTerm at h
  simp only [bind, Except.bind, pure, Except.pure] at h
  repeat' split at h
  all_goals try cases h
  all_goals first | contradiction | exact afterTermOp_error _ _ _ (by assumption)

theorem afterCall_error (node : Tree) (e : Fault) (h : afterCall node = .error e) :
    e ≠ .noFuel := by
  unfold afterCall at h
  simp only [bind, Except.bind, pure, Except.pure] at h
  repeat' split at h
  all_goals try cases h
  all_goals first | contradiction | exact Tree.child_error (by assumption)

theorem afterStatement_error (node : Tree) (e : Fault) (h : afterStatement node = .error e) :
    e ≠ .noFuel := by
  unfold afterStatement at h
  simp only [bind, Except.bind, pure, Except.pure] at h
  repeat' split at h
  all_goals try cases h
  all_goals first | contradiction | exact Tree.child_error (by assumption)

theorem afterTest_error (node : Tree) (e : Fault) (h : afterTest node = .error e) :
    e ≠ .noFuel := by
  unfold afterTest at h
  simp only [bind, Except.bind, pure, Except.pure] at h
  repeat' split at h
  all_goals try cases h
  all_goals first | contradiction | exact Tree.child_error (by assumption)

theorem afterChild_error (node : Tree) (e : Fault) (h : afterChild node = .error e) :
    e ≠ .noFuel := by
  unfold afterChild at h
  simp only [bind_eq_error, pure, Except.pure] at h
  rcases h with h | ⟨_, _, h | ⟨_, _, h | ⟨⟨_, _⟩, _, h | ⟨⟨_, _⟩, _, h | ⟨_, _, h | ⟨⟨_, _⟩, _,
    h | ⟨⟨_, _⟩, _, h | ⟨_, _, h | ⟨_, _, h | ⟨_, _, h | ⟨_, _, h⟩⟩⟩⟩⟩⟩⟩⟩⟩⟩⟩
  · exact afterBaseline_error _ _ h
  · exact afterParen_error _ _ h
  · exact afterStar_error _ _ _ h
  · exact afterStar_error _ _ _ h
  · exact afterNew_error _ _ h
  · exact afterAmp_error _ _ h
  · exact afterExpr_error _ _ h
  · exact afterTerm_error _ _ h
  · exact afterCall_error _ _ h
  · exact afterStatement_error _ _ h
  · exact afterTest_error _ _ h
  · cases h

theorem lvaluerRecursionBaseCase_error (node : Tree) (st : List SymbolTable) (e : Fault)
    (h : lvaluerRecursionBaseCase node st = .error e) : e ≠ .noFuel := by
  unfold lvaluerRecursionBaseCase at h
  simp only [bind, Except.bind, pure, Except.pure] at h
  repeat' split at h
  all_goals try cases h
  all_goals first
    | contradiction
    | exact Tree.child_error (by assumption)
    | exact backGetType_error (by assumption)

theorem factorRecursionBaseCase_error (node : Tree) (st : List SymbolTable) (e : Fault)
    (h : factorRecursionBaseCase node st = .error e) : e ≠ .noFuel := by
  unfold factorRecursionBaseCase at h
  simp only [bind, Except.bind, pure, Except.pure] at h
  repeat' split at h
  all_goals try cases h
  all_goals first
    | contradiction
    | exact Tree.child_error (by assumption)
    | exact backGetType_error (by assumption)

theorem enterProcedure_error (node : Tree) (env : Env) (e : Fault)
    (h : enterProcedure node env = .error e) : e ≠ .noFuel := by
  unfold enterProcedure at h
  simp only [bind, Except.bind, pure, Except.pure] at h
  repeat' split at h
  all_goals try cases h
  all_goals first | contradiction | exact Tree.child_error (by assumption)

theorem enterParamlist_error (node : Tree) (env : Env) (e : Fault)
    (h : enterParamlist node env = .error e) : e ≠ .noFuel := by
  unfold enterParamlist at h
  simp only [bind, Except.bind, pure, Except.pure] at h
  repeat' split at h
  all_goals try cases h
  all_goals first | contradiction | exact Tree.child_error (by assumption)

theorem enterMain_error (node : Tree) (e : Fault) (h : enterMain node = .error e) :
    e ≠ .noFuel := by
  unfold enterMain at h
  simp only [bind, Except.bind, pure, Except.pure] at h
  repeat' split at h
  all_goals try cases h
  all_goals first | contradiction | exact Tree.child_error (by assumption)

theorem enterDcl_error (node : Tree) (env : Env) (e : Fault)
    (h : enterDcl node env = .error e) : e ≠ .noFuel := by
  unfold enterDcl at h
  simp only [bind, Except.bind, pure, Except.pure] at h
  repeat' split at h
  all_goals try cases h
  all_goals first
    | contradiction
    | exact Tree.child_error (by assumption)
    | exact back_error (by assumption)

theorem enterDcls_error (node : Tree) (e : Fault) (h : enterDcls node = .error e) :
    e ≠ .noFuel := by
  unfold enterDcls at h
  simp only [bind, Except.bind, pure, Except.pure] at h
  repeat' split at h
  all_goals try cases h
  all_goals first | contradiction | exact Tree.child_error (by assumption)

theorem enterBaseCases_error (node : Tree) (env : Env) (e : Fault)
    (h : enterBaseCases node env = .error e) : e ≠ .noFuel := by
  unfold enterBaseCases at h
  simp only [bind_eq_error, pure, Except.pure] at h
  rcases h with h | ⟨⟨_, _, _⟩, _, h | ⟨⟨_, _, _⟩, _, h⟩⟩
  · split_ifs at h
    exact factorRecursionBaseCase_error _ _ _ h
  · split_ifs at h
    exact lvaluerRecursionBaseCase_error _ _ _ h
  · cases h

theorem enterNode_error (node : Tree) (env : Env) (e : Fault)
    (h : enterNode node env = .error e) : e ≠ .noFuel := by
  unfold enterNode at h
  simp only [bind_eq_error, pure, Except.pure] at h
  rcases h with h | ⟨⟨_, _⟩, _, h | ⟨⟨_, _⟩, _, h | ⟨_, _, h | ⟨⟨_, _, _⟩, _, h | ⟨⟨_, _⟩, _,
    h | ⟨⟨_, _, _⟩, _, h⟩⟩⟩⟩⟩⟩
  · exact enterProcedure_error _ _ _ h
  · exact enterParamlist_error _ _ _ h
  · exact enterMain_error _ _ h
  · exact enterDcl_error _ _ _ h
  · exact enterDcls_error _ _ h
  · exact enterBaseCases_error _ _ _ h
  · cases h

theorem Tree.height_eraseTypes (t : Tree) : t.eraseTypes.height = t.height := by
  refine Tree.rec
    (motive_1 := fun t => t.eraseTypes.height = t.height)
    (motive_2 := fun ts => Tree.heightList (Tree.eraseTypesList ts) = Tree.heightList ts)
    ?_ ?_ ?_ t
  · intro r cs ty l ih
    simp only [Tree.eraseTypes, Tree.height, ih]
  · rfl
  · intro c cs ih1 ih2
    simp only [Tree.eraseTypesList, Tree.heightList, ih1, ih2]

theorem Tree.height_eq_of_eraseTypes {a b : Tree} (h : a.eraseTypes = b.eraseTypes) :
    a.height = b.height := by
  rw [← Tree.height_eraseTypes a, h, Tree.height_eraseTypes]

theorem Tree.heightList_children (t : Tree) : Tree.heightList t.children + 1 = t.height := by
  cases t; simp [Tree.height]

theorem heightList_getElem? (cs : List Tree) : ∀ (i : Nat) (c : Tree),
    cs[i]? = some c → c.height ≤ Tree.heightList cs := by
  induction cs with
  | nil => intro i c h; simp at h
  | cons d ds ih =>
    intro i c h
    cases i with
    | zero =>
      simp only [List.getElem?_cons_zero, Option.some.injEq] at h
      subst h
      simp [Tree.heightList]
    | succ j =>
      simp only [List.getElem?_cons_succ] at h
      have := ih j c h
      simp only [Tree.heightList]
      omega

theorem Tree.heightList_eq_of_eraseTypes {a b : Tree} (h : a.eraseTypes = b.eraseTypes) :
    Tree.heightList a.children = Tree.heightList b.children := by
  have := Tree.height_eq_of_eraseTypes h
  rw [← Tree.heightList_children a, ← Tree.heightList_children b] at this
  omega

/-- With the children no higher than `f`, the loop over them does not run out of
fuel when the recursive call does not on trees no higher than `f`. -/
theorem traverseChildren_fuel (rec : Tree → Env → Except Fault (Tree × Env × List String))
    (f : Nat) (hrec : ∀ c env, c.height ≤ f → rec c env ≠ .error .noFuel)
    (hshape : ∀ c env c1 env1 o, rec c env = .ok (c1, env1, o) → c1.eraseTypes = c.eraseTypes)
    (todo : Nat) : ∀ (i : Nat) (node : Tree) (env : Env),
      Tree.heightList node.children ≤ f →
      traverseChildren rec todo i node env ≠ .error .noFuel := by
  induction todo with
  | zero => intro i node env _; simp [traverseChildren]
  | succ k ih =>
    intro i node env hh hcontra
    simp only [traverseChildren] at hcontra
    cases h1 : node.child i with
    | error e =>
      simp only [h1] at hcontra
      cases hcontra
      exact Tree.child_error h1 rfl
    | ok c =>
      have hc : c.height ≤ f := le_trans (heightList_getElem? _ _ _ (Tree.child_ok h1)) hh
      cases h2 : rec c env with
      | error e =>
        simp only [h1, h2] at hcontra
        cases hcontra
        exact hrec c env hc h2
      | ok r2 =>
        obtain ⟨c1, e1, o1⟩ := r2
        cases h3 : afterChild (node.setChild i c1) with
        | error e =>
          simp only [h1, h2, h3] at hcontra
          cases hcontra
          exact afterChild_error _ _ h3 rfl
        | ok r3 =>
          obtain ⟨n2, o2⟩ := r3
          have hs : n2.eraseTypes = node.eraseTypes := by
            rw [(afterChild_retyped _ _ _ h3).eraseTypes,
              Tree.eraseTypes_setChild _ _ _ _ h1 (hshape _ _ _ _ _ h2)]
          have hh2 : Tree.heightList n2.children ≤ f := by
            rw [Tree.heightList_eq_of_eraseTypes hs]; exact hh
          cases h4 : traverseChildren rec k (i + 1) n2 e1 with
          | error e =>
            simp only [h1, h2, h3, h4] at hcontra
            cases hcontra
            exact ih _ _ _ hh2 h4
          | ok r4 =>
            obtain ⟨n3, e3, o3⟩ := r4
            simp only [h1, h2, h3, h4] at hcontra
            cases hcontra

/-- The traversal never runs out of fuel when given the height of the tree. -/
theorem treeTraversal_fuel (fuel : Nat) : ∀ (node : Tree) (env : Env),
    node.height ≤ fuel → treeTraversal fuel node env ≠ .error .noFuel := by
  induction fuel with
  | zero =>
    intro node env h
    have := Tree.heightList_children node
    omega
  | succ f ih =>
    intro node env h hcontra
    simp only [treeTraversal] at hcontra
    cases h1 : enterNode node env with
    | error e =>
      simp only [h1] at hcontra
      cases hcontra
      exact enterNode_error _ _ _ h1 rfl
    | ok r1 =>
      obtain ⟨n1, e1, o1⟩ := r1
      have hs := enterNode_shape _ _ _ _ _ h1
      have hh : Tree.heightList n1.children ≤ f := by
        rw [Tree.heightList_eq_of_eraseTypes hs]
        have := Tree.heightList_children node
        omega
      cases h2 : traverseChildren (treeTraversal f) n1.getChildrenSize 0 n1 e1 with
      | error e =>
        simp only [h1, h2] at hcontra
        cases hcontra
        exact traverseChildren_fuel _ f ih
          (fun c env c1 env1 o hc => treeTraversal_shape f c c1 env env1 o hc) _ _ _ _ hh h2
      | ok r2 =>
        obtain ⟨n2, e2, o2⟩ := r2
        simp only [h1, h2] at hcontra
        cases hcontra

/-! ## Helper lemmas: the fuel of the builder -/

theorem buildChildren_idx (rec : Tree → BuildState → Except Fault (Tree × BuildState × List String))
    (lines : List String)
    (hrec : ∀ p s t s1 o, rec p s = .ok (t, s1, o) → s.idx ≤ s1.idx)
    (toks : List String) : ∀ (parent : Tree) (s : BuildState) (t : Tree) (s1 : BuildState)
      (o : List String), buildChildren rec lines toks parent s = .ok (t, s1, o) →
      s.idx ≤ s1.idx := by
  induction toks with
  | nil =>
    intro parent s t s1 o h
    simp only [buildChildren, Except.ok.injEq, Prod.mk.injEq] at h
    rw [← h.2.1]
  | cons tok rest ih =>
    intro parent s t s1 o h
    simp only [buildChildren] at h
    split_ifs at h with h1 h2 h3
    · simp only [Except.ok.injEq, Prod.mk.injEq] at h; rw [← h.2.1]
    · simp only [Except.ok.injEq, Prod.mk.injEq] at h; rw [← h.2.1]
    · simp only [Except.ok.injEq, Prod.mk.injEq] at h; rw [← h.2.1]; simp
    · cases h4 : rec (Tree.new tok) { s with idx := s.idx + 1 } with
      | error e => simp only [h4] at h; cases h
      | ok r =>
        obtain ⟨c, s2, o1⟩ := r
        have hm := hrec _ _ _ _ _ h4
        simp only at hm
        cases h5 : buildChildren rec lines rest (parent.addChild c) s2 with
        | error e => simp only [h4, h5] at h; cases h
        | ok r2 =>
          obtain ⟨p2, s3, o2⟩ := r2
          have hm2 := ih _ _ _ _ _ h5
          simp only [h4, h5, Except.ok.injEq, Prod.mk.injEq] at h
          rw [← h.2.1]
          omega

/-- The cursor of `buildTree` never moves back. -/
theorem buildTree_idx (fuel : Nat) (lines : List String) : ∀ (parent : Tree) (s : BuildState)
    (t : Tree) (s1 : BuildState) (o : List String),
    buildTree fuel lines parent s = .ok (t, s1, o) → s.idx ≤ s1.idx := by
  induction fuel with
  | zero => intro parent s t s1 o h; simp [buildTree] at h
  | succ f ih =>
    intro parent s t s1 o h
    simp only [buildTree] at h
    split at h
    · cases h
    · split_ifs at h
      · exact buildChildren_idx _ lines ih _ _ _ _ _ _ h
      · split at h
        · simp only [Except.ok.injEq, Prod.mk.injEq] at h; rw [← h.2.1]
        · simp only [Except.ok.injEq, Prod.mk.injEq] at h; rw [← h.2.1]

theorem buildChildren_fuel
    (rec : Tree → BuildState → Except Fault (Tree × BuildState × List String))
    (lines : List String) (k : Nat)
    (hidx : ∀ p s t s1 o, rec p s = .ok (t, s1, o) → s.idx ≤ s1.idx)
    (hrec : ∀ p s, k ≤ s.idx → s.idx < lines.length → rec p s ≠ .error .noFuel)
    (toks : List String) : ∀ (parent : Tree) (s : BuildState), k ≤ s.idx + 1 →
      buildChildren rec lines toks parent s ≠ .error .noFuel := by
  induction toks with
  | nil => intro parent s _; simp [buildChildren]
  | cons tok rest ih =>
    intro parent s hk hcontra
    simp only [buildChildren] at hcontra
    split_ifs at hcontra with h1 h2 h3
    cases h4 : rec (Tree.new tok) { s with idx := s.idx + 1 } with
    | error e =>
      simp only [h4] at hcontra
      cases hcontra
      exact hrec _ _ hk (by simpa using h3) h4
    | ok r =>
      obtain ⟨c, s2, o1⟩ := r
      have hm := hidx _ _ _ _ _ h4
      simp only at hm
      cases h5 : buildChildren rec lines rest (parent.addChild c) s2 with
      | error e =>
        simp only [h4, h5] at hcontra
        cases hcontra
        exact ih _ _ (by omega) h5
      | ok r2 =>
        obtain ⟨p2, s3, o2⟩ := r2
        simp only [h4, h5] at hcontra
        cases hcontra

/-- With one unit of fuel per line from the cursor on, `buildTree` does not run
out of fuel. -/
theorem buildTree_fuel (fuel : Nat) (lines : List String) : ∀ (parent : Tree) (s : BuildState),
    1 ≤ fuel → lines.length ≤ fuel + s.idx → buildTree fuel lines parent s ≠ .error .noFuel := by
  induction fuel with
  | zero => intro parent s h; omega
  | succ f ih =>
    intro parent s _ hlen hcontra
    simp only [buildTree] at hcontra
    split at hcontra
    · cases hcontra
    · split_ifs at hcontra
      · refine buildChildren_fuel (buildTree f lines) lines (s.idx + 1)
          (buildTree_idx f lines) ?_ _ _ _ (le_refl _) hcontra
        intro p s2 hk hlt
        exact ih p s2 (by omega) (by omega)
      · split at hcontra <;> cases hcontra

/-- On a non-empty input `main` never runs out of fuel: it ends with its output
or in one of the two undefined behaviours of the source. -/
theorem main_fuel (line0 : String) (rest : List String) :
    main (line0 :: rest) ≠ .error .noFuel := by
  intro h
  simp only [main, List.getElem?_cons_zero] at h
  split at h
  · rename_i e hb
    cases h
    exact buildTree_fuel _ _ _ _ (by simp) (by simp) hb
  · split at h
    · rename_i e ht
      cases h
      exact treeTraversal_fuel _ _ _ (le_refl _) ht
    · cases h

/-! ## Helper lemmas: the procedure table -/

theorem mapAssign_lookup {β : Type} (l : List (String × β)) (name : String) (v : β) :
    (mapAssign l name v).lookup name = some v := by
  induction l with
  | nil => simp [mapAssign, List.lookup]
  | cons q rest ih =>
    obtain ⟨k, w⟩ := q
    by_cases hk : k = name
    · simp [mapAssign, hk, List.lookup]
    · have hk2 : (name == k) = false := by
        simpa using fun h => hk h.symm
      simp only [mapAssign, hk, if_false, List.lookup_cons, hk2]
      exact ih

theorem procedureExists_addProcedure (p : ProcedureTable) (name : String) (a : List String) :
    (p.addProcedure name a).1.procedureExists name = true := by
  simp [ProcedureTable.addProcedure, ProcedureTable.procedureExists, mapAssign_lookup]

/-! ## Helper lemmas: the rules of `term`, assignment and `test` -/

theorem afterTerm_mk (a b c : Tree) (ty lex : String)
    (hb : b.rule = "STAR" ∨ b.rule = "SLASH" ∨ b.rule = "PCT") :
    afterTerm (Tree.mk "term" [a, b, c] ty lex) = .ok (termDiag b.rule a.type c.type) := by
  have e1 : ∀ m : String, errorReport m (-1) = "ERROR: " ++ m := by
    intro m; simp [errorReport]
  by_cases h : a.type = "int*" ∨ c.type = "int*"
  · rcases hb with hb | hb | hb <;>
      simp [afterTerm, afterTermOp, Tree.child, bind, Except.bind, pure, Except.pure, hb, h,
        termDiag, e1, String.append_assoc]
  · rcases hb with hb | hb | hb <;>
      simp [afterTerm, afterTermOp, Tree.child, bind, Except.bind, pure, Except.pure, hb, h,
        termDiag]

theorem afterChild_term (a b c : Tree) (ty lex : String)
    (hb : b.rule = "STAR" ∨ b.rule = "SLASH" ∨ b.rule = "PCT") :
    afterChild (Tree.mk "term" [a, b, c] ty lex)
      = .ok (Tree.mk "term" [a, b, c] a.type lex, termDiag b.rule a.type c.type) := by
  simp [afterChild, afterBaseline_mk, afterParen_skip, afterStar_skip, afterNew_skip,
    afterAmp_skip, afterExpr_skip, afterTerm_mk, hb, afterCall_skip, afterStatement_skip,
    afterTest_skip, bind, Except.bind, pure, Except.pure]

theorem afterStatement_assign (a b c d : Tree) (ty lex : String) :
    afterStatement (Tree.mk "statement" [a, b, c, d] ty lex)
      = .ok (mismatchDiag "Type Mismatch" a.type c.type) := by
  have e1 : errorReport "Type Mismatch" (-1) = "ERROR: Type Mismatch" := by decide
  by_cases h1 : a.type = "" <;> by_cases h2 : c.type = "" <;> by_cases h3 : a.type = c.type <;>
    simp [afterStatement, Tree.child, bind, Except.bind, pure, Except.pure, h1, h2, h3,
      mismatchDiag, e1]

theorem afterChild_assign (a b c d : Tree) (ty lex : String) :
    afterChild (Tree.mk "statement" [a, b, c, d] ty lex)
      = .ok (Tree.mk "statement" [a, b, c, d] "" lex,
          mismatchDiag "Type Mismatch" a.type c.type) := by
  simp [afterChild, afterBaseline_mk, afterParen_skip, afterStar_skip, afterNew_skip,
    afterAmp_skip, afterExpr_skip, afterTerm_skip, afterCall_skip, afterStatement_assign,
    afterTest_skip, bind, Except.bind, pure, Except.pure]

theorem afterTest_mk (a b c : Tree) (ty lex : String) :
    afterTest (Tree.mk "test" [a, b, c] ty lex)
      = .ok (mismatchDiag "Type mismatch during comparision" a.type c.type) := by
  have e1 : errorReport "Type mismatch during comparision" (-1)
      = "ERROR: Type mismatch during comparision" := by decide
  by_cases h1 : a.type = "" <;> by_cases h2 : c.type = "" <;> by_cases h3 : a.type = c.type <;>
    simp [afterTest, Tree.child, bind, Except.bind, pure, Except.pure, h1, h2, h3,
      mismatchDiag, e1]

theorem afterChild_test (a b c : Tree) (ty lex : String) :
    afterChild (Tree.mk "test" [a, b, c] ty lex)
      = .ok (Tree.mk "test" [a, b, c] "" lex,
          mismatchDiag "Type mismatch during comparision" a.type c.type) := by
  simp [afterChild, afterBaseline_mk, afterParen_skip, afterStar_skip, afterNew_skip,
    afterAmp_skip, afterExpr_skip, afterTerm_skip, afterCall_skip, afterStatement_skip,
    afterTest_mk, bind, Except.bind, pure, Except.pure]

/-! ## Helper lemmas: `buildTree` fills a node, it does not rename or type it -/

theorem Tree.addChild_rule_type (parent child : Tree) :
    (parent.addChild child).rule = parent.rule ∧ (parent.addChild child).type = parent.type := by
  cases parent
  simp [Tree.addChild, Tree.setChildren]

theorem buildChildren_rule_type
    (rec : Tree → BuildState → Except Fault (Tree × BuildState × List String))
    (lines : List String) (toks : List String) : ∀ (parent : Tree) (s : BuildState) (t : Tree)
      (s1 : BuildState) (o : List String),
      buildChildren rec lines toks parent s = .ok (t, s1, o) →
      t.rule = parent.rule ∧ t.type = parent.type := by
  induction toks with
  | nil =>
    intro parent s t s1 o h
    simp only [buildChildren, Except.ok.injEq, Prod.mk.injEq] at h
    rw [← h.1]; exact ⟨rfl, rfl⟩
  | cons tok rest ih =>
    intro parent s t s1 o h
    simp only [buildChildren] at h
    split_ifs at h with h1 h2 h3
    · simp only [Except.ok.injEq, Prod.mk.injEq] at h; rw [← h.1]; exact ⟨rfl, rfl⟩
    · simp only [Except.ok.injEq, Prod.mk.injEq] at h; rw [← h.1]; exact ⟨rfl, rfl⟩
    · simp only [Except.ok.injEq, Prod.mk.injEq] at h; rw [← h.1]; exact ⟨rfl, rfl⟩
    · cases h4 : rec (Tree.new tok) { s with idx := s.idx + 1 } with
      | error e => simp only [h4] at h; cases h
      | ok r =>
        obtain ⟨c, s2, o1⟩ := r
        cases h5 : buildChildren rec lines rest (parent.addChild c) s2 with
        | error e => simp only [h4, h5] at h; cases h
        | ok r2 =>
          obtain ⟨p2, s3, o2⟩ := r2
          have hm2 := ih _ _ _ _ _ h5
          simp only [h4, h5, Except.ok.injEq, Prod.mk.injEq] at h
          rw [← h.1, hm2.1, hm2.2]
          exact Tree.addChild_rule_type parent c

theorem buildTree_rule_type (fuel : Nat) (lines : List String) (parent : Tree) (s : BuildState)
    (t : Tree) (s1 : BuildState) (o : List String)
    (h : buildTree fuel lines parent s = .ok (t, s1, o)) :
    t.rule = parent.rule ∧ t.type = parent.type := by
  cases fuel with
  | zero => simp [buildTree] at h
  | succ f =>
    simp only [buildTree] at h
    split at h
    · cases h
    · split_ifs at h
      · exact buildChildren_rule_type _ lines _ _ _ _ _ _ h
      · split at h
        · simp only [Except.ok.injEq, Prod.mk.injEq] at h; rw [← h.1]
          cases parent; exact ⟨rfl, rfl⟩
        · simp only [Except.ok.injEq, Prod.mk.injEq] at h; rw [← h.1]; exact ⟨rfl, rfl⟩

/-! ## Helper lemmas: the scope stack and the base cases -/

theorem setBack_back {stack : List SymbolTable} {s : SymbolTable} (h : back stack = .ok s) :
    setBack stack s = stack := by
  unfold back at h
  cases hl : stack.getLast? with
  | none => rw [hl] at h; cases h
  | some x =>
    rw [hl] at h
    cases h
    exact List.dropLast_append_getLast? _ hl

theorem length_setBack {stack : List SymbolTable} {s0 : SymbolTable} (h : back stack = .ok s0)
    (s : SymbolTable) : (setBack stack s).length = stack.length := by
  have hne : stack ≠ [] := by
    intro e; subst e; simp [back] at h
  have := List.length_pos.mpr hne
  simp only [setBack, List.length_append, List.length_dropLast, List.length_singleton]
  omega

theorem backGetType_absent {stack : List SymbolTable} {s : SymbolTable} (name : String)
    (h : back stack = .ok s) (hn : s.find name = none) :
    backGetType stack name
      = .ok (stack, "", ["ERROR: Variable " ++ name ++ " was not declared"]) := by
  simp [backGetType, h, SymbolTable.getType, hn, setBack_back h, errorReport_variable, bind,
    Except.bind, pure, Except.pure]

theorem afterCall_single (r : String) (a : Tree) (ty lex : String) :
    afterCall (Tree.mk r [a] ty lex) = .ok (Tree.mk r [a] ty lex) := by
  simp [afterCall, pure, Except.pure]

theorem afterChild_single_id (r : String) (a : Tree) (ty lex : String) (ha : a.rule = "ID")
    (hr : r = "factor" ∨ r = "lvalue") :
    afterChild (Tree.mk r [a] ty lex) = .ok (Tree.mk r [a] a.type lex, []) := by
  rcases hr with hr | hr <;> subst hr <;>
    simp [afterChild, afterBaseline_mk, afterParen_skip, afterStar_skip, afterNew_skip,
      afterAmp_skip, afterExpr_skip, afterTerm_skip, afterCall_single, afterStatement_skip,
      afterTest_skip, ha, bind, Except.bind, pure, Except.pure]

theorem treeTraversal_leaf (fuel : Nat) (r ty lex : String) (env : Env) (h1 : r ≠ "procedures")
    (h2 : r ≠ "procedure") (h3 : r ≠ "paramlist") (h4 : r ≠ "main") (h5 : r ≠ "dcl")
    (h6 : r ≠ "dcls") :
    treeTraversal (fuel + 1) (Tree.mk r [] ty lex) env = .ok (Tree.mk r [] ty lex, env, []) := by
  have e0 : enterNode (Tree.mk r [] ty lex) env = .ok (Tree.mk r [] ty lex, env, []) :=
    enterNode_plain _ _ (by simpa using h1) (by simpa using h2) (by simpa using h3)
      (by simpa using h4) (by simpa using h5) (by simpa using h6) (Or.inr (by simp))
  simp [treeTraversal, e0, traverseChildren]

theorem enterNode_factor_undeclared (name idty ty lex : String) (env : Env) (s : SymbolTable)
    (hs : back env.symbolTableStack = .ok s) (hn : s.find name = none) :
    enterNode (Tree.mk "factor" [Tree.mk "ID" [] idty name] ty lex) env
      = .ok (Tree.mk "factor" [Tree.mk "ID" [] idty name] ty lex, env,
          ["ERROR: Variable " ++ name ++ " was not declared",
           "ERROR: Variable " ++ name ++ " was not declared",
           "ERROR: Variable " ++ name ++ " was not declared",
           "ERROR: Variable not declared! "]) := by
  have e : errorReport "Variable not declared! " (-1) = "ERROR: Variable not declared! " := by
    decide
  cases env
  simp only at hs
  simp [enterNode, enterProcedures, enterProcedure, enterParamlist, enterMain, enterDcl,
    enterDcls, enterBaseCases, factorRecursionBaseCase, Tree.child,
    backGetType_absent name hs hn, e, bind, Except.bind, pure, Except.pure]

theorem enterNode_lvalue_undeclared (name idty ty lex : String) (env : Env) (s : SymbolTable)
    (hs : back env.symbolTableStack = .ok s) (hn : s.find name = none) :
    enterNode (Tree.mk "lvalue" [Tree.mk "ID" [] idty name] ty lex) env
      = .ok (Tree.mk "lvalue" [Tree.mk "ID" [] idty name] ty lex, env,
          ["ERROR: Variable " ++ name ++ " was not declared",
           "ERROR: Variable " ++ name ++ " was not declared",
           "ERROR: Variable not declared! "]) := by
  have e : errorReport "Variable not declared! " (-1) = "ERROR: Variable not declared! " := by
    decide
  cases env
  simp only at hs
  simp [enterNode, enterProcedures, enterProcedure, enterParamlist, enterMain, enterDcl,
    enterDcls, enterBaseCases, lvaluerRecursionBaseCase, Tree.child,
    backGetType_absent name hs hn, e, bind, Except.bind, pure, Except.pure]

/-! ## Helper lemmas: the scope stack along the walk -/

theorem SymbolTable.getType_fst (s : SymbolTable) (name : String) : (s.getType name).1 = s := by
  unfold SymbolTable.getType
  split <;> rfl

theorem backGetType_eq (stack : List SymbolTable) (name : String) :
    backGetType stack name
      = (back stack).map (fun s => (stack, (s.getType name).2.1, (s.getType name).2.2)) := by
  cases h : back stack with
  | error e => simp [backGetType, h, bind, Except.bind, Except.map]
  | ok s =>
    simp [backGetType, h, bind, Except.bind, Except.map, pure, Except.pure,
      SymbolTable.getType_fst, setBack_back h]

theorem backGetType_ok_iff (stack : List SymbolTable) (name : String)
    (v : List SymbolTable × String × List String) :
    backGetType stack name = .ok v
      ↔ (v.1 = stack ∧ ∃ s, back stack = .ok s
          ∧ v.2 = ((s.getType name).2.1, (s.getType name).2.2)) := by
  rw [backGetType_eq]
  obtain ⟨a, b⟩ := v
  cases hb : back stack with
  | error e => simp [Except.map]
  | ok s =>
    simp only [Except.map, Except.ok.injEq, Prod.mk.injEq]
    constructor
    · rintro ⟨rfl, rfl⟩; exact ⟨rfl, s, rfl, rfl⟩
    · rintro ⟨rfl, s1, hs, rfl⟩; cases hs; exact ⟨rfl, rfl⟩

theorem lvaluerRecursionBaseCase_stack (node n : Tree) (st st1 : List SymbolTable)
    (o : List String) (h : lvaluerRecursionBaseCase node st = .ok (n, st1, o)) : st1 = st := by
  unfold lvaluerRecursionBaseCase at h
  simp only [bind, Except.bind, pure, Except.pure] at h
  repeat' split at h
  all_goals try cases h
  all_goals simp_all [backGetType_ok_iff]

theorem factorRecursionBaseCase_stack (node n : Tree) (st st1 : List SymbolTable)
    (o : List String) (h : factorRecursionBaseCase node st = .ok (n, st1, o)) : st1 = st := by
  unfold factorRecursionBaseCase at h
  simp only [bind, Except.bind, pure, Except.pure] at h
  repeat' split at h
  all_goals try cases h
  all_goals simp_all [backGetType_ok_iff]

theorem enterProcedure_scope (node : Tree) (env env1 : Env) (o : List String)
    (h : enterProcedure node env = .ok (env1, o)) :
    env1.symbolTableStack = env.symbolTableStack ∧ env1.procedureNumber = env.procedureNumber
      ∧ env1.parameterTypeList = env.parameterTypeList := by
  unfold enterProcedure at h
  simp only [bind, Except.bind, pure, Except.pure] at h
  repeat' split at h
  all_goals try cases h
  all_goals exact ⟨rfl, rfl, rfl⟩

theorem enterParamlist_scope (node : Tree) (env env1 : Env) (o : List String)
    (h : enterParamlist node env = .ok (env1, o)) :
    env1.symbolTableStack = env.symbolTableStack ∧ env1.procedureNumber = env.procedureNumber := by
  unfold enterParamlist at h
  simp only [bind, Except.bind, pure, Except.pure] at h
  repeat' split at h
  all_goals try cases h
  all_goals exact ⟨rfl, rfl⟩

theorem enterDcl_scope (node n : Tree) (env env1 : Env) (o : List String)
    (h : enterDcl node env = .ok (n, env1, o)) :
    env1.symbolTableStack.length = env.symbolTableStack.length
      ∧ env1.procedureNumber = env.procedureNumber := by
  unfold enterDcl at h
  simp only [bind, Except.bind, pure, Except.pure] at h
  repeat' split at h
  all_goals try cases h
  all_goals first
    | exact ⟨rfl, rfl⟩
    | exact ⟨length_setBack (by assumption) _, rfl⟩

theorem enterBaseCases_scope (node n : Tree) (env env1 : Env) (o : List String)
    (h : enterBaseCases node env = .ok (n, env1, o)) : env1 = env := by
  unfold enterBaseCases at h
  simp only [bind_eq_ok, pure, Except.pure] at h
  obtain ⟨⟨n1, s1, o1⟩, h1, ⟨⟨n2, s2, o2⟩, h2, h⟩⟩ := h
  have r1 : s1 = env.symbolTableStack := by
    split_ifs at h1
    · exact factorRecursionBaseCase_stack _ _ _ _ _ h1
    · cases h1; rfl
  have r2 : s2 = s1 := by
    split_ifs at h2
    · exact lvaluerRecursionBaseCase_stack _ _ _ _ _ h2
    · cases h2; rfl
  simp only [Except.ok.injEq, Prod.mk.injEq] at h
  rw [← h.2.1, r2, r1]

theorem enterNode_scope (node n : Tree) (env env1 : Env) (o : List String)
    (h : enterNode node env = .ok (n, env1, o)) :
    env1.symbolTableStack.length = (enterProcedures node env).symbolTableStack.length
      ∧ env1.procedureNumber = (enterProcedures node env).procedureNumber := by
  unfold enterNode at h
  simp only [bind_eq_ok, pure, Except.pure] at h
  obtain ⟨⟨e2, o2⟩, h2, ⟨⟨e3, o3⟩, h3, ⟨o4, _, ⟨⟨n5, e5, o5⟩, h5, ⟨⟨n6, o6⟩, h6,
    ⟨⟨n7, e7, o7⟩, h7, h⟩⟩⟩⟩⟩⟩ := h
  cases h
  have a2 := enterProcedure_scope _ _ _ _ h2
  have a3 := enterParamlist_scope _ _ _ _ h3
  have a5 := enterDcl_scope _ _ _ _ _ h5
  have a7 := enterBaseCases_scope _ _ _ _ _ h7
  subst a7
  exact ⟨by rw [a5.1, a3.1, a2.1], by rw [a5.2, a3.2, a2.2.1]⟩

theorem enterProcedures_inv (node : Tree) (env : Env) (h : ScopeInv env) :
    ScopeInv (enterProcedures node env)
      ∧ (node.rule = "procedures" →
          (enterProcedures node env).procedureNumber ≠ 0
          ∧ (enterProcedures node env).symbolTableStack = [⟨[]⟩]) := by
  unfold enterProcedures
  by_cases hr : node.rule = "procedures"
  · simp only [hr, if_true]
    have hs : (if env.procedureNumber ≠ 0 ∧ env.symbolTableStack ≠ [] then
        env.symbolTableStack.dropLast else env.symbolTableStack) ++ [SymbolTable.mk []]
        = [SymbolTable.mk []] := by
      rcases h with ⟨h0, h1⟩ | ⟨h0, h1⟩
      · have : env.symbolTableStack = [] := List.length_eq_zero.mp h1
        simp [h0, this]
      · obtain ⟨a, ha⟩ := List.length_eq_one.mp h1
        simp [h0, ha]
    refine ⟨Or.inr ⟨by simp, by simp only [hs]; rfl⟩, fun _ => ⟨by simp, hs⟩⟩
  · simp only [hr, if_false]
    exact ⟨h, fun c => absurd c (by simp)⟩

theorem ScopeInv.congr {env env1 : Env} (h : ScopeInv env)
    (hl : env1.symbolTableStack.length = env.symbolTableStack.length)
    (hn : env1.procedureNumber = env.procedureNumber) : ScopeInv env1 := by
  unfold ScopeInv at *
  rw [hl, hn]; exact h

theorem enterNode_inv (node n : Tree) (env env1 : Env) (o : List String) (hi : ScopeInv env)
    (h : enterNode node env = .ok (n, env1, o)) : ScopeInv env1 :=
  (enterProcedures_inv node env hi).1.congr (enterNode_scope _ _ _ _ _ h).1
    (enterNode_scope _ _ _ _ _ h).2

theorem traverseChildren_inv (rec : Tree → Env → Except Fault (Tree × Env × List String))
    (hrec : ∀ c env c1 env1 o, ScopeInv env → rec c env = .ok (c1, env1, o) → ScopeInv env1)
    (todo : Nat) : ∀ (i : Nat) (node n : Tree) (env env1 : Env) (o : List String),
      ScopeInv env → traverseChildren rec todo i node env = .ok (n, env1, o) → ScopeInv env1 := by
  induction todo with
  | zero =>
    intro i node n env env1 o hi h
    simp only [traverseChildren] at h
    cases h; exact hi
  | succ k ih =>
    intro i node n env env1 o hi h
    obtain ⟨c, c1, e1, o1, n2, o2, n3, e3, o3, h1, h2, h3, h4, h5⟩ :=
      traverseChildren_succ_ok _ _ _ _ _ _ h
    cases h5
    exact ih _ _ _ _ _ _ (hrec _ _ _ _ _ hi h2) h4

theorem treeTraversal_inv (fuel : Nat) : ∀ (node n : Tree) (env env1 : Env) (o : List String),
    ScopeInv env → treeTraversal fuel node env = .ok (n, env1, o) → ScopeInv env1 := by
  induction fuel with
  | zero => intro node n env env1 o _ h; simp [treeTraversal] at h
  | succ f ih =>
    intro node n env env1 o hi h
    obtain ⟨n1, e1, o1, n2, e2, o2, h1, h2, h3⟩ := treeTraversal_succ_ok _ _ _ _ h
    cases h3
    exact traverseChildren_inv _ (fun c env c1 env1 o hc hr => ih c c1 env env1 o hc hr) _ _ _ _ _ _ _
      (enterNode_inv _ _ _ _ _ hi h1) h2

theorem mem_subtreesList (m : Tree) (cs : List Tree) :
    m ∈ Tree.subtreesList cs ↔ ∃ c ∈ cs, m ∈ c.subtrees := by
  induction cs with
  | nil => simp [Tree.subtreesList]
  | cons c cs ih => simp [Tree.subtreesList, ih]

theorem mem_subtrees (m t : Tree) :
    m ∈ t.subtrees ↔ m = t ∨ ∃ c ∈ t.children, m ∈ c.subtrees := by
  cases t with
  | mk r cs ty l => simp [Tree.subtrees, mem_subtreesList]

theorem afterChild_statement_type (node n : Tree) (o : List String)
    (h : afterChild node = .ok (n, o)) (hr : node.rule = "statement" ∨ node.rule = "test") :
    n.type = "" := by
  cases node with
  | mk r cs ty lex =>
    simp only [Tree.rule_mk] at hr
    cases cs with
    | nil =>
      rcases hr with hr | hr <;> subst hr <;>
        simp [afterChild, afterBaseline, Tree.child, bind, Except.bind, pure, Except.pure] at h
    | cons a rest =>
      rcases hr with hr | hr
      · subst hr
        simp [afterChild, afterBaseline_mk, afterParen_skip, afterStar_skip, afterNew_skip,
          afterAmp_skip, afterExpr_skip, afterTerm_skip, afterCall_skip, afterTest_skip,
          bind, Except.bind, pure, Except.pure] at h
        split at h
        · cases h
        · cases h; rfl
      · subst hr
        simp [afterChild, afterBaseline_mk, afterParen_skip, afterStar_skip, afterNew_skip,
          afterAmp_skip, afterExpr_skip, afterTerm_skip, afterCall_skip, afterStatement_skip,
          bind, Except.bind, pure, Except.pure] at h
        split at h
        · cases h
        · cases h; rfl

theorem Retyped.children {a b : Tree} (h : Retyped a b) : b.children = a.children := by
  obtain ⟨t, rfl⟩ := h
  cases a; rfl

theorem Tree.children_setChild (t : Tree) (i : Nat) (c : Tree) :
    (t.setChild i c).children = t.children.set i c := by
  cases t; rfl

theorem traverseChildren_cleared (rec : Tree → Env → Except Fault (Tree × Env × List String))
    (hrec : ∀ c env c1 env1 o, rec c env = .ok (c1, env1, o) → StatementsCleared c1)
    (todo : Nat) : ∀ (i : Nat) (node n : Tree) (env env1 : Env) (o : List String),
      traverseChildren rec todo i node env = .ok (n, env1, o) →
      (∀ j c, j < i → node.children[j]? = some c → StatementsCleared c) →
      i + todo = node.children.length →
      n.children.length = node.children.length
      ∧ (∀ c ∈ n.children, StatementsCleared c)
      ∧ ((0 < todo ∨ ((node.rule = "statement" ∨ node.rule = "test") → node.type = "")) →
          (n.rule = "statement" ∨ n.rule = "test") → n.type = "") := by
  induction todo with
  | zero =>
    intro i node n env env1 o h hdone hlen
    simp only [traverseChildren] at h
    cases h
    refine ⟨rfl, ?_, ?_⟩
    · intro c hc
      obtain ⟨j, hj⟩ := List.mem_iff_getElem?.mp hc
      have hjl : j < node.children.length := by
        by_contra hcon
        rw [List.getElem?_eq_none (by omega)] at hj
        cases hj
      exact hdone j c (by omega) hj
    · intro h0 hr
      rcases h0 with h0 | h0
      · omega
      · exact h0 hr
  | succ k ih =>
    intro i node n env env1 o h hdone hlen
    obtain ⟨c, c1, e1, o1, n2, o2, n3, e3, o3, h1, h2, h3, h4, h5⟩ :=
      traverseChildren_succ_ok _ _ _ _ _ _ h
    cases h5
    have hret := afterChild_retyped _ _ _ h3
    have hch : n2.children = node.children.set i c1 := by
      rw [hret.children, Tree.children_setChild]
    have hrule : n2.rule = node.rule := by
      rw [hret.rule, Tree.rule_setChild]
    have hdone2 : ∀ j c, j < i + 1 → n2.children[j]? = some c → StatementsCleared c := by
      intro j c hj hc
      rw [hch, List.getElem?_set] at hc
      by_cases hij : i = j
      · subst hij
        have hil : i < node.children.length := by omega
        simp only [if_true, hil] at hc
        cases hc
        exact hrec _ _ _ _ _ h2
      · simp only [hij, if_false] at hc
        exact hdone j c (by omega) hc
    have hlen2 : i + 1 + k = n2.children.length := by
      rw [hch, List.length_set]; omega
    obtain ⟨r1, r2, r3⟩ := ih _ _ _ _ _ _ h4 hdone2 hlen2
    refine ⟨?_, r2, ?_⟩
    · rw [r1, hch, List.length_set]
    · intro _ hr
      refine r3 (Or.inr ?_) hr
      intro hr2
      exact afterChild_statement_type _ _ _ h3 (by rw [Tree.rule_setChild, ← hrule]; exact hr2)

theorem treeTraversal_cleared (fuel : Nat) : ∀ (node n : Tree) (env env1 : Env) (o : List String),
    treeTraversal fuel node env = .ok (n, env1, o) → StatementsCleared n := by
  induction fuel with
  | zero => intro node n env env1 o h; simp [treeTraversal] at h
  | succ f ih =>
    intro node n env env1 o h
    obtain ⟨n1, e1, o1, n2, e2, o2, h1, h2, h3⟩ := treeTraversal_succ_ok _ _ _ _ h
    cases h3
    obtain ⟨r1, r2, r3⟩ := traverseChildren_cleared _
      (fun c env c1 env1 o hc => ih c c1 env env1 o hc) _ _ _ _ _ _ _ h2
      (fun j c hj _ => absurd hj (by omega)) (by simp)
    intro m hm hr hne
    rcases (mem_subtrees m n).mp hm with hmeq | ⟨c, hc, hmc⟩
    · rw [hmeq] at hr hne ⊢
      refine r3 (Or.inl ?_) hr
      have : n.children.length ≠ 0 := fun e => hne (List.length_eq_zero.mp e)
      simp only [Tree.getChildrenSize_eq]
      omega
    · exact r2 c hc m hmc hr hne

theorem printTree_subtrees (t : Tree) :
    printTree t = t.subtrees.map (fun m => printHead m ++ printType m) := by
  refine Tree.rec
    (motive_1 := fun t => printTree t = t.subtrees.map (fun m => printHead m ++ printType m))
    (motive_2 := fun ts => printTreeList ts
      = (Tree.subtreesList ts).map (fun m => printHead m ++ printType m))
    ?_ ?_ ?_ t
  · intro r cs ty l ih
    simp only [printTree, Tree.subtrees, List.map_cons, ih]
  · rfl
  · intro c cs ih1 ih2
    simp only [printTreeList, Tree.subtreesList, List.map_append, ih1, ih2]

/-! ## Helper lemmas: the builder stops at its first diagnostic -/

theorem buildChildren_flag_set
    (rec : Tree → BuildState → Except Fault (Tree × BuildState × List String))
    (lines toks : List String) (parent : Tree) (s : BuildState)
    (h : s.hasErrorOccurred = true) :
    buildChildren rec lines toks parent s = .ok (parent, s, []) := by
  cases toks with
  | nil => rfl
  | cons tok rest => simp [buildChildren, h]

theorem buildChildren_eof
    (rec : Tree → BuildState → Except Fault (Tree × BuildState × List String))
    (lines : List String) (tok : String) (rest : List String) (parent : Tree) (s : BuildState)
    (h : s.hasErrorOccurred = false) (ht : tok ≠ ".EMPTY") (hl : lines.length ≤ s.idx + 1) :
    buildChildren rec lines (tok :: rest) parent s
      = .ok (parent, ⟨s.idx + 1, true⟩,
          [errorReport "Unexpected end of file" ((s.idx + 1 : Nat) : Int)]) := by
  simp [buildChildren, h, ht, hl]

theorem buildChildren_once
    (rec : Tree → BuildState → Except Fault (Tree × BuildState × List String))
    (lines : List String) (k : Nat)
    (hrec : ∀ p s, s.hasErrorOccurred = false → k ≤ s.idx → s.idx < lines.length →
      BuildOutcome lines s (rec p s))
    (toks : List String) : ∀ (parent : Tree) (s : BuildState), s.hasErrorOccurred = false →
      k ≤ s.idx + 1 → s.idx < lines.length →
      BuildOutcome lines s (buildChildren rec lines toks parent s) := by
  induction toks with
  | nil =>
    intro parent s hf _ hlt
    exact ⟨parent, s, [], rfl, le_refl _, Or.inl ⟨rfl, hf, hlt⟩⟩
  | cons tok rest ih =>
    intro parent s hf hk hlt
    by_cases ht : tok = ".EMPTY"
    · refine ⟨parent, s, [], ?_, le_refl _, Or.inl ⟨rfl, hf, hlt⟩⟩
      simp [buildChildren, hf, ht]
    · by_cases hl : lines.length ≤ s.idx + 1
      · rw [buildChildren_eof rec lines tok rest parent s hf ht hl]
        exact ⟨parent, ⟨s.idx + 1, true⟩, _, rfl, by simp, Or.inr ⟨rfl, Or.inl rfl⟩⟩
      · have hl2 : s.idx + 1 < lines.length := by omega
        obtain ⟨c, s2, o1, hc, hle, hcase⟩ :=
          hrec (Tree.new tok) { s with idx := s.idx + 1 } hf hk hl2
        have hstep : buildChildren rec lines (tok :: rest) parent s
            = (match buildChildren rec lines rest (parent.addChild c) s2 with
              | .error e => .error e
              | .ok (parent2, s3, out2) => .ok (parent2, s3, o1 ++ out2)) := by
          have hc2 := hc
          simp only [hf] at hc2
          simp [buildChildren, hf, ht, hl, hc2]
        simp only at hle
        rcases hcase with ⟨ho, hf2, hlt2⟩ | ⟨hf2, ho⟩
        · obtain ⟨t, s3, o2, hr, hle2, hcase2⟩ := ih (parent.addChild c) s2 hf2 (by omega) hlt2
          rw [hstep, hr, ho]
          exact ⟨t, s3, [] ++ o2, rfl, by omega, by simpa using hcase2⟩
        · rw [hstep, buildChildren_flag_set rec lines rest _ s2 hf2]
          exact ⟨_, s2, o1 ++ [], rfl, by omega, Or.inr ⟨hf2, by simpa using ho⟩⟩

theorem buildTree_once (lines : List String) (fuel : Nat) : ∀ (parent : Tree) (s : BuildState),
    s.hasErrorOccurred = false → s.idx < lines.length → lines.length ≤ fuel + s.idx →
    BuildOutcome lines s (buildTree fuel lines parent s) := by
  induction fuel with
  | zero => intro parent s _ h1 h2; omega
  | succ f ih =>
    intro parent s hf hlt hlen
    obtain ⟨line, hline⟩ : ∃ line, lines[s.idx]? = some line :=
      ⟨lines[s.idx], List.getElem?_eq_getElem hlt⟩
    simp only [buildTree, hline]
    split_ifs with hnt
    · exact buildChildren_once (buildTree f lines) lines (s.idx + 1)
        (fun p s2 hf2 hk hlt2 => ih p s2 hf2 hlt2 (by omega)) _ parent s hf (le_refl _) hlt
    · cases hw : (words line).tail with
      | nil =>
        exact ⟨parent, { s with hasErrorOccurred := true }, _, rfl, le_refl _,
          Or.inr ⟨rfl, Or.inr rfl⟩⟩
      | cons lexeme rest =>
        exact ⟨parent.setLexeme lexeme, s, [], rfl, le_refl _, Or.inl ⟨rfl, hf, hlt⟩⟩

theorem buildTree_flag_set_nonterminal (fuel : Nat) (lines : List String) (parent : Tree)
    (s : BuildState) (line : String) (h : s.hasErrorOccurred = true)
    (hline : lines[s.idx]? = some line)
    (hnt : isNonTerminal ((words line).headD "") = true) :
    buildTree (fuel + 1) lines parent s = .ok (parent, s, []) := by
  simp only [buildTree, hline, hnt, if_true]
  exact buildChildren_flag_set _ lines _ parent s h

/-! ## Helper lemmas: the accumulated parameter list only grows -/

theorem enterParamlist_params (node : Tree) (env env1 : Env) (o : List String)
    (h : enterParamlist node env = .ok (env1, o)) :
    env.parameterTypeList <+: env1.parameterTypeList := by
  unfold enterParamlist at h
  simp only [bind, Except.bind, pure, Except.pure] at h
  repeat' split at h
  all_goals try cases h
  all_goals first
    | exact List.prefix_refl _
    | exact List.prefix_append _ _

theorem enterDcl_params (node n : Tree) (env env1 : Env) (o : List String)
    (h : enterDcl node env = .ok (n, env1, o)) :
    env1.parameterTypeList = env.parameterTypeList := by
  unfold enterDcl at h
  simp only [bind, Except.bind, pure, Except.pure] at h
  repeat' split at h
  all_goals try cases h
  all_goals rfl

theorem enterProcedures_params (node : Tree) (env : Env) :
    (enterProcedures node env).parameterTypeList = env.parameterTypeList := by
  unfold enterProcedures
  split <;> rfl

theorem enterNode_params (node n : Tree) (env env1 : Env) (o : List String)
    (h : enterNode node env = .ok (n, env1, o)) :
    env.parameterTypeList <+: env1.parameterTypeList := by
  unfold enterNode at h
  simp only [bind_eq_ok, pure, Except.pure] at h
  obtain ⟨⟨e2, o2⟩, h2, ⟨⟨e3, o3⟩, h3, ⟨o4, _, ⟨⟨n5, e5, o5⟩, h5, ⟨⟨n6, o6⟩, h6,
    ⟨⟨n7, e7, o7⟩, h7, h⟩⟩⟩⟩⟩⟩ := h
  cases h
  have a2 := (enterProcedure_scope _ _ _ _ h2).2.2
  have a3 := enterParamlist_params _ _ _ _ h3
  have a5 := enterDcl_params _ _ _ _ _ h5
  have a7 := enterBaseCases_scope _ _ _ _ _ h7
  subst a7
  rw [a5]
  rw [a2, enterProcedures_params] at a3
  exact a3

theorem traverseChildren_params (rec : Tree → Env → Except Fault (Tree × Env × List String))
    (hrec : ∀ c env c1 env1 o, rec c env = .ok (c1, env1, o) →
      env.parameterTypeList <+: env1.parameterTypeList)
    (todo : Nat) : ∀ (i : Nat) (node n : Tree) (env env1 : Env) (o : List String),
      traverseChildren rec todo i node env = .ok (n, env1, o) →
      env.parameterTypeList <+: env1.parameterTypeList := by
  induction todo with
  | zero =>
    intro i node n env env1 o h
    simp only [traverseChildren] at h
    cases h; exact List.prefix_refl _
  | succ k ih =>
    intro i node n env env1 o h
    obtain ⟨c, c1, e1, o1, n2, o2, n3, e3, o3, h1, h2, h3, h4, h5⟩ :=
      traverseChildren_succ_ok _ _ _ _ _ _ h
    cases h5
    exact (hrec _ _ _ _ _ h2).trans (ih _ _ _ _ _ _ h4)

theorem treeTraversal_params (fuel : Nat) : ∀ (node n : Tree) (env env1 : Env) (o : List String),
    treeTraversal fuel node env = .ok (n, env1, o) →
    env.parameterTypeList <+: env1.parameterTypeList := by
  induction fuel with
  | zero => intro node n env env1 o h; simp [treeTraversal] at h
  | succ f ih =>
    intro node n env env1 o h
    obtain ⟨n1, e1, o1, n2, e2, o2, h1, h2, h3⟩ := treeTraversal_succ_ok _ _ _ _ h
    cases h3
    exact (enterNode_params _ _ _ _ _ h1).trans
      (traverseChildren_params _ (fun c env c1 env1 o hc => ih c c1 env env1 o hc)
        _ _ _ _ _ _ _ h2)

/-! ## Helper lemmas: the walk of a `println` statement, an assignment and a `test` -/

/-- The walk of a five-child `statement` node that begins with `PRINTLN`: the
rule runs after each child, on the type the third child has at that moment. -/
theorem println_traversal (fuel : Nat) (c0 c1 c2 c3 c4 d0 d1 d2 d3 d4 : Tree) (ty lex : String)
    (env env1 env2 env3 env4 env5 : Env) (o1 o2 o3 o4 o5 : List String)
    (hp : c0.rule = "PRINTLN")
    (h1 : treeTraversal fuel c0 env = .ok (d0, env1, o1))
    (h2 : treeTraversal fuel c1 env1 = .ok (d1, env2, o2))
    (h3 : treeTraversal fuel c2 env2 = .ok (d2, env3, o3))
    (h4 : treeTraversal fuel c3 env3 = .ok (d3, env4, o4))
    (h5 : treeTraversal fuel c4 env4 = .ok (d4, env5, o5)) :
    treeTraversal (fuel + 1) (Tree.mk "statement" [c0, c1, c2, c3, c4] ty lex) env
      = .ok (Tree.mk "statement" [d0, d1, d2, d3, d4] "" lex, env5,
          o1 ++ printlnDiag c2.type ++ o2 ++ printlnDiag c2.type
            ++ o3 ++ printlnDiag d2.type ++ o4 ++ printlnDiag d2.type
            ++ o5 ++ printlnDiag d2.type) := by
  have hd0 : d0.rule = "PRINTLN" := by rw [treeTraversal_rule _ _ _ _ _ _ h1]; exact hp
  have e0 : enterNode (Tree.mk "statement" [c0, c1, c2, c3, c4] ty lex) env
      = .ok (Tree.mk "statement" [c0, c1, c2, c3, c4] ty lex, env, []) :=
    enterNode_plain _ _ (by simp) (by simp) (by simp) (by simp) (by simp) (by simp)
      (Or.inl (by simp))
  simp [treeTraversal, e0, traverseChildren, Tree.child, h1, h2, h3, h4, h5, afterChild_println,
    hd0]

/-- The walk of a four-child `statement` node: the rule runs after each child,
on the types the first and third child have at that moment. -/
theorem assignment_traversal (fuel : Nat) (c0 c1 c2 c3 d0 d1 d2 d3 : Tree) (ty lex : String)
    (env env1 env2 env3 env4 : Env) (o1 o2 o3 o4 : List String)
    (h1 : treeTraversal fuel c0 env = .ok (d0, env1, o1))
    (h2 : treeTraversal fuel c1 env1 = .ok (d1, env2, o2))
    (h3 : treeTraversal fuel c2 env2 = .ok (d2, env3, o3))
    (h4 : treeTraversal fuel c3 env3 = .ok (d3, env4, o4)) :
    treeTraversal (fuel + 1) (Tree.mk "statement" [c0, c1, c2, c3] ty lex) env
      = .ok (Tree.mk "statement" [d0, d1, d2, d3] "" lex, env4,
          o1 ++ mismatchDiag "Type Mismatch" d0.type c2.type
            ++ o2 ++ mismatchDiag "Type Mismatch" d0.type c2.type
            ++ o3 ++ mismatchDiag "Type Mismatch" d0.type d2.type
            ++ o4 ++ mismatchDiag "Type Mismatch" d0.type d2.type) := by
  have e0 : enterNode (Tree.mk "statement" [c0, c1, c2, c3] ty lex) env
      = .ok (Tree.mk "statement" [c0, c1, c2, c3] ty lex, env, []) :=
    enterNode_plain _ _ (by simp) (by simp) (by simp) (by simp) (by simp) (by simp)
      (Or.inl (by simp))
  simp [treeTraversal, e0, traverseChildren, Tree.child, h1, h2, h3, h4, afterChild_assign]

/-- The walk of a three-child `test` node: the rule runs after each child, on the
types the first and third child have at that moment. -/
theorem test_traversal (fuel : Nat) (c0 c1 c2 d0 d1 d2 : Tree) (ty lex : String)
    (env env1 env2 env3 : Env) (o1 o2 o3 : List String)
    (h1 : treeTraversal fuel c0 env = .ok (d0, env1, o1))
    (h2 : treeTraversal fuel c1 env1 = .ok (d1, env2, o2))
    (h3 : treeTraversal fuel c2 env2 = .ok (d2, env3, o3)) :
    treeTraversal (fuel + 1) (Tree.mk "test" [c0, c1, c2] ty lex) env
      = .ok (Tree.mk "test" [d0, d1, d2] "" lex, env3,
          o1 ++ mismatchDiag "Type mismatch during comparision" d0.type c2.type
            ++ o2 ++ mismatchDiag "Type mismatch during comparision" d0.type c2.type
            ++ o3 ++ mismatchDiag "Type mismatch during comparision" d0.type d2.type) := by
  have e0 : enterNode (Tree.mk "test" [c0, c1, c2] ty lex) env
      = .ok (Tree.mk "test" [c0, c1, c2] ty lex, env, []) :=
    enterNode_plain _ _ (by simp) (by simp) (by simp) (by simp) (by simp) (by simp)
      (Or.inl (by simp))
  simp [treeTraversal, e0, traverseChildren, Tree.child, h1, h2, h3, afterChild_test]

theorem mismatchDiag_empty_right (msg l : String) : mismatchDiag msg l "" = [] := by
  simp [mismatchDiag]

theorem mismatchDiag_ne_nil (msg l r : String) :
    mismatchDiag msg l r ≠ [] ↔ (l ≠ "" ∧ r ≠ "" ∧ l ≠ r) := by
  unfold mismatchDiag
  split_ifs with h <;> simp [h]

theorem mismatchDiag_cases (msg l r : String) :
    mismatchDiag msg l r = [] ∨ mismatchDiag msg l r = ["ERROR: " ++ msg] := by
  unfold mismatchDiag
  split_ifs with h <;> simp

/-- A node that `buildTree` builds under a name other than `NUM` and `NULL` has
that name and no type, and `addChild` attaches it as it is. -/
theorem buildTree_attaches_untyped (fuel : Nat) (lines : List String) (r : String)
    (s s1 : BuildState) (t p : Tree) (o : List String)
    (h : buildTree fuel lines (Tree.new r) s = .ok (t, s1, o)) (hr1 : r ≠ "NUM")
    (hr2 : r ≠ "NULL") :
    t.rule = r ∧ t.type = "" ∧ (p.addChild t).children = p.children ++ [t] := by
  have hb := buildTree_rule_type _ _ _ _ _ _ _ h
  have hrule : t.rule = r := by rw [hb.1]; rfl
  have htype : t.type = "" := by rw [hb.2]; rfl
  refine ⟨hrule, htype, ?_⟩
  cases p
  simp [Tree.addChild, Tree.setChildren, Tree.getRule, hrule, hr1, hr2]

/-! ## Helper lemmas: the states along the walk -/

theorem lastState_nil (env : Env) : lastState [] env = env := rfl

/-- Counterexample to C1 as stated. The derivation tree `start -> "A B"` with
lexeme `x` meets the conditions of the claim (the terminal rule `A B` has a
character that is not lowercase and is not `.EMPTY`, the lexeme is a word), but
its rule holds a space: the builder reads `A` as the rule and `B` as the lexeme,
runs out of lines looking for a second child, and the printed lines differ from
the input. -/
theorem roundtrip_fails_on_spaced_rule :
    (Deriv.node "start" [Deriv.leaf "A B" "x"]).serialize = ["start A B", "A B x"]
    ∧ isNonTerminal "A B" = false ∧ "A B" ≠ ".EMPTY" ∧ isWord "x" = true
    ∧ buildTree 2 ["start A B", "A B x"] (Tree.new "start") ⟨0, false⟩
      = .ok (Tree.mk "start" [Tree.mk "A" [] "" "B"] "" "", ⟨2, true⟩,
          ["ERROR: Unexpected end of file Index: 2"])
    ∧ printTree (Tree.mk "start" [Tree.mk "A" [] "" "B"] "" "") = ["start A", "A B"] := by
  decide!

/-- C1, as amended: terminal rules are words too. For every well-formed
derivation tree with root rule `start` (`Deriv.wellFormed`), `buildTree` run from
cursor 0 with the flag clear on its serialization, with one unit of fuel per
line, completes without a diagnostic, with the flag still clear and the cursor
on the last line; and whatever types the nodes of the tree it built then carry,
in particular after any completed `treeTraversal`, `printTree` writes the input
lines, in order, each followed by nothing or by a type suffix. -/
theorem roundtrip (d : Deriv) (hroot : d.rule = "start") (hwf : d.wellFormed = true) :
    ∃ t, buildTree d.serialize.length d.serialize (Tree.new "start") ⟨0, false⟩
        = .ok (t, ⟨d.serialize.length - 1, false⟩, [])
      ∧ (∀ t2 : Tree, t2.eraseTypes = t.eraseTypes →
          List.Forall₂ IsAnnotated (printTree t2) d.serialize)
      ∧ (∀ (fuel : Nat) (env env2 : Env) (t2 : Tree) (o : List String),
          treeTraversal fuel t env = .ok (t2, env2, o) →
          List.Forall₂ IsAnnotated (printTree t2) d.serialize) := by
  have hp : ∀ t2 : Tree, t2.eraseTypes = d.build.eraseTypes →
      List.Forall₂ IsAnnotated (printTree t2) d.serialize := by
    intro t2 h2
    have h := printTree_annotated t2
    rw [← printHeads_eraseTypes t2, h2, printHeads_eraseTypes, printHeads_build d hwf] at h
    exact h
  refine ⟨d.build, ?_, hp, ?_⟩
  · have h := buildTree_serialize_aux d hwf d.serialize.length (Deriv.height_le_serialize d) [] []
    simpa [hroot] using h
  · intro fuel env env2 t2 o h
    exact hp t2 (treeTraversal_shape fuel _ _ _ _ _ h)

/-- Witness of C1: the derivation of `start BOF EOF` with two terminals. -/
theorem roundtrip_witness :
    ∃ t, buildTree 3 ["start BOF EOF", "BOF BOF", "EOF EOF"] (Tree.new "start") ⟨0, false⟩
        = .ok (t, ⟨2, false⟩, [])
      ∧ (∀ t2 : Tree, t2.eraseTypes = t.eraseTypes →
          List.Forall₂ IsAnnotated (printTree t2) ["start BOF EOF", "BOF BOF", "EOF EOF"])
      ∧ (∀ (fuel : Nat) (env env2 : Env) (t2 : Tree) (o : List String),
          treeTraversal fuel t env = .ok (t2, env2, o) →
          List.Forall₂ IsAnnotated (printTree t2) ["start BOF EOF", "BOF BOF", "EOF EOF"]) :=
  roundtrip (Deriv.node "start" [Deriv.leaf "BOF" "BOF", Deriv.leaf "EOF" "EOF"]) rfl
    (by decide)

/-! ## C2 -/

/-- C2: the code at two failing inputs. The first five lines of a valid
derivation (input cut off inside `main`) are built, with one "Unexpected end of
file" report, into a tree whose `main` node has a single child; `treeTraversal`
then reads `children[5]` of that node, outside the vector. A complete input
without a `procedures` node reaches the `dcl` rule with an empty scope stack,
on which `back()` is called. In both cases the traversal leaves defined
behaviour instead of running to completion. -/
theorem traversal_faults_on_partial_tree :
    buildTree 5 (wainSecondPointer.take 5) (Tree.new "start") ⟨0, false⟩
      = .ok (Tree.mk "start"
          [Tree.mk "BOF" [] "" "BOF",
           Tree.mk "procedures" [Tree.mk "main" [Tree.mk "INT" [] "" "int"] "" ""] "" ""] "" "",
          ⟨5, true⟩, ["ERROR: Unexpected end of file Index: 5"])
    ∧ treeTraversal 4
        (Tree.mk "start"
          [Tree.mk "BOF" [] "" "BOF",
           Tree.mk "procedures" [Tree.mk "main" [Tree.mk "INT" [] "" "int"] "" ""] "" ""] "" "")
        Env.init = .error .outOfBounds
    ∧ main (wainSecondPointer.take 5) = .error .outOfBounds
    ∧ buildTree 5 ["start dcl", "dcl type ID", "type INT", "INT int", "ID x"] (Tree.new "start")
        ⟨0, false⟩
      = .ok (Tree.mk "start"
          [Tree.mk "dcl" [Tree.mk "type" [Tree.mk "INT" [] "" "int"] "" "", Tree.mk "ID" [] "" "x"]
            "" ""] "" "", ⟨4, false⟩, [])
    ∧ treeTraversal 4
        (Tree.mk "start"
          [Tree.mk "dcl" [Tree.mk "type" [Tree.mk "INT" [] "" "int"] "" "", Tree.mk "ID" [] "" "x"]
            "" ""] "" "")
        Env.init = .error .emptyStack := by
  decide!

/-! ## C3 -/

/-- C3: the code at the failing input. A registry holding `f` with parameter
types `[int]` receives `addProcedure("f", [])`: the error is reported and the
entry is overwritten, so the name maps to the list of the second registration.
More generally, after `addProcedure(name, argTypes)` the name always maps to
`argTypes`. -/
theorem addProcedure_overwrites :
    ProcedureTable.addProcedure ⟨[("f", ["int"])]⟩ "f" []
      = (⟨[("f", [])]⟩, ["ERROR: Procedure already exists!"])
    ∧ ∀ (p : ProcedureTable) (name : String) (argTypes : List String),
        (p.addProcedure name argTypes).1.table.lookup name = some argTypes := by
  refine ⟨by decide, ?_⟩
  intro p name argTypes
  obtain ⟨l⟩ := p
  simp only [ProcedureTable.addProcedure]
  induction l with
  | nil => simp [mapAssign, List.lookup]
  | cons q rest ih =>
    obtain ⟨k, w⟩ := q
    by_cases hk : k = name
    · simp [mapAssign, hk, List.lookup]
    · have hk2 : (name == k) = false := by
        simpa using fun h => hk h.symm
      simp only [mapAssign, hk, if_false, List.lookup_cons, hk2]
      exact ih

/-! ## C4 -/

/-- C4: re-declaring a name the scope already binds writes exactly one
"already declared" line and returns the scope unchanged, so the name keeps the
type of its first declaration. -/
theorem declareVariable_redeclared (s : SymbolTable) (name type t0 : String)
    (h : s.find name = some t0) :
    s.declareVariable name type
      = (s, ["ERROR: Variable " ++ name ++ " is already declared"])
    ∧ (s.declareVariable name type).1.find name = some t0 := by
  have e : s.declareVariable name type
      = (s, ["ERROR: Variable " ++ name ++ " is already declared"]) := by
    simp [SymbolTable.declareVariable, h, errorReport_variable]
  exact ⟨e, by rw [e]; exact h⟩

/-- Witness of C4: `declareVariable_redeclared` at a concrete input. -/
theorem declareVariable_redeclared_witness :
    (SymbolTable.mk [("x", "int")]).declareVariable "x" "int*"
      = (SymbolTable.mk [("x", "int")], ["ERROR: Variable x is already declared"])
    ∧ ((SymbolTable.mk [("x", "int")]).declareVariable "x" "int*").1.find "x" = some "int" :=
  declareVariable_redeclared (SymbolTable.mk [("x", "int")]) "x" "int*" "int" (by decide)

/-! ## C5 -/

/-- Counterexample to C5 as stated. The lines below are built by `buildTree` into
an `expr` node `<expr, MINUS, NULL>` whose right operand is typed `int*` when it
is attached and `int` once traversed (it has a `factor NUM` below it); the same
happens on a `term` operand that carries the type `int*` before the traversal.
Both operands have type `int` after their traversal and their traversals write
nothing, yet the rule of the node writes its diagnostic twice. -/
theorem expr_minus_reports_on_int_operands :
    buildTree 9
        ["expr expr MINUS NULL", "expr term", "term factor", "factor NUM", "NUM 1", "MINUS -",
         "term factor", "factor NUM", "NUM 3"]
        (Tree.new "expr") ⟨0, false⟩
      = .ok (Tree.mk "expr"
          [Tree.mk "expr" [Tree.mk "term" [Tree.mk "factor" [Tree.mk "NUM" [] "int" "1"] "" ""] "" ""]
            "" "",
           Tree.mk "MINUS" [] "" "-",
           Tree.mk "NULL" [Tree.mk "factor" [Tree.mk "NUM" [] "int" "3"] "" ""] "int*" ""]
          "" "", ⟨8, false⟩, [])
    ∧ (treeTraversal 4
        (Tree.mk "expr" [Tree.mk "term" [Tree.mk "factor" [Tree.mk "NUM" [] "int" "1"] "" ""] "" ""]
          "" "") Env.init).map (fun r => (r.1.type, r.2.2)) = .ok ("int", [])
    ∧ (treeTraversal 4 (Tree.mk "MINUS" [] "" "-") Env.init).map (fun r => r.2.2) = .ok []
    ∧ (treeTraversal 4
        (Tree.mk "NULL" [Tree.mk "factor" [Tree.mk "NUM" [] "int" "3"] "" ""] "int*" "")
        Env.init).map (fun r => (r.1.type, r.2.2)) = .ok ("int", [])
    ∧ (treeTraversal 5
        (Tree.mk "expr"
          [Tree.mk "expr" [Tree.mk "term" [Tree.mk "factor" [Tree.mk "NUM" [] "int" "1"] "" ""] "" ""]
            "" "",
           Tree.mk "MINUS" [] "" "-",
           Tree.mk "NULL" [Tree.mk "factor" [Tree.mk "NUM" [] "int" "3"] "" ""] "int*" ""]
          "" "") Env.init).map (fun r => (r.1.type, r.2.2))
        = .ok ("int", ["ERROR: In rule [expr expr MINUS term]: cannot subtract int minus int*",
            "ERROR: In rule [expr expr MINUS term]: cannot subtract int minus int*"])
    ∧ (treeTraversal 4 (Tree.mk "term" [Tree.mk "factor" [Tree.mk "NUM" [] "int" "3"] "" ""] "int*" "")
        Env.init).map (fun r => (r.1.type, r.2.2)) = .ok ("int", [])
    ∧ (treeTraversal 5
        (Tree.mk "expr"
          [Tree.mk "expr" [Tree.mk "term" [Tree.mk "factor" [Tree.mk "NUM" [] "int" "1"] "" ""] "" ""]
            "" "",
           Tree.mk "MINUS" [] "" "-",
           Tree.mk "term" [Tree.mk "factor" [Tree.mk "NUM" [] "int" "3"] "" ""] "int*" ""]
          "" "") Env.init).map (fun r => (r.1.type, r.2.2))
        = .ok ("int", ["ERROR: In rule [expr expr MINUS term]: cannot subtract int minus int*",
            "ERROR: In rule [expr expr MINUS term]: cannot subtract int minus int*"]) := by
  decide!

/-- C5, as amended. A three-child `expr` node `<left, PLUS or MINUS, right>` is
traversed to completion whenever its three children are; it is left with the
type `exprType` (`int + int = int`, `int* + int = int + int* = int* + int* = int*`,
`int - int = int`, `int* - int = int* - int* = int*`, and `int` for `int - int*`).
Its own rule runs after each child: with `l` the type of the left operand after
its traversal, it writes "cannot subtract int minus int*" after the first and
second child when the operator is `MINUS`, `l` is `int` and the right operand
is typed `int*` before its traversal, and after the third child when the right
operand is typed `int*` after its traversal; it writes nothing else. -/
theorem expr_additive (fuel : Nat) (left op right left1 op1 right1 : Tree) (ty lex : String)
    (env env1 env2 env3 : Env) (o1 o2 o3 : List String)
    (hop : op.rule = "PLUS" ∨ op.rule = "MINUS")
    (h1 : treeTraversal fuel left env = .ok (left1, env1, o1))
    (h2 : treeTraversal fuel op env1 = .ok (op1, env2, o2))
    (h3 : treeTraversal fuel right env2 = .ok (right1, env3, o3)) :
    treeTraversal (fuel + 1) (Tree.mk "expr" [left, op, right] ty lex) env
      = .ok (Tree.mk "expr" [left1, op1, right1] (exprType op.rule left1.type right1.type) lex,
          env3,
          o1 ++ exprDiag op.rule left1.type right.type
            ++ o2 ++ exprDiag op.rule left1.type right.type
            ++ o3 ++ exprDiag op.rule left1.type right1.type)
    ∧ (exprType "PLUS" "int" "int" = "int" ∧ exprType "PLUS" "int*" "int" = "int*"
        ∧ exprType "PLUS" "int" "int*" = "int*" ∧ exprType "PLUS" "int*" "int*" = "int*"
        ∧ exprType "MINUS" "int" "int" = "int" ∧ exprType "MINUS" "int*" "int" = "int*"
        ∧ exprType "MINUS" "int*" "int*" = "int*" ∧ exprType "MINUS" "int" "int*" = "int")
    ∧ (∀ o l r, exprDiag o l r ≠ [] ↔ (o = "MINUS" ∧ l = "int" ∧ r = "int*")) := by
  refine ⟨?_, by decide, ?_⟩
  · have hop1 : op1.rule = op.rule := treeTraversal_rule _ _ _ _ _ _ h2
    have hop' : op1.rule = "PLUS" ∨ op1.rule = "MINUS" := by rw [hop1]; exact hop
    have e0 : enterNode (Tree.mk "expr" [left, op, right] ty lex) env
        = .ok (Tree.mk "expr" [left, op, right] ty lex, env, []) :=
      enterNode_plain _ _ (by simp) (by simp) (by simp) (by simp) (by simp) (by simp)
        (Or.inl (by simp))
    simp [treeTraversal, e0, traverseChildren, Tree.child, h1, h2, h3, afterChild_expr, hop,
      hop', hop1]
  · intro o l r
    unfold exprDiag
    split_ifs with h <;> simp [h]

/-- Witness of C5: `1 - NULL` on a freshly built tree, `int - int*`, reported once. -/
theorem expr_additive_witness :
    treeTraversal 5
        (Tree.mk "expr"
          [Tree.mk "expr" [Tree.mk "term" [Tree.mk "factor" [Tree.mk "NUM" [] "int" "1"] "" ""] "" ""]
            "" "",
           Tree.mk "MINUS" [] "" "-",
           Tree.mk "term" [Tree.mk "factor" [Tree.mk "NULL" [] "int*" "NULL"] "" ""] "" ""]
          "" "")
        Env.init
      = .ok (Tree.mk "expr"
          [Tree.mk "expr"
            [Tree.mk "term" [Tree.mk "factor" [Tree.mk "NUM" [] "int" "1"] "int" ""] "int" ""]
            "int" "",
           Tree.mk "MINUS" [] "" "-",
           Tree.mk "term" [Tree.mk "factor" [Tree.mk "NULL" [] "int*" "NULL"] "int*" ""] "int*" ""]
          "int" "",
          Env.init,
          ["ERROR: In rule [expr expr MINUS term]: cannot subtract int minus int*"]) :=
  (expr_additive 4
    (Tree.mk "expr" [Tree.mk "term" [Tree.mk "factor" [Tree.mk "NUM" [] "int" "1"] "" ""] "" ""]
      "" "")
    (Tree.mk "MINUS" [] "" "-")
    (Tree.mk "term" [Tree.mk "factor" [Tree.mk "NULL" [] "int*" "NULL"] "" ""] "" "")
    (Tree.mk "expr"
      [Tree.mk "term" [Tree.mk "factor" [Tree.mk "NUM" [] "int" "1"] "int" ""] "int" ""] "int" "")
    (Tree.mk "MINUS" [] "" "-")
    (Tree.mk "term" [Tree.mk "factor" [Tree.mk "NULL" [] "int*" "NULL"] "int*" ""] "int*" "")
    "" "" Env.init Env.init Env.init Env.init [] [] []
    (Or.inr (by decide)) (by decide!) (by decide!) (by decide!)).1

/-! ## C6 -/

/-- C6: on a `main` node whose child 5 exists and has a first child `ty` (the type
clause of the second parameter), the rule of `main` writes "The second parameter
of wain is not int type" exactly when `ty` does not have exactly one child, once,
before the children are walked, and changes neither the node nor the variables;
nothing but `ty` enters the test. The rules run after each child write nothing
on a `main` node, so every other line comes from the traversal of a child. In
particular the whole program on `wainSecondPointer` writes exactly this one
line to `cerr`. -/
theorem main_second_parameter (fuel : Nat) (node c5 ty : Tree) (env : Env)
    (hr : node.rule = "main") (h5 : node.children[5]? = some c5)
    (h0 : c5.children[0]? = some ty) :
    enterNode node env
      = .ok (node, env,
          if ty.children.length = 1 then []
          else ["ERROR: The second parameter of wain is not int type"])
    ∧ treeTraversal (fuel + 1) node env
      = (match traverseChildren (treeTraversal fuel) node.getChildrenSize 0 node env with
        | .error e => .error e
        | .ok (n, e, o) =>
          .ok (n, e,
            (if ty.children.length = 1 then []
              else ["ERROR: The second parameter of wain is not int type"]) ++ o))
    ∧ (∀ (a : Tree) (cs : List Tree) (t l : String),
        afterChild (Tree.mk "main" (a :: cs) t l) = .ok (Tree.mk "main" (a :: cs) a.type l, []))
    ∧ (main wainSecondPointer).map Output.cerr
        = .ok ["ERROR: The second parameter of wain is not int type"] := by
  refine ⟨enterNode_main node c5 ty env hr h5 h0, ?_, afterChild_main, by decide!⟩
  simp only [treeTraversal, enterNode_main node c5 ty env hr h5 h0]

/-- Witness of C6: a `main` node cut after its second parameter `int* b`, walked
with one open scope. -/
theorem main_second_parameter_witness :
    treeTraversal 4
        (Tree.mk "main"
          [Tree.mk "INT" [] "" "int", Tree.mk "WAIN" [] "" "wain", Tree.mk "LPAREN" [] "" "(",
           Tree.mk "dcl" [Tree.mk "type" [Tree.mk "INT" [] "" "int"] "" "", Tree.mk "ID" [] "" "a"]
             "" "",
           Tree.mk "COMMA" [] "" ",",
           Tree.mk "dcl"
             [Tree.mk "type" [Tree.mk "INT" [] "" "int", Tree.mk "STAR" [] "" "*"] "" "",
              Tree.mk "ID" [] "" "b"] "" ""] "" "")
        ⟨[⟨[]⟩], ⟨[]⟩, "", [], 0⟩
      = .ok (Tree.mk "main"
          [Tree.mk "INT" [] "" "int", Tree.mk "WAIN" [] "" "wain", Tree.mk "LPAREN" [] "" "(",
           Tree.mk "dcl"
             [Tree.mk "type" [Tree.mk "INT" [] "" "int"] "" "", Tree.mk "ID" [] "int" "a"] "" "",
           Tree.mk "COMMA" [] "" ",",
           Tree.mk "dcl"
             [Tree.mk "type" [Tree.mk "INT" [] "" "int", Tree.mk "STAR" [] "" "*"] "" "",
              Tree.mk "ID" [] "int*" "b"] "" ""] "" "",
          ⟨[⟨[("a", "int"), ("b", "int*")]⟩], ⟨[]⟩, "", [], 0⟩,
          ["ERROR: The second parameter of wain is not int type"]) :=
  ((main_second_parameter 3
    (Tree.mk "main"
      [Tree.mk "INT" [] "" "int", Tree.mk "WAIN" [] "" "wain", Tree.mk "LPAREN" [] "" "(",
       Tree.mk "dcl" [Tree.mk "type" [Tree.mk "INT" [] "" "int"] "" "", Tree.mk "ID" [] "" "a"]
         "" "",
       Tree.mk "COMMA" [] "" ",",
       Tree.mk "dcl"
         [Tree.mk "type" [Tree.mk "INT" [] "" "int", Tree.mk "STAR" [] "" "*"] "" "",
          Tree.mk "ID" [] "" "b"] "" ""] "" "")
    (Tree.mk "dcl"
      [Tree.mk "type" [Tree.mk "INT" [] "" "int", Tree.mk "STAR" [] "" "*"] "" "",
       Tree.mk "ID" [] "" "b"] "" "")
    (Tree.mk "type" [Tree.mk "INT" [] "" "int", Tree.mk "STAR" [] "" "*"] "" "")
    ⟨[⟨[]⟩], ⟨[]⟩, "", [], 0⟩ rfl rfl rfl).2.1).trans (by decide!)

/-! ## C7 -/

/-- Counterexample to C7 as stated. On the one-line input `FOO` the program
reports "invalid first expression" and goes on: the builder adds a second
diagnostic, the root is traversed and a one-line tree is printed. On the input
`foo` followed by a second line it prints the root as well. -/
theorem main_goes_on_after_invalid_first_line :
    main ["FOO"]
      = .ok ⟨["FOO "], ["ERROR: invalid first expression ",
          "ERROR: Missing lexeme for terminal symbol Index: 0"]⟩
    ∧ main ["foo bar", "bar"] = .ok ⟨["foo .EMPTY"], ["ERROR: invalid first expression "]⟩ := by
  decide!

/-- C7, as amended. For every non-empty input whose first word is not `start`,
the program first writes "invalid first expression"; the flag this sets keeps
`buildTree` from reading any further line (the cursor stays at 0) and from
creating any child, its only possible diagnostic being "Missing lexeme" for a
first line made of one word that is not all lowercase. The run does not stop:
unless the first word is `procedure`, `paramlist`, `main` or `dcl`, the root is
traversed without further diagnostics and printed as a single line. -/
theorem main_invalid_first (line0 : String) (rest : List String)
    (h : (words line0).headD "" ≠ "start") :
    ∃ root o2,
      buildTree (line0 :: rest).length (line0 :: rest) (Tree.new ((words line0).headD ""))
          ⟨0, true⟩ = .ok (root, ⟨0, true⟩, o2)
      ∧ root.rule = (words line0).headD "" ∧ root.children = [] ∧ root.type = ""
      ∧ (o2 = [] ∨ (o2 = ["ERROR: Missing lexeme for terminal symbol Index: 0"]
            ∧ (words line0).length = 1 ∧ isNonTerminal ((words line0).headD "") = false))
      ∧ ((words line0).headD "" ∉ ["procedure", "paramlist", "main", "dcl"] →
          main (line0 :: rest)
            = .ok ⟨[printHead root], "ERROR: invalid first expression " :: o2⟩) := by
  have hmain : ∀ (r l : String) (o2 : List String),
      buildTree (rest.length + 1) (line0 :: rest) (Tree.new ((words line0).headD ""))
          ⟨0, true⟩ = .ok (Tree.mk r [] "" l, ⟨0, true⟩, o2) →
      r = (words line0).headD "" →
      (words line0).headD "" ∉ ["procedure", "paramlist", "main", "dcl"] →
      main (line0 :: rest)
        = .ok ⟨[printHead (Tree.mk r [] "" l)], "ERROR: invalid first expression " :: o2⟩ := by
    intro r l o2 hb hr hn
    simp only [List.mem_cons, List.mem_singleton, List.not_mem_nil, or_false, not_or] at hn
    have e1 : errorReport "invalid first expression " (-1) = "ERROR: invalid first expression " := by
      decide
    have hen := enterNode_childless r "" l Env.init (hr ▸ hn.1) (hr ▸ hn.2.1) (hr ▸ hn.2.2.1)
      (hr ▸ hn.2.2.2)
    have h0 : ((line0 :: rest).length = 0) = False := by simp
    have hl : (line0 :: rest).length = rest.length + 1 := rfl
    have h1 : (line0 :: rest)[0]? = some line0 := by simp
    have hh : Tree.height (Tree.mk r [] "" l) = 1 := rfl
    have hp : printTree (Tree.mk r [] "" l) = [printHead (Tree.mk r [] "" l)] := by
      simp [printTree, printTreeList, printType]
    simp only [main, h0, h1, hl, if_false, h, ne_eq, not_false_eq_true, if_true, List.nil_append,
      e1, List.singleton_append, reduceCtorEq, hb, hh, treeTraversal, hen,
      Tree.getChildrenSize_eq, Tree.children_mk, List.length_nil, traverseChildren, hp,
      List.append_nil]
  have e2 : errorReport "Missing lexeme for terminal symbol" ((0 : Nat) : Int)
      = "ERROR: Missing lexeme for terminal symbol Index: 0" := by decide
  have hl : (line0 :: rest).length = rest.length + 1 := rfl
  have h1 : (line0 :: rest)[0]? = some line0 := by simp
  rw [hl]
  cases hw : words line0 with
  | nil =>
    rw [hw] at hmain
    have hb : buildTree (rest.length + 1) (line0 :: rest) (Tree.new (([] : List String).headD ""))
        ⟨0, true⟩ = .ok (Tree.mk "" [] "" "", ⟨0, true⟩, []) := by
      simp only [buildTree, h1, hw, List.headD_nil, List.tail_nil, buildChildren]
      rfl
    exact ⟨_, [], hb, rfl, rfl, rfl, Or.inl rfl, hmain _ _ _ hb rfl⟩
  | cons w ws =>
    rw [hw] at hmain
    by_cases hnt : isNonTerminal w = true
    · have hb : buildTree (rest.length + 1) (line0 :: rest) (Tree.new ((w :: ws).headD ""))
          ⟨0, true⟩ = .ok (Tree.mk w [] "" "", ⟨0, true⟩, []) := by
        cases ws <;>
          simp only [buildTree, h1, hw, List.headD_cons, hnt, if_true, List.tail_cons,
            buildChildren] <;> rfl
      exact ⟨_, [], hb, rfl, rfl, rfl, Or.inl rfl, hmain _ _ _ hb rfl⟩
    · cases ws with
      | nil =>
        have hb : buildTree (rest.length + 1) (line0 :: rest) (Tree.new ([w].headD ""))
            ⟨0, true⟩
            = .ok (Tree.mk w [] "" "", ⟨0, true⟩,
                ["ERROR: Missing lexeme for terminal symbol Index: 0"]) := by
          simp only [buildTree, h1, hw, List.headD_cons, hnt, List.tail_cons, e2]
          rfl
        exact ⟨_, _, hb, rfl, rfl, rfl,
          Or.inr ⟨rfl, rfl, by simpa using hnt⟩, hmain _ _ _ hb rfl⟩
      | cons lexeme ws2 =>
        have hb : buildTree (rest.length + 1) (line0 :: rest)
            (Tree.new ((w :: lexeme :: ws2).headD "")) ⟨0, true⟩
            = .ok (Tree.mk w [] "" lexeme, ⟨0, true⟩, []) := by
          simp only [buildTree, h1, hw, List.headD_cons, hnt, List.tail_cons]
          rfl
        exact ⟨_, [], hb, rfl, rfl, rfl, Or.inl rfl, hmain _ _ _ hb rfl⟩

/-- Witness of C7: the two-line input `foo bar`, `bar`. -/
theorem main_invalid_first_witness :
    ∃ root o2,
      buildTree 2 ["foo bar", "bar"] (Tree.new "foo") ⟨0, true⟩ = .ok (root, ⟨0, true⟩, o2)
      ∧ root.rule = "foo" ∧ root.children = [] ∧ root.type = ""
      ∧ (o2 = [] ∨ (o2 = ["ERROR: Missing lexeme for terminal symbol Index: 0"]
            ∧ (words "foo bar").length = 1 ∧ isNonTerminal "foo" = false))
      ∧ ("foo" ∉ ["procedure", "paramlist", "main", "dcl"] →
          main ["foo bar", "bar"]
            = .ok ⟨[printHead root], "ERROR: invalid first expression " :: o2⟩) :=
  main_invalid_first "foo bar" ["bar"] (by decide)

/-! ## C8 -/

/-- Counterexample to C8 as stated. The lines below are built by `buildTree` into
a `factor` node `<STAR, NUM>` whose operand is typed `int` when it is attached and
`int*` once traversed (it has a `NULL` below it); the same happens on a `factor`
operand that carries the type `int` before the traversal. The operand has type
`int*` after its traversal and the traversals of both children write nothing,
yet the rule of the node writes its diagnostic. -/
theorem deref_reports_on_pointer_operand :
    buildTree 4 ["factor STAR NUM", "STAR *", "factor NULL", "NULL NULL"] (Tree.new "factor")
        ⟨0, false⟩
      = .ok (Tree.mk "factor"
          [Tree.mk "STAR" [] "" "*", Tree.mk "NUM" [Tree.mk "NULL" [] "int*" "NULL"] "int" ""]
          "" "", ⟨3, false⟩, [])
    ∧ (treeTraversal 2 (Tree.mk "STAR" [] "" "*") Env.init).map (fun r => r.2.2) = .ok []
    ∧ (treeTraversal 2 (Tree.mk "NUM" [Tree.mk "NULL" [] "int*" "NULL"] "int" "")
        Env.init).map (fun r => (r.1.type, r.2.2)) = .ok ("int*", [])
    ∧ (treeTraversal 3
        (Tree.mk "factor"
          [Tree.mk "STAR" [] "" "*", Tree.mk "NUM" [Tree.mk "NULL" [] "int*" "NULL"] "int" ""]
          "" "") Env.init).map (fun r => (r.1.type, r.2.2))
        = .ok ("int", ["ERROR: In rule [factor STAR factor]: Expected child of type int*"])
    ∧ (treeTraversal 2 (Tree.mk "factor" [Tree.mk "NULL" [] "int*" "NULL"] "int" "")
        Env.init).map (fun r => (r.1.type, r.2.2)) = .ok ("int*", [])
    ∧ (treeTraversal 3
        (Tree.mk "factor"
          [Tree.mk "STAR" [] "" "*", Tree.mk "factor" [Tree.mk "NULL" [] "int*" "NULL"] "int" ""]
          "" "") Env.init).map (fun r => (r.1.type, r.2.2))
        = .ok ("int", ["ERROR: In rule [factor STAR factor]: Expected child of type int*"]) := by
  decide!

/-- C8, as amended. A two-child `factor` or `lvalue` node `<STAR, operand>` is
traversed to completion whenever its two children are, and when the operand has
a type after its traversal the node gets type `int`. Its own rule runs after
each child: it writes "Expected child of type int*" after the `STAR` child when
the operand is typed, and not `int*`, before its traversal, and after the
operand when the operand is not typed `int*` after its traversal. So an operand
of type `int*` draws no diagnostic unless it carried another type beforehand,
and an operand of type `int` draws the diagnostic. -/
theorem deref_star (fuel : Nat) (rule : String) (star operand star1 operand1 : Tree)
    (ty lex : String) (env env1 env2 : Env) (o1 o2 : List String)
    (hrule : rule = "factor" ∨ rule = "lvalue") (hstar : star.rule = "STAR")
    (h1 : treeTraversal fuel star env = .ok (star1, env1, o1))
    (h2 : treeTraversal fuel operand env1 = .ok (operand1, env2, o2))
    (ht : operand1.type = "int" ∨ operand1.type = "int*") :
    treeTraversal (fuel + 1) (Tree.mk rule [star, operand] ty lex) env
      = .ok (Tree.mk rule [star1, operand1] "int" lex, env2,
          o1 ++ starDiag operand.type ++ o2 ++ starDiag operand1.type)
    ∧ starDiag "int*" = [] ∧ starDiag "" = []
    ∧ starDiag "int" = ["ERROR: In rule [factor STAR factor]: Expected child of type int*"] := by
  refine ⟨?_, by decide, by decide, by decide⟩
  have hs1 : star1.rule = "STAR" := by rw [treeTraversal_rule _ _ _ _ _ _ h1]; exact hstar
  have hne : operand1.type ≠ "" := by
    rcases ht with ht | ht <;> rw [ht] <;> decide
  have e0 : enterNode (Tree.mk rule [star, operand] ty lex) env
      = .ok (Tree.mk rule [star, operand] ty lex, env, []) := by
    rcases hrule with hr | hr <;> subst hr <;>
      exact enterNode_plain _ _ (by simp) (by simp) (by simp) (by simp) (by simp) (by simp)
        (Or.inr (by simp))
  simp [treeTraversal, e0, traverseChildren, Tree.child, h1, h2, afterChild_star, hrule, hs1,
    hne]

/-- Witness of C8: `*NULL` on a freshly built tree, nothing reported. -/
theorem deref_star_witness :
    treeTraversal 3
        (Tree.mk "factor"
          [Tree.mk "STAR" [] "" "*", Tree.mk "factor" [Tree.mk "NULL" [] "int*" "NULL"] "" ""] "" "")
        Env.init
      = .ok (Tree.mk "factor"
          [Tree.mk "STAR" [] "" "*", Tree.mk "factor" [Tree.mk "NULL" [] "int*" "NULL"] "int*" ""]
          "int" "", Env.init, []) :=
  (deref_star 2 "factor" (Tree.mk "STAR" [] "" "*")
    (Tree.mk "factor" [Tree.mk "NULL" [] "int*" "NULL"] "" "") (Tree.mk "STAR" [] "" "*")
    (Tree.mk "factor" [Tree.mk "NULL" [] "int*" "NULL"] "int*" "") "" "" Env.init Env.init
    Env.init [] [] (Or.inl rfl) (by decide) (by decide) (by decide) (Or.inr (by decide))).1

/-! ## C9 -/

/-- C9: a five-child `statement` node `<PRINTLN, LPAREN, expr, RPAREN, SEMI>` whose
third child carries no type before its traversal, as every node that `buildTree`
attaches under the name `expr` does (last part), is traversed to completion
whenever its five children are, and is left without a type. What its own rule
writes is `printlnDiag` of the type the expression has after its traversal,
after the third, the fourth and the fifth child, and nothing after the first
two: it reports when that type is `int*` and writes no line at all when that
type is `int`. -/
theorem println_check (fuel : Nat) (c0 c1 c2 c3 c4 d0 d1 d2 d3 d4 : Tree) (ty lex : String)
    (env env1 env2 env3 env4 env5 : Env) (o1 o2 o3 o4 o5 : List String)
    (hp : c0.rule = "PRINTLN") (hfresh : c2.type = "")
    (h1 : treeTraversal fuel c0 env = .ok (d0, env1, o1))
    (h2 : treeTraversal fuel c1 env1 = .ok (d1, env2, o2))
    (h3 : treeTraversal fuel c2 env2 = .ok (d2, env3, o3))
    (h4 : treeTraversal fuel c3 env3 = .ok (d3, env4, o4))
    (h5 : treeTraversal fuel c4 env4 = .ok (d4, env5, o5)) :
    treeTraversal (fuel + 1) (Tree.mk "statement" [c0, c1, c2, c3, c4] ty lex) env
      = .ok (Tree.mk "statement" [d0, d1, d2, d3, d4] "" lex, env5,
          o1 ++ o2 ++ o3 ++ printlnDiag d2.type ++ o4 ++ printlnDiag d2.type
            ++ o5 ++ printlnDiag d2.type)
    ∧ (d2.type = "int*" → printlnDiag d2.type
        = ["ERROR: In rule [statement PRINTLN LPAREN expr RPAREN SEMI]: expr does not have type int"])
    ∧ (d2.type = "int" → printlnDiag d2.type = [])
    ∧ (printlnDiag d2.type ≠ [] ↔ (d2.type ≠ "" ∧ d2.type ≠ "int"))
    ∧ (∀ (f : Nat) (lines : List String) (s s1 : BuildState) (t p : Tree) (o : List String),
        buildTree f lines (Tree.new "expr") s = .ok (t, s1, o) →
        t.rule = "expr" ∧ t.type = "" ∧ (p.addChild t).children = p.children ++ [t]) := by
  refine ⟨?_, ?_, ?_, ?_, ?_⟩
  · rw [println_traversal fuel c0 c1 c2 c3 c4 d0 d1 d2 d3 d4 ty lex env env1 env2 env3 env4
      env5 o1 o2 o3 o4 o5 hp h1 h2 h3 h4 h5, hfresh]
    simp [printlnDiag]
  · intro h; rw [h]; rfl
  · intro h; rw [h]; rfl
  · unfold printlnDiag
    split_ifs with h <;> simp [h]
  · intro f lines s s1 t p o h
    exact buildTree_attaches_untyped f lines "expr" s s1 t p o h (by decide) (by decide)

/-- Witness of C9: `println(NULL)` on a freshly built tree, reported after each of
the last three children. -/
theorem println_check_witness :
    treeTraversal 3
        (Tree.mk "statement"
          [Tree.mk "PRINTLN" [] "" "println", Tree.mk "LPAREN" [] "" "(",
           Tree.mk "expr" [Tree.mk "NULL" [] "int*" "NULL"] "" "", Tree.mk "RPAREN" [] "" ")",
           Tree.mk "SEMI" [] "" ";"] "" "")
        Env.init
      = .ok (Tree.mk "statement"
          [Tree.mk "PRINTLN" [] "" "println", Tree.mk "LPAREN" [] "" "(",
           Tree.mk "expr" [Tree.mk "NULL" [] "int*" "NULL"] "int*" "", Tree.mk "RPAREN" [] "" ")",
           Tree.mk "SEMI" [] "" ";"] "" "", Env.init,
          ["ERROR: In rule [statement PRINTLN LPAREN expr RPAREN SEMI]: expr does not have type int",
           "ERROR: In rule [statement PRINTLN LPAREN expr RPAREN SEMI]: expr does not have type int",
           "ERROR: In rule [statement PRINTLN LPAREN expr RPAREN SEMI]: expr does not have type int"]) :=
  (println_check 2 (Tree.mk "PRINTLN" [] "" "println") (Tree.mk "LPAREN" [] "" "(")
    (Tree.mk "expr" [Tree.mk "NULL" [] "int*" "NULL"] "" "") (Tree.mk "RPAREN" [] "" ")")
    (Tree.mk "SEMI" [] "" ";") (Tree.mk "PRINTLN" [] "" "println") (Tree.mk "LPAREN" [] "" "(")
    (Tree.mk "expr" [Tree.mk "NULL" [] "int*" "NULL"] "int*" "") (Tree.mk "RPAREN" [] "" ")")
    (Tree.mk "SEMI" [] "" ";") "" "" Env.init Env.init Env.init Env.init Env.init Env.init
    [] [] [] [] [] (by decide) rfl (by decide) (by decide) (by decide) (by decide)
    (by decide)).1

/-! ## C10 -/

/-- C10: `getType` returns the scope it was called on; for a bound name it
returns the bound type and writes nothing; for an absent name it returns `""`
and writes exactly one "was not declared" line; after `declareVariable(n, t)` on
a scope without `n`, `getType(n)` returns `t` silently and every other name gets
the result (type and lines) it got before. -/
theorem getType_returns_binding (s : SymbolTable) (n t : String) :
    (s.getType n).1 = s
    ∧ (∀ t0, s.find n = some t0 → s.getType n = (s, t0, []))
    ∧ (s.find n = none →
        s.getType n = (s, "", ["ERROR: Variable " ++ n ++ " was not declared"]))
    ∧ (s.find n = none →
        ((s.declareVariable n t).1.getType n).2 = (t, [])
        ∧ ∀ m, m ≠ n → ((s.declareVariable n t).1.getType m).2 = (s.getType m).2) := by
  refine ⟨?_, ?_, ?_, ?_⟩
  · unfold SymbolTable.getType
    cases s.find n <;> rfl
  · intro t0 h
    simp [SymbolTable.getType, h]
  · intro h
    simp [SymbolTable.getType, h, errorReport_variable]
  · intro h
    have hd : (s.declareVariable n t).1 = ⟨s.table ++ [(n, t)]⟩ := by
      simp [SymbolTable.declareVariable, h]
    rw [hd]
    constructor
    · have : (SymbolTable.mk (s.table ++ [(n, t)])).find n = some t :=
        lookup_append_absent s.table n t h
      simp [SymbolTable.getType, this]
    · intro m hm
      have : (SymbolTable.mk (s.table ++ [(n, t)])).find m = s.find m :=
        lookup_append_other s.table n m t hm
      simp only [SymbolTable.getType, this]
      cases s.find m <;> rfl

/-- Witness of C10: `getType_returns_binding` at a concrete input. -/
theorem getType_returns_binding_witness :
    (SymbolTable.mk [("x", "int")]).getType "x" = (SymbolTable.mk [("x", "int")], "int", [])
    ∧ (SymbolTable.mk [("x", "int")]).getType "p"
        = (SymbolTable.mk [("x", "int")], "", ["ERROR: Variable p was not declared"])
    ∧ (((SymbolTable.mk [("x", "int")]).declareVariable "p" "int*").1.getType "p").2
        = ("int*", []) :=
  ⟨(getType_returns_binding (SymbolTable.mk [("x", "int")]) "x" "int").2.1 "int" (by decide),
   (getType_returns_binding (SymbolTable.mk [("x", "int")]) "p" "int*").2.2.1 (by decide),
   ((getType_returns_binding (SymbolTable.mk [("x", "int")]) "p" "int*").2.2.2 (by decide)).1⟩

/-! ## C11 -/

/-- C11: `addProcedure` writes its "already exists" line exactly when the name is
registered, whatever the parameter list is; so on a registry without the name,
two registrations of it write nothing at the first call and exactly one line at
the second. -/
theorem addProcedure_reports_iff_exists (p : ProcedureTable) (name : String)
    (a1 a2 : List String) :
    (p.addProcedure name a1).2
      = (if p.procedureExists name = true then ["ERROR: Procedure already exists!"] else [])
    ∧ (p.procedureExists name = false →
        (p.addProcedure name a1).2 = []
        ∧ ((p.addProcedure name a1).1.addProcedure name a2).2
            = ["ERROR: Procedure already exists!"]
        ∧ (p.addProcedure name a1).2 ++ ((p.addProcedure name a1).1.addProcedure name a2).2
            = ["ERROR: Procedure already exists!"]) := by
  have e : errorReport "Procedure already exists!" (-1) = "ERROR: Procedure already exists!" := by
    decide
  have h1 : ∀ (q : ProcedureTable) (a : List String), (q.addProcedure name a).2
      = (if q.procedureExists name = true then ["ERROR: Procedure already exists!"] else []) := by
    intro q a
    simp [ProcedureTable.addProcedure, e]
  refine ⟨h1 p a1, ?_⟩
  intro hp
  have h2 : (p.addProcedure name a1).2 = [] := by rw [h1, hp]; rfl
  have h3 : ((p.addProcedure name a1).1.addProcedure name a2).2
      = ["ERROR: Procedure already exists!"] := by
    rw [h1, procedureExists_addProcedure]; rfl
  exact ⟨h2, h3, by rw [h2, h3]; rfl⟩

/-- Witness of C11: `f` registered twice on the empty registry, with different
parameter lists. -/
theorem addProcedure_reports_iff_exists_witness :
    ((ProcedureTable.mk []).addProcedure "f" ["int"]).2 = []
    ∧ (((ProcedureTable.mk []).addProcedure "f" ["int"]).1.addProcedure "f" []).2
        = ["ERROR: Procedure already exists!"]
    ∧ ((ProcedureTable.mk []).addProcedure "f" ["int"]).2
        ++ (((ProcedureTable.mk []).addProcedure "f" ["int"]).1.addProcedure "f" []).2
        = ["ERROR: Procedure already exists!"] :=
  (addProcedure_reports_iff_exists (ProcedureTable.mk []) "f" ["int"] []).2 (by decide)

/-! ## C12 -/

/-- C12, the divergence. On the program `twoProcedures`, where `f` has the one
parameter `int a` and the later `g` the one parameter `int* b`, the walk writes
no diagnostic and leaves the registry entry of `g` with two types, the `int`
of `f` before its own `int*`. The cause is in the rule of `paramlist`: it
appends to the accumulated list and commits the whole list under the open
procedure name, and no call of `treeTraversal` ever shortens the list: what it
held on entry is a prefix of what it holds on return. -/
theorem later_procedure_holds_earlier_parameters :
    registryAfter twoProcedures
      = .ok (ProcedureTable.mk [("f", ["int"]), ("g", ["int", "int*"])])
    ∧ (main twoProcedures).map Output.cerr = .ok []
    ∧ (∀ (node : Tree) (env env1 : Env) (o : List String), node.rule = "paramlist" →
        node.children.length = 1 → enterParamlist node env = .ok (env1, o) →
        ∃ ty, env1.parameterTypeList = env.parameterTypeList ++ [ty]
          ∧ env1.procedureTable.table.lookup env.procedureName
              = some (env.parameterTypeList ++ [ty]))
    ∧ (∀ (fuel : Nat) (node n : Tree) (env env1 : Env) (o : List String),
        treeTraversal fuel node env = .ok (n, env1, o) →
        env.parameterTypeList <+: env1.parameterTypeList) := by
  refine ⟨by decide!, by decide!, ?_, treeTraversal_params⟩
  intro node env env1 o hr hl h
  unfold enterParamlist at h
  simp only [bind, Except.bind, pure, Except.pure] at h
  repeat' split at h
  all_goals try cases h
  all_goals first
    | exact ⟨_, rfl, mapAssign_lookup _ _ _⟩
    | simp_all [Tree.getChildrenSize]

/-! ## C13 -/

/-- Counterexample to C13 as stated. The lines below are the derivation of
`NULL * 1`; `buildTree` makes of them a three-child `term` node
`<term, STAR, factor>`, whose operands have the types `int*` and `int` after the
traversal. The rule reports, and the type left on the `term` node is `int*`,
the type of its left operand, not `int`. -/
theorem term_keeps_pointer_type :
    buildTree 7
        ["term term STAR factor", "term factor", "factor NULL", "NULL NULL", "STAR *",
         "factor NUM", "NUM 1"] (Tree.new "term") ⟨0, false⟩
      = .ok (Tree.mk "term"
          [Tree.mk "term" [Tree.mk "factor" [Tree.mk "NULL" [] "int*" "NULL"] "" ""] "" "",
           Tree.mk "STAR" [] "" "*",
           Tree.mk "factor" [Tree.mk "NUM" [] "int" "1"] "" ""] "" "", ⟨6, false⟩, [])
    ∧ treeTraversal 4
        (Tree.mk "term"
          [Tree.mk "term" [Tree.mk "factor" [Tree.mk "NULL" [] "int*" "NULL"] "" ""] "" "",
           Tree.mk "STAR" [] "" "*",
           Tree.mk "factor" [Tree.mk "NUM" [] "int" "1"] "" ""] "" "") Env.init
      = .ok (Tree.mk "term"
          [Tree.mk "term" [Tree.mk "factor" [Tree.mk "NULL" [] "int*" "NULL"] "int*" ""] "int*" "",
           Tree.mk "STAR" [] "" "*",
           Tree.mk "factor" [Tree.mk "NUM" [] "int" "1"] "int" ""] "int*" "", Env.init,
          ["ERROR: In rule [term term STAR factor]: factor child is not type int",
           "ERROR: In rule [term term STAR factor]: factor child is not type int",
           "ERROR: In rule [term term STAR factor]: factor child is not type int"]) := by
  decide!

/-- C13, as amended. A three-child `term` node `<left, STAR or SLASH or PCT, right>`
is traversed to completion whenever its three children are, and is left with the
type of its left operand: `int` when that operand is `int`, `int*` when it is
`int*`. Its own rule runs after each child and sets no type: it writes "factor
child is not type int" after the first and second child when the left operand is
`int*` after its traversal or the right operand is typed `int*` before its
traversal, and after the third child when one of the two operands is `int*`
after its traversal; it writes nothing else. In particular two `int` operands
draw no report unless the right one carried `int*` beforehand. -/
theorem term_multiplicative (fuel : Nat) (left op right left1 op1 right1 : Tree)
    (ty lex : String) (env env1 env2 env3 : Env) (o1 o2 o3 : List String)
    (hop : op.rule = "STAR" ∨ op.rule = "SLASH" ∨ op.rule = "PCT")
    (h1 : treeTraversal fuel left env = .ok (left1, env1, o1))
    (h2 : treeTraversal fuel op env1 = .ok (op1, env2, o2))
    (h3 : treeTraversal fuel right env2 = .ok (right1, env3, o3)) :
    treeTraversal (fuel + 1) (Tree.mk "term" [left, op, right] ty lex) env
      = .ok (Tree.mk "term" [left1, op1, right1] left1.type lex, env3,
          o1 ++ termDiag op.rule left1.type right.type
            ++ o2 ++ termDiag op.rule left1.type right.type
            ++ o3 ++ termDiag op.rule left1.type right1.type)
    ∧ (∀ o l r, termDiag o l r ≠ [] ↔ (l = "int*" ∨ r = "int*"))
    ∧ (∀ o l r, termDiag o l r = []
        ∨ termDiag o l r
            = ["ERROR: In rule [term term " ++ o ++ " factor]: factor child is not type int"])
    := by
  refine ⟨?_, ?_, ?_⟩
  · have hop1 : op1.rule = op.rule := treeTraversal_rule _ _ _ _ _ _ h2
    have hop' : op1.rule = "STAR" ∨ op1.rule = "SLASH" ∨ op1.rule = "PCT" := by
      rw [hop1]; exact hop
    have e0 : enterNode (Tree.mk "term" [left, op, right] ty lex) env
        = .ok (Tree.mk "term" [left, op, right] ty lex, env, []) :=
      enterNode_plain _ _ (by simp) (by simp) (by simp) (by simp) (by simp) (by simp)
        (Or.inl (by simp))
    simp [treeTraversal, e0, traverseChildren, Tree.child, h1, h2, h3, afterChild_term, hop,
      hop', hop1]
  · intro o l r
    unfold termDiag
    split_ifs with h <;> simp [h]
  · intro o l r
    unfold termDiag
    split_ifs with h <;> simp

/-- Witness of C13: `1 * NULL` on a freshly built tree: the right operand is
`int*`, the rule reports once, after the third child, and the `term` is `int`. -/
theorem term_multiplicative_witness :
    treeTraversal 4
        (Tree.mk "term"
          [Tree.mk "term" [Tree.mk "factor" [Tree.mk "NUM" [] "int" "1"] "" ""] "" "",
           Tree.mk "STAR" [] "" "*",
           Tree.mk "factor" [Tree.mk "NULL" [] "int*" "NULL"] "" ""] "" "") Env.init
      = .ok (Tree.mk "term"
          [Tree.mk "term" [Tree.mk "factor" [Tree.mk "NUM" [] "int" "1"] "int" ""] "int" "",
           Tree.mk "STAR" [] "" "*",
           Tree.mk "factor" [Tree.mk "NULL" [] "int*" "NULL"] "int*" ""] "int" "", Env.init,
          [] ++ termDiag "STAR" "int" "" ++ [] ++ termDiag "STAR" "int" ""
            ++ [] ++ termDiag "STAR" "int" "int*") :=
  (term_multiplicative 3
    (Tree.mk "term" [Tree.mk "factor" [Tree.mk "NUM" [] "int" "1"] "" ""] "" "")
    (Tree.mk "STAR" [] "" "*")
    (Tree.mk "factor" [Tree.mk "NULL" [] "int*" "NULL"] "" "")
    (Tree.mk "term" [Tree.mk "factor" [Tree.mk "NUM" [] "int" "1"] "int" ""] "int" "")
    (Tree.mk "STAR" [] "" "*")
    (Tree.mk "factor" [Tree.mk "NULL" [] "int*" "NULL"] "int*" "")
    "" "" Env.init Env.init Env.init Env.init [] [] []
    (Or.inl (by decide)) (by decide!) (by decide!) (by decide!)).1

/-! ## C14 -/

/-- C14: a four-child `statement` node `<lvalue, BECOMES, expr, SEMI>` and a
three-child `test` node `<expr, op, expr>` whose third child carries no type
before its traversal, as every node that `buildTree` attaches under the name
`expr` does (last part), are traversed to completion whenever their children
are, and are left without a type. What the rule of the node writes is
`mismatchDiag` of the types the two sides have after their traversals, after
the third child (and, in a statement, again after the fourth), and nothing
after the first two children: it reports exactly when both sides are typed
after traversal and the two types differ, and writes nothing when a side is
unset. -/
theorem two_sided_checks :
    (∀ (fuel : Nat) (c0 c1 c2 c3 d0 d1 d2 d3 : Tree) (ty lex : String)
        (env env1 env2 env3 env4 : Env) (o1 o2 o3 o4 : List String),
        c2.type = "" →
        treeTraversal fuel c0 env = .ok (d0, env1, o1) →
        treeTraversal fuel c1 env1 = .ok (d1, env2, o2) →
        treeTraversal fuel c2 env2 = .ok (d2, env3, o3) →
        treeTraversal fuel c3 env3 = .ok (d3, env4, o4) →
        treeTraversal (fuel + 1) (Tree.mk "statement" [c0, c1, c2, c3] ty lex) env
          = .ok (Tree.mk "statement" [d0, d1, d2, d3] "" lex, env4,
              o1 ++ o2 ++ o3 ++ mismatchDiag "Type Mismatch" d0.type d2.type
                ++ o4 ++ mismatchDiag "Type Mismatch" d0.type d2.type))
    ∧ (∀ (fuel : Nat) (c0 c1 c2 d0 d1 d2 : Tree) (ty lex : String)
        (env env1 env2 env3 : Env) (o1 o2 o3 : List String),
        c2.type = "" →
        treeTraversal fuel c0 env = .ok (d0, env1, o1) →
        treeTraversal fuel c1 env1 = .ok (d1, env2, o2) →
        treeTraversal fuel c2 env2 = .ok (d2, env3, o3) →
        treeTraversal (fuel + 1) (Tree.mk "test" [c0, c1, c2] ty lex) env
          = .ok (Tree.mk "test" [d0, d1, d2] "" lex, env3,
              o1 ++ o2 ++ o3
                ++ mismatchDiag "Type mismatch during comparision" d0.type d2.type))
    ∧ (∀ msg l r, mismatchDiag msg l r ≠ [] ↔ (l ≠ "" ∧ r ≠ "" ∧ l ≠ r))
    ∧ (∀ msg l r, mismatchDiag msg l r = [] ∨ mismatchDiag msg l r = ["ERROR: " ++ msg])
    ∧ (∀ (f : Nat) (lines : List String) (s s1 : BuildState) (t p : Tree) (o : List String),
        buildTree f lines (Tree.new "expr") s = .ok (t, s1, o) →
        t.rule = "expr" ∧ t.type = "" ∧ (p.addChild t).children = p.children ++ [t]) := by
  refine ⟨?_, ?_, mismatchDiag_ne_nil, mismatchDiag_cases, ?_⟩
  · intro fuel c0 c1 c2 c3 d0 d1 d2 d3 ty lex env env1 env2 env3 env4 o1 o2 o3 o4 hf h1 h2 h3 h4
    rw [assignment_traversal fuel c0 c1 c2 c3 d0 d1 d2 d3 ty lex env env1 env2 env3 env4
      o1 o2 o3 o4 h1 h2 h3 h4, hf, mismatchDiag_empty_right]
    simp
  · intro fuel c0 c1 c2 d0 d1 d2 ty lex env env1 env2 env3 o1 o2 o3 hf h1 h2 h3
    rw [test_traversal fuel c0 c1 c2 d0 d1 d2 ty lex env env1 env2 env3 o1 o2 o3 h1 h2 h3, hf,
      mismatchDiag_empty_right]
    simp
  · intro f lines s s1 t p o h
    exact buildTree_attaches_untyped f lines "expr" s s1 t p o h (by decide) (by decide)

/-- Witness of C14: the comparison `1 < NULL` on a freshly built tree, `int`
against `int*`: the mismatch is written once, after the third child. -/
theorem two_sided_checks_witness :
    treeTraversal 5
        (Tree.mk "test"
          [Tree.mk "expr" [Tree.mk "term" [Tree.mk "factor" [Tree.mk "NUM" [] "int" "1"] "" ""]
            "" ""] "" "",
           Tree.mk "LT" [] "" "<",
           Tree.mk "expr" [Tree.mk "term" [Tree.mk "factor" [Tree.mk "NULL" [] "int*" "NULL"] "" ""]
            "" ""] "" ""] "" "") Env.init
      = .ok (Tree.mk "test"
          [Tree.mk "expr" [Tree.mk "term" [Tree.mk "factor" [Tree.mk "NUM" [] "int" "1"] "int" ""]
            "int" ""] "int" "",
           Tree.mk "LT" [] "" "<",
           Tree.mk "expr" [Tree.mk "term" [Tree.mk "factor" [Tree.mk "NULL" [] "int*" "NULL"]
            "int*" ""] "int*" ""] "int*" ""] "" "", Env.init,
          ["ERROR: Type mismatch during comparision"]) :=
  two_sided_checks.2.1 4
    (Tree.mk "expr" [Tree.mk "term" [Tree.mk "factor" [Tree.mk "NUM" [] "int" "1"] "" ""]
      "" ""] "" "")
    (Tree.mk "LT" [] "" "<")
    (Tree.mk "expr" [Tree.mk "term" [Tree.mk "factor" [Tree.mk "NULL" [] "int*" "NULL"] "" ""]
      "" ""] "" "")
    (Tree.mk "expr" [Tree.mk "term" [Tree.mk "factor" [Tree.mk "NUM" [] "int" "1"] "int" ""]
      "int" ""] "int" "")
    (Tree.mk "LT" [] "" "<")
    (Tree.mk "expr" [Tree.mk "term" [Tree.mk "factor" [Tree.mk "NULL" [] "int*" "NULL"]
      "int*" ""] "int*" ""] "int*" "")
    "" "" Env.init Env.init Env.init Env.init [] [] []
    rfl (by decide!) (by decide!) (by decide!)

/-! ## C15 -/

/-- Counterexample to C15 as stated. In a scope that binds only `x`, the
one-child `factor` and `lvalue` nodes over the identifier `y`, as `buildTree`
makes them: the `factor` writes four lines, three "was not declared" reports of
the scope lookup and a diagnostic of its own, and the `lvalue` writes two
reports and the diagnostic of its own. -/
theorem undeclared_identifier_reported_repeatedly :
    buildTree 2 ["factor ID", "ID y"] (Tree.new "factor") ⟨0, false⟩
      = .ok (Tree.mk "factor" [Tree.mk "ID" [] "" "y"] "" "", ⟨1, false⟩, [])
    ∧ treeTraversal 2 (Tree.mk "factor" [Tree.mk "ID" [] "" "y"] "" "")
        ⟨[SymbolTable.mk [("x", "int")]], ProcedureTable.mk [], "", [], 1⟩
      = .ok (Tree.mk "factor" [Tree.mk "ID" [] "" "y"] "" "",
          ⟨[SymbolTable.mk [("x", "int")]], ProcedureTable.mk [], "", [], 1⟩,
          ["ERROR: Variable y was not declared", "ERROR: Variable y was not declared",
           "ERROR: Variable y was not declared", "ERROR: Variable not declared! "])
    ∧ treeTraversal 2 (Tree.mk "lvalue" [Tree.mk "ID" [] "" "y"] "" "")
        ⟨[SymbolTable.mk [("x", "int")]], ProcedureTable.mk [], "", [], 1⟩
      = .ok (Tree.mk "lvalue" [Tree.mk "ID" [] "" "y"] "" "",
          ⟨[SymbolTable.mk [("x", "int")]], ProcedureTable.mk [], "", [], 1⟩,
          ["ERROR: Variable y was not declared", "ERROR: Variable y was not declared",
           "ERROR: Variable not declared! "]) := by
  decide!

/-- C15, as amended. For a one-child `factor` or `lvalue` node over an `ID` leaf
whose lexeme is not bound in the live scope, the traversal completes and leaves
the scope and the other variables as they were. The scope lookup is made three
times for a `factor` and twice for an `lvalue`, and writes "was not declared"
each time; the rule then writes "Variable not declared! " itself: four lines for
a `factor`, three for an `lvalue`. The `ID` child keeps the type it had and the
node takes that type: both are unset on a freshly built tree. -/
theorem undeclared_identifier (fuel : Nat) (name idty ty lex : String) (env : Env)
    (s : SymbolTable) (hs : back env.symbolTableStack = .ok s) (hn : s.find name = none) :
    treeTraversal (fuel + 2) (Tree.mk "factor" [Tree.mk "ID" [] idty name] ty lex) env
      = .ok (Tree.mk "factor" [Tree.mk "ID" [] idty name] idty lex, env,
          ["ERROR: Variable " ++ name ++ " was not declared",
           "ERROR: Variable " ++ name ++ " was not declared",
           "ERROR: Variable " ++ name ++ " was not declared",
           "ERROR: Variable not declared! "])
    ∧ treeTraversal (fuel + 2) (Tree.mk "lvalue" [Tree.mk "ID" [] idty name] ty lex) env
      = .ok (Tree.mk "lvalue" [Tree.mk "ID" [] idty name] idty lex, env,
          ["ERROR: Variable " ++ name ++ " was not declared",
           "ERROR: Variable " ++ name ++ " was not declared",
           "ERROR: Variable not declared! "]) := by
  have hleaf : treeTraversal (fuel + 1) (Tree.mk "ID" [] idty name) env
      = .ok (Tree.mk "ID" [] idty name, env, []) :=
    treeTraversal_leaf fuel "ID" idty name env (by decide) (by decide) (by decide) (by decide)
      (by decide) (by decide)
  constructor
  · rw [treeTraversal]
    simp [enterNode_factor_undeclared name idty ty lex env s hs hn, traverseChildren,
      Tree.child, hleaf, afterChild_single_id]
  · rw [treeTraversal]
    simp [enterNode_lvalue_undeclared name idty ty lex env s hs hn, traverseChildren,
      Tree.child, hleaf, afterChild_single_id]

/-- Witness of C15: the identifier `y` in a scope that binds only `x`. -/
theorem undeclared_identifier_witness :
    treeTraversal 2 (Tree.mk "factor" [Tree.mk "ID" [] "" "y"] "" "")
        ⟨[SymbolTable.mk [("x", "int")]], ProcedureTable.mk [], "", [], 1⟩
      = .ok (Tree.mk "factor" [Tree.mk "ID" [] "" "y"] "" "",
          ⟨[SymbolTable.mk [("x", "int")]], ProcedureTable.mk [], "", [], 1⟩,
          ["ERROR: Variable " ++ "y" ++ " was not declared",
           "ERROR: Variable " ++ "y" ++ " was not declared",
           "ERROR: Variable " ++ "y" ++ " was not declared",
           "ERROR: Variable not declared! "]) :=
  (undeclared_identifier 0 "y" "" "" ""
    ⟨[SymbolTable.mk [("x", "int")]], ProcedureTable.mk [], "", [], 1⟩
    (SymbolTable.mk [("x", "int")]) (by decide) (by decide)).1

/-! ## C16 -/

/-- Counterexample to C16 as stated. On the six lines below `buildTree` makes a
`dcl` node whose second child is a childless `statement` node (a childless
`test` node in the second input). The rule of `dcl` types its second child
`int` on entry, the loop that clears a `statement` or `test` node never runs on
a node without children, and the walk writes no diagnostic: `printTree` prints
the node with the suffix ` : int`. -/
theorem childless_statement_keeps_type :
    main ["start procedures", "procedures dcl", "dcl type statement", "type INT", "INT int",
        "statement .EMPTY"]
      = .ok ⟨["start procedures", "procedures dcl", "dcl type statement", "type INT", "INT int",
          "statement .EMPTY : int"], []⟩
    ∧ main ["start procedures", "procedures dcl", "dcl type test", "type INT", "INT int",
        "test .EMPTY"]
      = .ok ⟨["start procedures", "procedures dcl", "dcl type test", "type INT", "INT int",
          "test .EMPTY : int"], []⟩ := by
  decide!

/-- C16, as amended. In the tree left by a completed `treeTraversal`, on any
tree, every node with rule `statement` or `test` that has at least one child
has the unset type, so its printed line, which is the line of `printTree` for
that node, carries no type suffix. A `statement` or `test` node without
children is returned by its own traversal as it was: it keeps the type it had
when its traversal began, which is unset as `buildTree` made it unless the
entry rule of its parent typed it. -/
theorem statements_and_tests_untyped (fuel : Nat) (node n : Tree) (env env1 : Env)
    (o : List String) (h : treeTraversal fuel node env = .ok (n, env1, o)) :
    (∀ m ∈ n.subtrees, (m.rule = "statement" ∨ m.rule = "test") → m.children ≠ [] →
        m.type = "" ∧ printType m = "" ∧ printHead m ++ printType m = printHead m)
    ∧ printTree n = n.subtrees.map (fun m => printHead m ++ printType m)
    ∧ (∀ (fuel2 : Nat) (r ty lex : String) (env2 : Env), r = "statement" ∨ r = "test" →
        treeTraversal (fuel2 + 1) (Tree.mk r [] ty lex) env2
          = .ok (Tree.mk r [] ty lex, env2, [])) := by
  refine ⟨?_, printTree_subtrees n, ?_⟩
  · intro m hm hr hne
    have ht : m.type = "" := treeTraversal_cleared fuel node n env env1 o h m hm hr hne
    have hp : printType m = "" := by simp [printType, ht]
    exact ⟨ht, hp, by rw [hp, String.append_empty]⟩
  · intro fuel2 r ty lex env2 hr
    rcases hr with hr | hr <;> subst hr <;>
      exact treeTraversal_leaf fuel2 _ ty lex env2 (by decide) (by decide) (by decide)
        (by decide) (by decide) (by decide)

/-- Witness of C16: the statement `println(NULL)`; the walk types its expression
and leaves the `statement` node untyped. -/
theorem statements_and_tests_untyped_witness :
    (Tree.mk "statement"
        [Tree.mk "PRINTLN" [] "" "println", Tree.mk "LPAREN" [] "" "(",
         Tree.mk "expr" [Tree.mk "term" [Tree.mk "factor" [Tree.mk "NULL" [] "int*" "NULL"]
          "int*" ""] "int*" ""] "int*" "",
         Tree.mk "RPAREN" [] "" ")", Tree.mk "SEMI" [] "" ";"] "" "").type = ""
    ∧ printType (Tree.mk "statement"
        [Tree.mk "PRINTLN" [] "" "println", Tree.mk "LPAREN" [] "" "(",
         Tree.mk "expr" [Tree.mk "term" [Tree.mk "factor" [Tree.mk "NULL" [] "int*" "NULL"]
          "int*" ""] "int*" ""] "int*" "",
         Tree.mk "RPAREN" [] "" ")", Tree.mk "SEMI" [] "" ";"] "" "") = ""
    ∧ printHead (Tree.mk "statement"
        [Tree.mk "PRINTLN" [] "" "println", Tree.mk "LPAREN" [] "" "(",
         Tree.mk "expr" [Tree.mk "term" [Tree.mk "factor" [Tree.mk "NULL" [] "int*" "NULL"]
          "int*" ""] "int*" ""] "int*" "",
         Tree.mk "RPAREN" [] "" ")", Tree.mk "SEMI" [] "" ";"] "" "")
        ++ printType (Tree.mk "statement"
        [Tree.mk "PRINTLN" [] "" "println", Tree.mk "LPAREN" [] "" "(",
         Tree.mk "expr" [Tree.mk "term" [Tree.mk "factor" [Tree.mk "NULL" [] "int*" "NULL"]
          "int*" ""] "int*" ""] "int*" "",
         Tree.mk "RPAREN" [] "" ")", Tree.mk "SEMI" [] "" ";"] "" "")
      = printHead (Tree.mk "statement"
        [Tree.mk "PRINTLN" [] "" "println", Tree.mk "LPAREN" [] "" "(",
         Tree.mk "expr" [Tree.mk "term" [Tree.mk "factor" [Tree.mk "NULL" [] "int*" "NULL"]
          "int*" ""] "int*" ""] "int*" "",
         Tree.mk "RPAREN" [] "" ")", Tree.mk "SEMI" [] "" ";"] "" "") :=
  (statements_and_tests_untyped 5
    (Tree.mk "statement"
      [Tree.mk "PRINTLN" [] "" "println", Tree.mk "LPAREN" [] "" "(",
       Tree.mk "expr" [Tree.mk "term" [Tree.mk "factor" [Tree.mk "NULL" [] "int*" "NULL"] "" ""]
        "" ""] "" "",
       Tree.mk "RPAREN" [] "" ")", Tree.mk "SEMI" [] "" ";"] "" "")
    (Tree.mk "statement"
      [Tree.mk "PRINTLN" [] "" "println", Tree.mk "LPAREN" [] "" "(",
       Tree.mk "expr" [Tree.mk "term" [Tree.mk "factor" [Tree.mk "NULL" [] "int*" "NULL"]
        "int*" ""] "int*" ""] "int*" "",
       Tree.mk "RPAREN" [] "" ")", Tree.mk "SEMI" [] "" ";"] "" "")
    Env.init Env.init
    ["ERROR: In rule [statement PRINTLN LPAREN expr RPAREN SEMI]: expr does not have type int",
     "ERROR: In rule [statement PRINTLN LPAREN expr RPAREN SEMI]: expr does not have type int",
     "ERROR: In rule [statement PRINTLN LPAREN expr RPAREN SEMI]: expr does not have type int"]
    (by decide!)).1 _ ((mem_subtrees _ _).mpr (Or.inl rfl)) (Or.inl rfl) (by simp)

/-! ## C17 -/

/-- C18: on every non-empty list of lines `buildTree`, started at cursor 0 with
the flag clear and one unit of fuel per line, returns and writes at most one
diagnostic; it writes one exactly when it leaves the flag set, and the index in
that diagnostic is the final cursor: no line is consumed after it. Running out
of lines with a child still to be read writes "Unexpected end of file" once,
sets the flag and attaches nothing. With the flag set the loop over the
children, of the node at hand and of every pending ancestor, attaches no child,
leaves the cursor where it is and writes nothing, whatever names are left on
the line; so a nonterminal line entered with the flag set gets no children. -/
theorem builder_stops_at_first_diagnostic :
    (∀ (lines : List String) (parent : Tree), lines ≠ [] →
        ∃ t s1 o, buildTree lines.length lines parent ⟨0, false⟩ = .ok (t, s1, o)
          ∧ o.length ≤ 1 ∧ (o ≠ [] ↔ s1.hasErrorOccurred = true)
          ∧ (o = [] ∨ o = [errorReport "Unexpected end of file" s1.idx]
              ∨ o = [errorReport "Missing lexeme for terminal symbol" s1.idx]))
    ∧ (∀ (lines : List String) (fuel : Nat) (parent : Tree) (s : BuildState),
        s.hasErrorOccurred = false → s.idx < lines.length → lines.length ≤ fuel + s.idx →
        BuildOutcome lines s (buildTree fuel lines parent s))
    ∧ (∀ (rec : Tree → BuildState → Except Fault (Tree × BuildState × List String))
        (lines : List String) (tok : String) (rest : List String) (parent : Tree)
        (s : BuildState), s.hasErrorOccurred = false → tok ≠ ".EMPTY" →
        lines.length ≤ s.idx + 1 →
        buildChildren rec lines (tok :: rest) parent s
          = .ok (parent, ⟨s.idx + 1, true⟩,
              [errorReport "Unexpected end of file" ((s.idx + 1 : Nat) : Int)]))
    ∧ (∀ (rec : Tree → BuildState → Except Fault (Tree × BuildState × List String))
        (lines toks : List String) (parent : Tree) (s : BuildState),
        s.hasErrorOccurred = true →
        buildChildren rec lines toks parent s = .ok (parent, s, []))
    ∧ (∀ (fuel : Nat) (lines : List String) (parent : Tree) (s : BuildState) (line : String),
        s.hasErrorOccurred = true → lines[s.idx]? = some line →
        isNonTerminal ((words line).headD "") = true →
        buildTree (fuel + 1) lines parent s = .ok (parent, s, [])) := by
  refine ⟨?_, ?_, buildChildren_eof, buildChildren_flag_set, buildTree_flag_set_nonterminal⟩
  · intro lines parent hne
    have hpos : 0 < lines.length := List.length_pos.mpr hne
    obtain ⟨t, s1, o, hr, _, hcase⟩ :=
      buildTree_once lines lines.length parent ⟨0, false⟩ rfl hpos (by simp)
    refine ⟨t, s1, o, hr, ?_⟩
    rcases hcase with ⟨ho, hf, _⟩ | ⟨hf, ho | ho⟩
    · subst ho
      exact ⟨by simp, by simp [hf], Or.inl rfl⟩
    · rw [ho]
      exact ⟨by simp, by simp [hf], Or.inr (Or.inl rfl)⟩
    · rw [ho]
      exact ⟨by simp, by simp [hf], Or.inr (Or.inr rfl)⟩
  · intro lines fuel parent s hf hlt hlen
    exact buildTree_once lines fuel parent s hf hlt hlen

/-- Witness of C18: a derivation cut after its third line. The child `main` of
`procedures` is not read, the diagnostic is written once, and the name `EOF`
left on the first line is not read either. -/
theorem builder_stops_at_first_diagnostic_witness :
    buildTree 3 ["start BOF procedures EOF", "BOF BOF", "procedures main"] (Tree.new "start")
        ⟨0, false⟩
      = .ok (Tree.mk "start"
          [Tree.mk "BOF" [] "" "BOF", Tree.mk "procedures" [] "" ""] "" "", ⟨3, true⟩,
          ["ERROR: Unexpected end of file Index: 3"])
    ∧ BuildOutcome ["start BOF procedures EOF", "BOF BOF", "procedures main"] ⟨0, false⟩
        (buildTree 3 ["start BOF procedures EOF", "BOF BOF", "procedures main"]
          (Tree.new "start") ⟨0, false⟩) :=
  ⟨by decide!,
    builder_stops_at_first_diagnostic.2.1
      ["start BOF procedures EOF", "BOF BOF", "procedures main"] 3 (Tree.new "start")
      ⟨0, false⟩ rfl (by decide) (by decide)⟩

/-! ## C19 -/

/-- C19: a completed `treeTraversal` changes type fields only: the tree with all
types erased is the same before and after, so the root (and, by the erased
equality, every node below it) keeps its rule, its lexeme and the number and
order of its children, and the printed lines without their type suffixes are the
same before and after the walk. -/
theorem traversal_changes_types_only (fuel : Nat) (node n : Tree) (env env1 : Env)
    (o : List String) (h : treeTraversal fuel node env = .ok (n, env1, o)) :
    n.eraseTypes = node.eraseTypes
    ∧ n.rule = node.rule ∧ n.lexeme = node.lexeme
    ∧ n.children.length = node.children.length
    ∧ Tree.eraseTypesList n.children = Tree.eraseTypesList node.children
    ∧ printHeads n = printHeads node
    ∧ List.Forall₂ IsAnnotated (printTree n) (printHeads node) := by
  have e := treeTraversal_shape fuel node n env env1 o h
  have hp : printHeads n = printHeads node := by
    rw [← printHeads_eraseTypes n, e, printHeads_eraseTypes]
  have hc : Tree.eraseTypesList n.children = Tree.eraseTypesList node.children := by
    cases n; cases node
    simp only [Tree.eraseTypes, Tree.mk.injEq] at e
    exact e.2.1
  refine ⟨e, ?_, ?_, ?_, hc, hp, ?_⟩
  · cases n; cases node
    simp only [Tree.eraseTypes, Tree.mk.injEq] at e
    exact e.1
  · cases n; cases node
    simp only [Tree.eraseTypes, Tree.mk.injEq] at e
    exact e.2.2.2
  · rw [← length_eraseTypesList n.children, hc, length_eraseTypesList]
  · rw [← hp]; exact printTree_annotated n

/-- Witness of C19: the walk over `expr -> term -> factor -> NUM 1` types three
nodes and changes nothing else. -/
theorem traversal_changes_types_only_witness :
    (Tree.mk "expr" [Tree.mk "term" [Tree.mk "factor" [Tree.mk "NUM" [] "int" "1"] "int" ""]
        "int" ""] "int" "").eraseTypes
      = (Tree.mk "expr" [Tree.mk "term" [Tree.mk "factor" [Tree.mk "NUM" [] "int" "1"] "" ""]
        "" ""] "" "").eraseTypes :=
  (traversal_changes_types_only 4
    (Tree.mk "expr" [Tree.mk "term" [Tree.mk "factor" [Tree.mk "NUM" [] "int" "1"] "" ""]
      "" ""] "" "")
    (Tree.mk "expr" [Tree.mk "term" [Tree.mk "factor" [Tree.mk "NUM" [] "int" "1"] "int" ""]
      "int" ""] "int" "")
    ⟨[SymbolTable.mk []], ProcedureTable.mk [], "", [], 1⟩ ⟨[SymbolTable.mk []], ProcedureTable.mk [], "", [], 1⟩
    [] (by decide!)).1

/-! ## C20 -/

/-- C20: the checks of a `statement` run once after every child and are not
deduplicated. On a freshly built node, whose third child carries no type before
its traversal (as every node `buildTree` attaches under a name other than `NUM`
and `NULL`), and whose children report nothing themselves: a four-child
assignment whose two sides get known, differing types writes "Type Mismatch"
exactly twice, and a `println` statement whose expression gets the type `int*`
writes its diagnostic exactly three times. -/
theorem diagnostic_multiplicity :
    (∀ (fuel : Nat) (c0 c1 c2 c3 d0 d1 d2 d3 : Tree) (ty lex : String)
        (env env1 env2 env3 env4 : Env),
        c2.type = "" →
        treeTraversal fuel c0 env = .ok (d0, env1, []) →
        treeTraversal fuel c1 env1 = .ok (d1, env2, []) →
        treeTraversal fuel c2 env2 = .ok (d2, env3, []) →
        treeTraversal fuel c3 env3 = .ok (d3, env4, []) →
        d0.type ≠ "" → d2.type ≠ "" → d0.type ≠ d2.type →
        treeTraversal (fuel + 1) (Tree.mk "statement" [c0, c1, c2, c3] ty lex) env
          = .ok (Tree.mk "statement" [d0, d1, d2, d3] "" lex, env4,
              ["ERROR: Type Mismatch", "ERROR: Type Mismatch"]))
    ∧ (∀ (fuel : Nat) (c0 c1 c2 c3 c4 d0 d1 d2 d3 d4 : Tree) (ty lex : String)
        (env env1 env2 env3 env4 env5 : Env),
        c0.rule = "PRINTLN" → c2.type = "" →
        treeTraversal fuel c0 env = .ok (d0, env1, []) →
        treeTraversal fuel c1 env1 = .ok (d1, env2, []) →
        treeTraversal fuel c2 env2 = .ok (d2, env3, []) →
        treeTraversal fuel c3 env3 = .ok (d3, env4, []) →
        treeTraversal fuel c4 env4 = .ok (d4, env5, []) →
        d2.type = "int*" →
        treeTraversal (fuel + 1) (Tree.mk "statement" [c0, c1, c2, c3, c4] ty lex) env
          = .ok (Tree.mk "statement" [d0, d1, d2, d3, d4] "" lex, env5,
              ["ERROR: In rule [statement PRINTLN LPAREN expr RPAREN SEMI]: expr does not have type int",
               "ERROR: In rule [statement PRINTLN LPAREN expr RPAREN SEMI]: expr does not have type int",
               "ERROR: In rule [statement PRINTLN LPAREN expr RPAREN SEMI]: expr does not have type int"]))
    ∧ (∀ (fuel : Nat) (lines : List String) (r : String) (s s1 : BuildState) (t p : Tree)
        (o : List String),
        buildTree fuel lines (Tree.new r) s = .ok (t, s1, o) → r ≠ "NUM" → r ≠ "NULL" →
        t.type = "" ∧ (p.addChild t).children = p.children ++ [t]) := by
  refine ⟨?_, ?_, ?_⟩
  · intro fuel c0 c1 c2 c3 d0 d1 d2 d3 ty lex env env1 env2 env3 env4 hf h1 h2 h3 h4 k0 k2 k
    have e0 : enterNode (Tree.mk "statement" [c0, c1, c2, c3] ty lex) env
        = .ok (Tree.mk "statement" [c0, c1, c2, c3] ty lex, env, []) :=
      enterNode_plain _ _ (by simp) (by simp) (by simp) (by simp) (by simp) (by simp)
        (Or.inl (by simp))
    simp [treeTraversal, e0, traverseChildren, Tree.child, h1, h2, h3, h4, afterChild_assign,
      mismatchDiag, hf, k0, k2, k]
  · intro fuel c0 c1 c2 c3 c4 d0 d1 d2 d3 d4 ty lex env env1 env2 env3 env4 env5 hp hf
      h1 h2 h3 h4 h5 k
    have hd0 : d0.rule = "PRINTLN" := by rw [treeTraversal_rule _ _ _ _ _ _ h1]; exact hp
    have e0 : enterNode (Tree.mk "statement" [c0, c1, c2, c3, c4] ty lex) env
        = .ok (Tree.mk "statement" [c0, c1, c2, c3, c4] ty lex, env, []) :=
      enterNode_plain _ _ (by simp) (by simp) (by simp) (by simp) (by simp) (by simp)
        (Or.inl (by simp))
    simp [treeTraversal, e0, traverseChildren, Tree.child, h1, h2, h3, h4, h5,
      afterChild_println, hd0, printlnDiag, hf, k]
  · intro fuel lines r s s1 t p o h hr1 hr2
    have hb := buildTree_rule_type _ _ _ _ _ _ _ h
    have hrule : t.rule = r := by rw [hb.1]; rfl
    have htype : t.type = "" := by rw [hb.2]; rfl
    refine ⟨htype, ?_⟩
    cases p
    simp [Tree.addChild, Tree.setChildren, Tree.getRule, hrule, hr1, hr2]

/-- Witness of C20: the assignment `x = NULL` with `x` declared `int`, two
reports, and the statement `println(NULL)`, three reports. -/
theorem diagnostic_multiplicity_witness :
    treeTraversal 5
        (Tree.mk "statement"
          [Tree.mk "lvalue" [Tree.mk "ID" [] "" "x"] "" "", Tree.mk "BECOMES" [] "" "=",
           Tree.mk "expr" [Tree.mk "term" [Tree.mk "factor" [Tree.mk "NULL" [] "int*" "NULL"] "" ""]
            "" ""] "" "",
           Tree.mk "SEMI" [] "" ";"] "" "")
        ⟨[SymbolTable.mk [("x", "int")]], ProcedureTable.mk [], "", [], 1⟩
      = .ok (Tree.mk "statement"
          [Tree.mk "lvalue" [Tree.mk "ID" [] "int" "x"] "int" "", Tree.mk "BECOMES" [] "" "=",
           Tree.mk "expr" [Tree.mk "term" [Tree.mk "factor" [Tree.mk "NULL" [] "int*" "NULL"]
            "int*" ""] "int*" ""] "int*" "",
           Tree.mk "SEMI" [] "" ";"] "" "",
          ⟨[SymbolTable.mk [("x", "int")]], ProcedureTable.mk [], "", [], 1⟩,
          ["ERROR: Type Mismatch", "ERROR: Type Mismatch"])
    ∧ treeTraversal 5
        (Tree.mk "statement"
          [Tree.mk "PRINTLN" [] "" "println", Tree.mk "LPAREN" [] "" "(",
           Tree.mk "expr" [Tree.mk "term" [Tree.mk "factor" [Tree.mk "NULL" [] "int*" "NULL"] "" ""]
            "" ""] "" "",
           Tree.mk "RPAREN" [] "" ")", Tree.mk "SEMI" [] "" ";"] "" "") Env.init
      = .ok (Tree.mk "statement"
          [Tree.mk "PRINTLN" [] "" "println", Tree.mk "LPAREN" [] "" "(",
           Tree.mk "expr" [Tree.mk "term" [Tree.mk "factor" [Tree.mk "NULL" [] "int*" "NULL"]
            "int*" ""] "int*" ""] "int*" "",
           Tree.mk "RPAREN" [] "" ")", Tree.mk "SEMI" [] "" ";"] "" "", Env.init,
          ["ERROR: In rule [statement PRINTLN LPAREN expr RPAREN SEMI]: expr does not have type int",
           "ERROR: In rule [statement PRINTLN LPAREN expr RPAREN SEMI]: expr does not have type int",
           "ERROR: In rule [statement PRINTLN LPAREN expr RPAREN SEMI]: expr does not have type int"]) :=
  ⟨diagnostic_multiplicity.1 4
      (Tree.mk "lvalue" [Tree.mk "ID" [] "" "x"] "" "") (Tree.mk "BECOMES" [] "" "=")
      (Tree.mk "expr" [Tree.mk "term" [Tree.mk "factor" [Tree.mk "NULL" [] "int*" "NULL"] "" ""]
        "" ""] "" "")
      (Tree.mk "SEMI" [] "" ";")
      (Tree.mk "lvalue" [Tree.mk "ID" [] "int" "x"] "int" "") (Tree.mk "BECOMES" [] "" "=")
      (Tree.mk "expr" [Tree.mk "term" [Tree.mk "factor" [Tree.mk "NULL" [] "int*" "NULL"]
        "int*" ""] "int*" ""] "int*" "")
      (Tree.mk "SEMI" [] "" ";") "" ""
      ⟨[SymbolTable.mk [("x", "int")]], ProcedureTable.mk [], "", [], 1⟩
      ⟨[SymbolTable.mk [("x", "int")]], ProcedureTable.mk [], "", [], 1⟩
      ⟨[SymbolTable.mk [("x", "int")]], ProcedureTable.mk [], "", [], 1⟩
      ⟨[SymbolTable.mk [("x", "int")]], ProcedureTable.mk [], "", [], 1⟩
      ⟨[SymbolTable.mk [("x", "int")]], ProcedureTable.mk [], "", [], 1⟩
      rfl (by decide!) (by decide!) (by decide!) (by decide!) (by decide) (by decide) (by decide),
    diagnostic_multiplicity.2.1 4
      (Tree.mk "PRINTLN" [] "" "println") (Tree.mk "LPAREN" [] "" "(")
      (Tree.mk "expr" [Tree.mk "term" [Tree.mk "factor" [Tree.mk "NULL" [] "int*" "NULL"] "" ""]
        "" ""] "" "")
      (Tree.mk "RPAREN" [] "" ")") (Tree.mk "SEMI" [] "" ";")
      (Tree.mk "PRINTLN" [] "" "println") (Tree.mk "LPAREN" [] "" "(")
      (Tree.mk "expr" [Tree.mk "term" [Tree.mk "factor" [Tree.mk "NULL" [] "int*" "NULL"]
        "int*" ""] "int*" ""] "int*" "")
      (Tree.mk "RPAREN" [] "" ")") (Tree.mk "SEMI" [] "" ";") "" ""
      Env.init Env.init Env.init Env.init Env.init Env.init
      rfl rfl (by decide!) (by decide!) (by decide!) (by decide!) (by decide!) rfl⟩

end TypeCheck
